import Mathlib

/-!
# Pixel-buffer-object streaming (`pboUnpack/src/main.cpp`)

A shallow embedding of the buffer pool (`setPboCount`), the per-frame transfer
scheduler (`displayCB`), the frame producer (`updatePixels`), the key handler
(`keyboardCB`) and the throughput meter (`printTransferRate`,
`resetTransferRate`).

Conventions of the embedding.

* The process-wide variables of the program are the fields of `State`; every
  function of the program is a function on `State`.
* What the device, the allocator and the clock answer is not decided by the
  program; it is an explicit argument (`TickEnv`, `GrowEnv`).
* Behaviour the C++ standard leaves undefined (integer division by zero,
  `operator[]` past the end of a vector, `back()`/`pop_back()` of an empty
  vector, a failed `assert`) is a `Fault`; the functions return
  `Except Fault State`.
* `int` additions are wrapped to 32 bits (`wrapInt`); the pattern counter of
  `updatePixels` is kept as its 32-bit pattern (`wrapColor`).
* `double` quantities of the meter are idealised as rationals.
* Device calls whose failure the source does not test for are taken to
  succeed.  The calls are recorded, in program order, in `State.events`; the
  lines written to `cout` are recorded in `State.log`.
-/

namespace PboUnpack

/-! ## Program constants -/

/-- Source constant `IMAGE_WIDTH`. -/
def IMAGE_WIDTH : Nat := 4096

/-- Source constant `IMAGE_HEIGHT`. -/
def IMAGE_HEIGHT : Nat := 4096

/-- Source constant `DATA_SIZE = IMAGE_WIDTH * IMAGE_HEIGHT * 4` (bytes per frame). -/
def DATA_SIZE : Nat := IMAGE_WIDTH * IMAGE_HEIGHT * 4

/-! ## Machine integers -/

/-- Value of a 32-bit two's-complement `int` holding the mathematical result `x`. -/
def wrapInt (x : Int) : Int := (x + 2147483648) % 4294967296 - 2147483648

/-- The 32-bit pattern of an `int` result, as stored into a 4-byte pixel. -/
def wrapColor (x : Nat) : Nat := x % 4294967296

/-! ## Enumerations -/

/-- Source enumeration `PboMethod` (texture streaming methods 0..4). -/
inductive PboMethod where
  | NONE
  | ORPHAN
  | UNSYNCH_ORPHAN
  | UNSYNCH_FENCES
  | AMD
deriving DecidableEq, Repr

/-- The integer value of an enumerator, `(int)pboMethod`. -/
def methodToNat : PboMethod → Nat
  | .NONE => 0
  | .ORPHAN => 1
  | .UNSYNCH_ORPHAN => 2
  | .UNSYNCH_FENCES => 3
  | .AMD => 4

/-- The cast `(PboMethod)k` for the values `keyboardCB` can produce. -/
def methodOfNat : Nat → PboMethod
  | 0 => .NONE
  | 1 => .ORPHAN
  | 2 => .UNSYNCH_ORPHAN
  | 3 => .UNSYNCH_FENCES
  | _ => .AMD

/-- Return values of `glClientWaitSync`. -/
inductive WaitResult where
  | ALREADY_SIGNALED
  | CONDITION_SATISFIED
  | TIMEOUT_EXPIRED
  | WAIT_FAILED
deriving DecidableEq, Repr

/-- Ways in which the program leaves defined behaviour. -/
inductive Fault where
  | divisionByZero
  | indexOutOfRange
  | emptyVector
  | assertionFailed
  | nullPointer
  | invalidPointer
deriving DecidableEq, Repr

/-- Lines written to `cout`, one constructor per output statement of the source. -/
inductive LogLine where
  /-- Line `ERROR [displayCB] (glMapBufferARB): ...` -/
  | errMapBufferARB
  /-- Line `ERROR [displayCB] (glUnmapBufferARB): ...` -/
  | errUnmapBufferARB
  /-- Line `WARNING (glClientWaitSync): TIMEOUT_EXPIRED (DMA transfers are too slow!) uploadIdx: n` -/
  | warnTimeoutExpired (uploadIdx : Int)
  /-- Line `ERROR (glClientWaitSync): WAIT_FAILED: ...` -/
  | errWaitFailed
  /-- Line `ERROR [displayCB] (glMapBufferRange): ...` -/
  | errMapBufferRange
  /-- Line `ERROR [displayCB] (glUnmapBuffer): ...` -/
  | errUnmapBuffer
  /-- Line `PBO Method: m` -/
  | pboMethodLine (m : PboMethod)
  /-- Line `Created PBO buffer #i of size: DATA_SIZE` -/
  | createdPbo (i : Int) (size : Nat)
  /-- Line `ERROR [alignedMalloc] (posix_memalign) size: s alignment: a` -/
  | errPosixMemalign (size alignment : Nat)
  /-- Line `ERROR [setPboCount] (alignedMalloc) size: s alignment: a` -/
  | errAlignedMalloc (size alignment : Nat)
  /-- Line `Created memory buffer #i of size: s alignment: a` -/
  | createdMemory (i : Int) (size alignment : Nat)
  /-- Line `ERROR [setPboCount] (glBufferData): ...` -/
  | errBufferData
  /-- Line `Freed memory buffer #i` -/
  | freedMemory (i : Int)
  /-- Line `Created PBO buffer #i` (pinned-memory branch) -/
  | createdPinnedPbo (i : Int)
  /-- Line `Deleted PBO buffer #i` -/
  | deletedPbo (i : Int)
  /-- Line `PBO Count: n` -/
  | pboCountLine (n : Int)
  /-- Line `Transfer Rate: r MB/s @ f FPS -- Average: ra MB/s @ fa FPS` -/
  | transferRate (rate fps rateAvg fpsAvg : ℚ)
deriving DecidableEq, Repr

/-- Device and allocator calls, recorded in program order. -/
inductive Event where
  /-- Call `glGenBuffers` returned the name `id`. -/
  | genBuffer (id : Nat)
  /-- Call `glBufferData` declared a store of `size` bytes for buffer `id`; `src` is the
  host pointer handed over in the pinned-memory branch, `none` for `NULL`. -/
  | bufferData (id size : Nat) (src : Option Nat)
  /-- Call `glDeleteBuffers` on the name `id`. -/
  | deleteBuffer (id : Nat)
  /-- Call `glMapBufferARB` / `glMapBufferRange` on the buffer of rotation slot `slot`;
  `ok` is false when the call returned `NULL`. -/
  | mapBuffer (slot id : Nat) (ok : Bool)
  /-- Call `glUnmapBufferARB` / `glUnmapBuffer`. -/
  | unmapBuffer (slot id : Nat) (ok : Bool)
  /-- Call `updatePixels` filled the buffer of rotation slot `slot`. -/
  | producerWrite (slot : Nat)
  /-- Call `updatePixels` filled the host array `imageData`. -/
  | producerWriteHost
  /-- Call `glClientWaitSync` on fence `f` returned `r`. -/
  | clientWaitSync (f : Nat) (r : WaitResult)
  /-- Call `glDeleteSync` on the live fence `f`. -/
  | deleteSync (f : Nat)
  /-- Call `glFenceSync` returned `f`, stored into `pboFences[slot]`, which held `prev`. -/
  | fenceSync (f slot : Nat) (prev : Option Nat)
  /-- Call `glTexSubImage2D` with the host array `src` (`imageData`) as its data
  argument; `none` is `NULL`. -/
  | texSubImageHost (src : Option (List Nat))
  /-- Call `glTexSubImage2D` at offset 0 of the bound buffer `id`, the buffer of slot `slot`. -/
  | texSubImageBuffer (slot id : Nat)
  /-- Call `alignedMalloc` returned the pointer `p`. -/
  | alignedMalloc (p : Nat)
  /-- Call `alignedFree` on the pointer `p`. -/
  | alignedFree (p : Nat)
deriving DecidableEq, Repr

/-! ## Device objects -/

/-- A buffer object of the device: its name, the size of its data store, the host
pointer backing it (pinned memory) and the 32-bit words of its content. A store
declared without initial data has content `[]`. -/
structure GLBuffer where
  id : Nat
  size : Nat
  pinned : Option Nat
  data : List Nat
deriving DecidableEq, Repr

/-- What the device and the clock answer during one `displayCB`. -/
structure TickEnv where
  /-- The map call returns a pointer (true) or `NULL` (false) -/
  mapOk : Bool
  /-- The unmap call returns `GL_TRUE` -/
  unmapOk : Bool
  /-- Result of `glClientWaitSync`, when it is called -/
  waitResult : WaitResult
  /-- Reading of `timer.getElapsedTime()` in `printTransferRate`, in seconds -/
  elapsedTime : ℚ
deriving DecidableEq, Repr

/-- What the allocator and the device answer while buffer `#i` is created in the
pinned-memory branch of `setPboCount`. -/
inductive GrowOutcome where
  /-- Both `alignedMalloc` and `glBufferData` succeed -/
  | ok
  /-- Call `posix_memalign` fails, `alignedMalloc` returns `NULL` -/
  | allocFails
  /-- Call `glBufferData` leaves an error -/
  | bufferDataFails
deriving DecidableEq, Repr

/-- Outcome of the creation of buffer `#i`, for each `i`. -/
abbrev GrowEnv := Nat → GrowOutcome

/-! ## Program state -/

/-- The global and function-static variables of `main.cpp`, the device objects
they refer to, and the record of calls and output. -/
structure State where
  /-- Line `pboSupported` -/
  pboSupported : Bool
  /-- Line `amdSupported` -/
  amdSupported : Bool
  /-- Line `systemPageSize` -/
  systemPageSize : Nat
  /-- Line `pboCount` -/
  pboCount : Int
  /-- Line `pboIds` -/
  pboIds : List Nat
  /-- Line `pboFences`; `none` is `NULL` -/
  pboFences : List (Option Nat)
  /-- Line `alignedBuffers` -/
  alignedBuffers : List Nat
  /-- Line `pboMethod` -/
  pboMethod : PboMethod
  /-- Line `drawMode` -/
  drawMode : Int
  /-- Static `copyIdx` of `displayCB` -/
  copyIdx : Int
  /-- Static `color` of `updatePixels`, as a 32-bit pattern -/
  color : Nat
  /-- Line `imageData`; `none` is `NULL` -/
  imageData : Option (List Nat)
  /-- Line `rateDiscarded` -/
  rateDiscarded : Int
  /-- Line `rateCount` -/
  rateCount : Int
  /-- Line `transferRateSum` -/
  transferRateSum : ℚ
  /-- Line `frameRateSum` -/
  frameRateSum : ℚ
  /-- Static `count` of `printTransferRate` -/
  count : Int
  /-- Buffer objects alive on the device -/
  glBuffers : List GLBuffer
  /-- Next unused buffer name -/
  nextBuffer : Nat
  /-- Sync objects alive on the device -/
  glSyncs : List Nat
  /-- Next unused sync handle -/
  nextSync : Nat
  /-- The device error flag read by `glGetError` -/
  glError : Bool
  /-- Live aligned host allocations and their content -/
  hostMem : List (Nat × List Nat)
  /-- Next unused host pointer -/
  nextPtr : Nat
  /-- Buffer bound to `GL_PIXEL_UNPACK_BUFFER`, 0 for none -/
  boundUnpack : Nat
  /-- Content of the texture; `[]` when undefined -/
  texture : List Nat
  /-- Line `exit(0)` has been called -/
  exited : Bool
  /-- Device and allocator calls so far, oldest first -/
  events : List Event
  /-- Lines written to `cout` so far, oldest first -/
  log : List LogLine
deriving DecidableEq, Repr

/-- The state when `glutMainLoop` is entered: no buffers, method `NONE`, the
texture buffer allocated and zeroed by `initSharedMem`. -/
def initState (pboSupported amdSupported : Bool) (systemPageSize : Nat) : State where
  pboSupported := pboSupported
  amdSupported := amdSupported
  systemPageSize := systemPageSize
  pboCount := 0
  pboIds := []
  pboFences := []
  alignedBuffers := []
  pboMethod := .NONE
  drawMode := 0
  copyIdx := 0
  color := 0
  imageData := some (List.replicate (IMAGE_WIDTH * IMAGE_HEIGHT) 0)
  rateDiscarded := 3
  rateCount := 0
  transferRateSum := 0
  frameRateSum := 0
  count := 0
  glBuffers := []
  nextBuffer := 1
  glSyncs := []
  nextSync := 1
  glError := false
  hostMem := []
  nextPtr := 1
  boundUnpack := 0
  texture := List.replicate (IMAGE_WIDTH * IMAGE_HEIGHT) 0
  exited := false
  events := []
  log := []

/-! ## Frame producer -/

/-- Inner loop of `updatePixels`: `n` consecutive stores of `color`. -/
def writeRow (color : Nat) : Nat → List Nat
  | 0 => []
  | j + 1 => color :: writeRow color j

/-- Outer loop of `updatePixels` over the remaining `rows` rows of `width` pixels:
the words stored, in address order, and the counter after the loop
(`color += 257` after each row). -/
def writeRows (width : Nat) : Nat → Nat → List Nat × Nat
  | 0, color => ([], color)
  | rows + 1, color =>
    let rest := writeRows width rows (wrapColor (color + 257))
    (writeRow color width ++ rest.1, rest.2)

/-- Function `updatePixels(dst, size)`. `dstNonNull` tells whether `dst` is a
non-null pointer and `color` is the static counter. The result is the content
written through `dst` (`none` when nothing is written) and the counter
afterwards (`++color` after the loops). The argument `size` is not used by the
source. -/
def updatePixels (dstNonNull : Bool) (_size : Nat) (color : Nat) : Option (List Nat) × Nat :=
  if dstNonNull then
    let r := writeRows IMAGE_WIDTH IMAGE_HEIGHT color
    (some r.1, wrapColor (r.2 + 1))
  else
    (none, color)

/-! ## Throughput meter -/

/-- Function `resetTransferRate`. -/
def resetTransferRate (s : State) : State :=
  { s with rateDiscarded := 3, rateCount := 0, transferRateSum := 0, frameRateSum := 0 }

/-- Function `printTransferRate`; `elapsedTime` is the reading of the static timer. -/
def printTransferRate (elapsedTime : ℚ) (s : State) : State :=
  if elapsedTime < 1 then
    { s with count := wrapInt (s.count + 1) }
  else if s.rateDiscarded > 0 then
    { s with rateDiscarded := wrapInt (s.rateDiscarded - 1), count := 0 }
  else
    let rateCount := wrapInt (s.rateCount + 1)
    let transferRate := ((s.count : ℚ) / elapsedTime) * (DATA_SIZE : ℚ) * (1 / (1024 * 1024))
    let transferRateSum := s.transferRateSum + transferRate
    let transferRateAvg := transferRateSum / (rateCount : ℚ)
    let frameRate := (s.count : ℚ) / elapsedTime
    let frameRateSum := s.frameRateSum + frameRate
    let frameRateAvg := frameRateSum / (rateCount : ℚ)
    { s with
      rateCount := rateCount
      transferRateSum := transferRateSum
      frameRateSum := frameRateSum
      count := 0
      log := s.log ++ [.transferRate transferRate frameRate transferRateAvg frameRateAvg] }

/-! ## Vectors and device tables -/

/-- Read of `v[i]` for an `int` index; outside `0 .. size-1` the behaviour is undefined. -/
def vecAt {α : Type} (xs : List α) (i : Int) : Except Fault α :=
  if i < 0 then .error .indexOutOfRange
  else
    match xs[i.toNat]? with
    | some x => .ok x
    | none => .error .indexOutOfRange

/-- Read of `v.back()`; undefined on an empty vector. -/
def vecBack {α : Type} (xs : List α) : Except Fault α :=
  match xs.getLast? with
  | some x => .ok x
  | none => .error .emptyVector

/-- Call `glIsSync(h)`: `h` names a live sync object. -/
def glIsSync (s : State) (h : Option Nat) : Bool :=
  match h with
  | some f => decide (f ∈ s.glSyncs)
  | none => false

/-- Call `glDeleteSync(h)`: `NULL` is ignored, a live fence is deleted, anything
else leaves `GL_INVALID_VALUE`. -/
def glDeleteSync (h : Option Nat) (s : State) : State :=
  match h with
  | none => s
  | some f =>
    if f ∈ s.glSyncs then
      { s with glSyncs := s.glSyncs.erase f, events := s.events ++ [.deleteSync f] }
    else
      { s with glError := true }

/-- The buffer object that `glGenBuffers` and the first `glBindBuffer` create for
the name `id`: no data store yet. -/
def newBuffer (id : Nat) : GLBuffer :=
  { id := id, size := 0, pinned := none, data := [] }

/-- Effect of `glBufferData` for buffer `id` on one entry `b` of the buffer table. -/
def setStore (id size : Nat) (src : Option Nat) (b : GLBuffer) : GLBuffer :=
  if b.id = id then { b with size := size, pinned := src, data := [] } else b

/-- Call `glBufferData(target, size, src, usage)` on buffer `id`: a new data store. -/
def glBufferData (id size : Nat) (src : Option Nat) (s : State) : State :=
  { s with
    glBuffers := s.glBuffers.map (setStore id size src)
    events := s.events ++ [.bufferData id size src] }

/-- Content the device reads from buffer `id`: the host allocation for a pinned
buffer, the data store otherwise. -/
def bufferContent (s : State) (id : Nat) : Option (List Nat) :=
  match s.glBuffers.find? fun b => b.id = id with
  | none => none
  | some b =>
    match b.pinned with
    | none => some b.data
    | some p => (s.hostMem.find? fun m => m.1 = p).map Prod.snd

/-- The assertion `assert(GL_NO_ERROR == glGetError())`. -/
def assertNoError (s : State) : Except Fault State :=
  if s.glError then .error .assertionFailed else .ok s

/-! ## Aligned host allocations -/

/-- The precondition check of `alignedMalloc`, `(alignment & (alignment - 1)) == 0`,
in `size_t` arithmetic (64 bits). -/
def alignmentCheck (alignment : Nat) : Bool :=
  (alignment &&& ((alignment + 18446744073709551615) % 18446744073709551616)) == 0

/-- Function `alignedMalloc(alignment, size)` (the `posix_memalign` branch). The
result is the pointer (`none` for `NULL`) and the state; `outcome` tells whether
`posix_memalign` succeeds. The block is zeroed by `memset`. -/
def alignedMalloc (outcome : GrowOutcome) (alignment size : Nat) (s : State) :
    Except Fault (Option Nat × State) :=
  if !alignmentCheck alignment then .error .assertionFailed
  else
    match outcome with
    | .allocFails => .ok (none, { s with log := s.log ++ [.errPosixMemalign size alignment] })
    | _ =>
      .ok (some s.nextPtr,
        { s with
          nextPtr := s.nextPtr + 1
          hostMem := s.hostMem ++ [(s.nextPtr, List.replicate (size / 4) 0)]
          events := s.events ++ [.alignedMalloc s.nextPtr] })

/-- Function `alignedFree(ptr)`: `free` of a live block; anything else is undefined. -/
def alignedFree (p : Nat) (s : State) : Except Fault State :=
  if s.hostMem.any fun m => m.1 = p then
    .ok { s with
      hostMem := s.hostMem.filter fun m => m.1 ≠ p
      events := s.events ++ [.alignedFree p] }
  else .error .invalidPointer

/-! ## Transfer-buffer pool: `setPboCount` -/

/-- Body of the creation loop of `setPboCount` for the methods other than `AMD`
(buffer `#i`): `glGenBuffers`, `glBindBuffer`, `glBufferData` with `NULL`,
unbind, two `push_back`, one output line. -/
def createPbo (i : Int) (s : State) : State :=
  let pboId := s.nextBuffer
  let s1 : State :=
    { s with
      nextBuffer := pboId + 1
      glBuffers := s.glBuffers ++ [newBuffer pboId]
      events := s.events ++ [.genBuffer pboId] }
  let s2 := glBufferData pboId DATA_SIZE none s1
  { s2 with
    boundUnpack := 0
    pboIds := s2.pboIds ++ [pboId]
    pboFences := s2.pboFences ++ [none]
    log := s2.log ++ [.createdPbo i DATA_SIZE] }

/-- The loop `for (int i = pboCount; i < count; ++i)` of the first branch, with `n`
iterations left. -/
def createLoop : Nat → Int → State → State
  | 0, _, s => s
  | n + 1, i, s => createLoop n (i + 1) (createPbo i s)

/-- Body of the creation loop of the `AMD` branch (buffer `#i`). The boolean is
false when the body leaves the loop by `break`. -/
def createPinnedPbo (env : GrowEnv) (i : Int) (s : State) : Except Fault (Bool × State) := do
  let pboId := s.nextBuffer
  let s1 : State :=
    { s with
      nextBuffer := pboId + 1
      glBuffers := s.glBuffers ++ [newBuffer pboId]
      events := s.events ++ [.genBuffer pboId] }
  let s1 ← assertNoError s1
  let r ← alignedMalloc (env i.toNat) s1.systemPageSize DATA_SIZE s1
  match r.1 with
  | none =>
    pure (false, { r.2 with log := r.2.log ++ [.errAlignedMalloc DATA_SIZE r.2.systemPageSize] })
  | some p =>
    let s3 : State :=
      { r.2 with log := r.2.log ++ [.createdMemory i DATA_SIZE r.2.systemPageSize] }
    match env i.toNat with
    | .bufferDataFails =>
      let s4 : State := { s3 with log := s3.log ++ [.errBufferData] }
      let s5 ← alignedFree p s4
      pure (false, { s5 with log := s5.log ++ [.freedMemory i] })
    | _ =>
      let s4 := glBufferData pboId DATA_SIZE (some p) s3
      let s5 ← assertNoError s4
      pure (true,
        { s5 with
          pboIds := s5.pboIds ++ [pboId]
          pboFences := s5.pboFences ++ [none]
          alignedBuffers := s5.alignedBuffers ++ [p]
          log := s5.log ++ [.createdPinnedPbo i] })

/-- The loop `for (int i = pboCount; i < count; ++i)` of the `AMD` branch, with `n`
iterations left. -/
def createPinnedLoop (env : GrowEnv) : Nat → Int → State → Except Fault State
  | 0, _, s => .ok s
  | n + 1, i, s => do
    let r ← createPinnedPbo env i s
    if r.1 then createPinnedLoop env n (i + 1) r.2 else pure r.2

/-- Body of the deletion loop for the methods other than `AMD` (buffer `#i`):
`glDeleteSync(pboFences.back())`, `pop_back`, `glDeleteBuffers` of
`pboIds.back()`, `pop_back`, one output line. -/
def deletePbo (i : Int) (s : State) : Except Fault State := do
  let h ← vecBack s.pboFences
  let s1 := glDeleteSync h s
  let s2 : State := { s1 with pboFences := s1.pboFences.dropLast }
  let pboId ← vecBack s2.pboIds
  pure
    { s2 with
      glBuffers := s2.glBuffers.filter fun b => b.id ≠ pboId
      events := s2.events ++ [.deleteBuffer pboId]
      pboIds := s2.pboIds.dropLast
      log := s2.log ++ [.deletedPbo i] }

/-- Body of the deletion loop of the `AMD` branch: as `deletePbo`, then
`alignedFree(alignedBuffers.back())`, `pop_back`, one more output line. -/
def deletePinnedPbo (i : Int) (s : State) : Except Fault State := do
  let s1 ← deletePbo i s
  let p ← vecBack s1.alignedBuffers
  let s2 ← alignedFree p s1
  pure
    { s2 with
      alignedBuffers := s2.alignedBuffers.dropLast
      log := s2.log ++ [.freedMemory i] }

/-- The loop `for (int i = pboCount - 1; i >= count; --i)`, with `n` iterations left;
`pinned` selects the body of the `AMD` branch. -/
def deleteLoop (pinned : Bool) : Nat → Int → State → Except Fault State
  | 0, _, s => .ok s
  | n + 1, i, s => do
    let s1 ← if pinned then deletePinnedPbo i s else deletePbo i s
    deleteLoop pinned n (i - 1) s1

/-- The two statements closing each branch of `setPboCount`:
`pboCount = pboIds.size(); assert(GL_NO_ERROR == glGetError());`. -/
def closeBranch (s : State) : Except Fault State :=
  assertNoError { s with pboCount := (s.pboIds.length : Int) }

/-- Function `setPboCount(count)`. -/
def setPboCount (env : GrowEnv) (count : Int) (s : State) : Except Fault State :=
  if !s.pboSupported then .ok s
  else do
    let s1 ←
      if count > s.pboCount then
        if s.pboMethod ≠ .AMD then
          closeBranch
            (createLoop (count - s.pboCount).toNat s.pboCount { s with boundUnpack := 0 })
        else do
          let s1 ← createPinnedLoop env (count - s.pboCount).toNat s.pboCount s
          closeBranch s1
      else if count < s.pboCount then
        if s.pboMethod ≠ .AMD then do
          let s1 ← deleteLoop false (s.pboCount - count).toNat (s.pboCount - 1)
            { s with boundUnpack := 0 }
          closeBranch s1
        else do
          let s1 ← deleteLoop true (s.pboCount - count).toNat (s.pboCount - 1) s
          closeBranch s1
      else pure s
    pure { s1 with log := s1.log ++ [.pboCountLine s1.pboCount] }

/-! ## Transfer scheduler: `displayCB` -/

/-- C remainder `a % b` of two `int`s; undefined for `b = 0`. -/
def cRem (a b : Int) : Except Fault Int :=
  if b = 0 then .error .divisionByZero else .ok (Int.tmod a b)

/-- Output of the `switch (result)` on the value of `glClientWaitSync`. -/
def waitLog (r : WaitResult) (uploadIdx : Int) : List LogLine :=
  match r with
  | .ALREADY_SIGNALED => []
  | .CONDITION_SATISFIED => []
  | .TIMEOUT_EXPIRED => [.warnTimeoutExpired uploadIdx]
  | .WAIT_FAILED => [.errWaitFailed]

/-- The block `if (glIsSync(pboFences[uploadIdx])) ...` of the `UNSYNCH_FENCES` and
`AMD` branches: wait on the fence of the slot, report the result, delete the fence
and store `NULL` in the slot. -/
def claimFence (env : TickEnv) (uploadIdx : Int) (s : State) : Except Fault State := do
  let h ← vecAt s.pboFences uploadIdx
  match h, glIsSync s h with
  | some f, true =>
    let s1 : State :=
      { s with
        events := s.events ++ [.clientWaitSync f env.waitResult]
        log := s.log ++ waitLog env.waitResult uploadIdx
        glError := if env.waitResult = .WAIT_FAILED then false else s.glError }
    let s2 := glDeleteSync (some f) s1
    pure { s2 with pboFences := s2.pboFences.set uploadIdx.toNat none }
  | _, _ => pure s

/-- Store of the content written by `updatePixels` into the data store of buffer `id`. -/
def writeBuffer (id : Nat) (content : List Nat) (s : State) : State :=
  { s with
    glBuffers := s.glBuffers.map fun b => if b.id = id then { b with data := content } else b }

/-- The `else` branch after a successful map: `updatePixels(ptr, DATA_SIZE)`, whose
result is `r`, then the unmap call with its error line `unmapErr`. -/
def fillMapped (env : TickEnv) (uploadIdx : Int) (id : Nat) (unmapErr : LogLine)
    (r : Option (List Nat) × Nat) (s : State) : State :=
  let s2 : State :=
    { writeBuffer id (r.1.getD []) s with
      color := r.2
      events := s.events ++ [.producerWrite uploadIdx.toNat, .unmapBuffer uploadIdx.toNat id env.unmapOk] }
  if !env.unmapOk then { s2 with log := s2.log ++ [unmapErr], glError := false } else s2

/-- The map / `updatePixels` / unmap sequence shared by the `ORPHAN`,
`UNSYNCH_ORPHAN` and `UNSYNCH_FENCES` branches. `mapErr` and `unmapErr` are the
error lines of the branch. The boolean is false when `displayCB` returns early
because the map call gave `NULL`. -/
def mapAndFill (env : TickEnv) (uploadIdx : Int) (id : Nat) (mapErr unmapErr : LogLine)
    (s : State) : Bool × State :=
  let s1 : State := { s with events := s.events ++ [.mapBuffer uploadIdx.toNat id env.mapOk] }
  if !env.mapOk then
    (false, { s1 with log := s1.log ++ [mapErr], glError := false })
  else
    (true, fillMapped env uploadIdx id unmapErr (updatePixels true DATA_SIZE s1.color) s1)

/-- The statement `updatePixels(alignedBuffers[uploadIdx], DATA_SIZE)` of the `AMD`
branch, whose result is `r`: the frame goes to the host block `p`. -/
def fillPinned (uploadIdx : Int) (p : Nat) (r : Option (List Nat) × Nat) (s : State) : State :=
  { s with
    hostMem := s.hostMem.map fun m => if m.1 = p then (p, r.1.getD []) else m
    color := r.2
    events := s.events ++ [.producerWrite uploadIdx.toNat] }

/-- The upload half of the buffered path of `displayCB`, from
`glBindBuffer(GL_PIXEL_UNPACK_BUFFER, pboIds[uploadIdx])` to the end of the
`if (pboMethod == ...)` chain. The boolean is false when `displayCB` returns
early. -/
def uploadPhase (env : TickEnv) (uploadIdx : Int) (s : State) : Except Fault (Bool × State) := do
  let id ← vecAt s.pboIds uploadIdx
  let s0 : State := { s with boundUnpack := id }
  match s0.pboMethod with
  | .NONE => pure (true, s0)
  | .ORPHAN =>
    pure (mapAndFill env uploadIdx id .errMapBufferARB .errUnmapBufferARB
      (glBufferData id DATA_SIZE none s0))
  | .UNSYNCH_ORPHAN =>
    pure (mapAndFill env uploadIdx id .errMapBufferRange .errUnmapBuffer
      (glBufferData id DATA_SIZE none s0))
  | .UNSYNCH_FENCES =>
    let s1 ← claimFence env uploadIdx s0
    pure (mapAndFill env uploadIdx id .errMapBufferRange .errUnmapBuffer s1)
  | .AMD =>
    let s1 ← claimFence env uploadIdx s0
    let p ← vecAt s1.alignedBuffers uploadIdx
    if s1.hostMem.any fun m => m.1 = p then
      pure (true, fillPinned uploadIdx p (updatePixels true DATA_SIZE s1.color) s1)
    else throw .invalidPointer

/-- The statement `pboFences[uploadIdx] = glFenceSync(...)` under its guard
`pboMethod == UNSYNCH_FENCES || pboMethod == AMD`. -/
def storeFence (uploadIdx : Int) (s : State) : Except Fault State :=
  if s.pboMethod = .UNSYNCH_FENCES ∨ s.pboMethod = .AMD then do
    let prev ← vecAt s.pboFences uploadIdx
    pure
      { s with
        glSyncs := s.glSyncs ++ [s.nextSync]
        nextSync := s.nextSync + 1
        pboFences := s.pboFences.set uploadIdx.toNat (some s.nextSync)
        events := s.events ++ [.fenceSync s.nextSync uploadIdx.toNat prev] }
  else pure s

/-- The copy half of the buffered path: bind `pboIds[copyIdx]`, `glTexSubImage2D`
with offset 0, unbind. -/
def copyPhase (copyIdx : Int) (s : State) : Except Fault State := do
  let id ← vecAt s.pboIds copyIdx
  pure
    { s with
      texture := (bufferContent s id).getD s.texture
      boundUnpack := 0
      events := s.events ++ [.texSubImageBuffer copyIdx.toNat id] }

/-- The direct path of `displayCB` (`pboMethod == NONE`): `updatePixels` on
`imageData`, then `glTexSubImage2D` with `imageData` as data argument. While a
buffer is bound to the unpack target the device takes that argument as an offset
into the bound buffer: offset 0 for `NULL`, an offset past the data store (an
error) for any other pointer. -/
def directPath (s : State) : Except Fault State :=
  let r := updatePixels s.imageData.isSome DATA_SIZE s.color
  let s1 : State :=
    match r.1 with
    | some content =>
      { s with imageData := some content, color := r.2, events := s.events ++ [.producerWriteHost] }
    | none => s
  let s2 : State := { s1 with events := s1.events ++ [.texSubImageHost s1.imageData] }
  if s2.boundUnpack ≠ 0 then
    match s2.imageData with
    | some _ => .ok { s2 with glError := true }
    | none => .ok { s2 with texture := (bufferContent s2 s2.boundUnpack).getD s2.texture }
  else
    match s2.imageData with
    | none => .error .nullPointer
    | some src => .ok { s2 with texture := src }

/-- The rotation at the head of the buffered path:
`copyIdx = (copyIdx + 1) % pboCount; int uploadIdx = (copyIdx + 1) % pboCount;`.
The result is the new `copyIdx` and `uploadIdx`. -/
def rotate (s : State) : Except Fault (Int × Int) := do
  let copyIdx ← cRem (wrapInt (s.copyIdx + 1)) s.pboCount
  let uploadIdx ← cRem (wrapInt (copyIdx + 1)) s.pboCount
  pure (copyIdx, uploadIdx)

/-- Function `displayCB`. The drawing of the textured quad and of the on-screen
text reads the state without changing it and is left out. -/
def displayCB (env : TickEnv) (s : State) : Except Fault State := do
  if s.pboMethod = .NONE then
    let s1 ← directPath s
    pure (printTransferRate env.elapsedTime s1)
  else
    let idx ← rotate s
    let r ← uploadPhase env idx.2 { s with copyIdx := idx.1 }
    if r.1 then
      let s2 ← storeFence idx.2 r.2
      let s3 ← copyPhase idx.1 s2
      pure (printTransferRate env.elapsedTime s3)
    else pure r.2

/-! ## Shutdown and key handling -/

/-- Function `clearSharedMem`: free `imageData`, delete the texture, `setPboCount(0)`. -/
def clearSharedMem (env : GrowEnv) (s : State) : Except Fault State :=
  setPboCount env 0 { s with imageData := none, texture := [] }

/-- Function `keyboardCB(key, x, y)`. `exit(0)` runs the exit callback `exitCB`,
which calls `clearSharedMem`, and ends the process. -/
def keyboardCB (env : GrowEnv) (key : Nat) (s : State) : Except Fault State := do
  if key = 27 then
    let s1 ← clearSharedMem env s
    pure { s1 with exited := true }
  else
    let s1 ←
      if key = 32 then do
        let m := methodOfNat ((methodToNat s.pboMethod + 1) % (if s.amdSupported then 5 else 4))
        let s1 : State := { s with pboMethod := m, log := s.log ++ [.pboMethodLine m] }
        let s2 ← setPboCount env 1 s1
        pure (resetTransferRate s2)
      else if key = 100 ∨ key = 68 then
        pure { s with drawMode := Int.tmod (wrapInt (s.drawMode + 1)) 3 }
      else pure s
    if 48 ≤ key ∧ key ≤ 57 then
      let s2 ← setPboCount env ((key : Int) - 48) s1
      pure (resetTransferRate s2)
    else pure s1

/-- An input of the event loop: a key press or a display refresh, each with the
answers of the environment. The process ends with `exit(0)`; inputs after it are
not meaningful. -/
inductive Input where
  | key (env : GrowEnv) (k : Nat)
  | tick (env : TickEnv)

/-- One step of the event loop. -/
def step (s : State) (i : Input) : Except Fault State :=
  match i with
  | .key env k => keyboardCB env k s
  | .tick env => displayCB env s

/-- A run of the event loop from `s`, stopping at the first fault. -/
def run (s : State) : List Input → Except Fault State
  | [] => .ok s
  | i :: rest =>
    match step s i with
    | .ok s1 => run s1 rest
    | .error e => .error e

/-! ## Runs and observations used in the statements -/

/-- The environment in which every buffer creation succeeds. -/
def allOk : GrowEnv := fun _ => .ok

/-- A frame in which map and unmap succeed and the fence was already signalled. -/
def calmTick : TickEnv :=
  { mapOk := true, unmapOk := true, waitResult := .ALREADY_SIGNALED, elapsedTime := 0 }

/-- Successive calls of `printTransferRate`, one per timer reading. -/
def meterRun (s : State) (ts : List ℚ) : State :=
  ts.foldl (fun s t => printTransferRate t s) s

/-- Number of window rollovers among the calls: readings that are not below one second. -/
def rollovers (ts : List ℚ) : Nat :=
  (ts.filter fun t => !decide (t < 1)).length

/-- The pattern counter before frame `k` (counted from 0) when it starts at 0. -/
def frameColor (k : Nat) : Nat := wrapColor (k * (257 * IMAGE_HEIGHT + 1))

/-- The input of `n` successive display refreshes, the `i`-th with the device answers `envs i`. -/
def ticks (envs : Nat → TickEnv) (n : Nat) : List Input :=
  (List.range n).map fun i => Input.tick (envs i)

/-- Fence bookkeeping of the pool: the live sync objects `syncs` are exactly the
non-null entries of the fence slots `fences`, no sync object is held twice, and
handles from `next` on are unused. -/
def FenceRel (syncs : List Nat) (fences : List (Option Nat)) (next : Nat) : Prop :=
  (∀ f : Nat, f ∈ syncs ↔ ∃ i : Nat, fences[i]? = some (some f)) ∧
  syncs.Nodup ∧
  (∀ (i j f : Nat), fences[i]? = some (some f) → fences[j]? = some (some f) → i = j) ∧
  ∀ f ∈ syncs, f < next

/-- Size of the data store of buffer `id`, if such a buffer is alive. -/
def capacityOf (s : State) (id : Nat) : Option Nat :=
  (s.glBuffers.find? fun b => b.id = id).map fun b => b.size

/-- Consistency of the vectors of the pool with each other and with the device:
one fence slot per buffer, distinct buffer names below the next unused name,
every buffer of the pool alive with a data store of `DATA_SIZE` bytes, no pending
device error, and the fence bookkeeping `FenceRel`. -/
structure VecOk (s : State) : Prop where
  fences_len : s.pboFences.length = s.pboIds.length
  ids_nodup : s.pboIds.Nodup
  ids_fresh : ∀ id ∈ s.pboIds, id < s.nextBuffer
  capacity : ∀ id ∈ s.pboIds, capacityOf s id = some DATA_SIZE
  no_error : s.glError = false
  fences : FenceRel s.glSyncs s.pboFences s.nextSync

/-- Consistency of the pool: `pboCount` is the number of buffers, and `VecOk`. -/
structure PoolOk (s : State) : Prop where
  count_eq : s.pboCount = (s.pboIds.length : Int)
  vec : VecOk s

/-- Consistency of the pinned-memory vector: one live, distinct host allocation per
buffer of the pool. -/
structure PinnedOk (s : State) : Prop where
  len : s.alignedBuffers.length = s.pboIds.length
  nodup : s.alignedBuffers.Nodup
  live : ∀ p ∈ s.alignedBuffers, (s.hostMem.any fun m => m.1 = p) = true
  fresh : ∀ p ∈ s.alignedBuffers, p < s.nextPtr

/-- The state in which `setPboCount` leaves a branch that ended in state `t`:
`pboCount` updated from the vector, the line `PBO Count: n` written. -/
def closed (t : State) : State :=
  { t with
    pboCount := (t.pboIds.length : Int)
    log := t.log ++ [.pboCountLine (t.pboIds.length : Int)] }

/-- The device calls of the claim step of a frame on slot `u`: the wait on the
fence held by the slot and its deletion; nothing when the slot holds `NULL`. -/
def claimEvents (env : TickEnv) (s : State) (u : Int) : List Event :=
  match s.pboFences[u.toNat]? with
  | some (some f) => [.clientWaitSync f env.waitResult, .deleteSync f]
  | _ => []

/-- Events of the fill step of a frame on slot `u`: map, producer write and unmap
of that slot. -/
def IsFillEvent (u : Nat) (e : Event) : Prop :=
  match e with
  | .mapBuffer slot _ _ => slot = u
  | .producerWrite slot => slot = u
  | .unmapBuffer slot _ _ => slot = u
  | _ => False

/-- A pool of three buffers under `ORPHAN` whose `copyIdx` is left over from a
larger pool. -/
def leftoverPool : State :=
  { initState true true 4096 with
    pboMethod := .ORPHAN
    pboCount := 3
    pboIds := [1, 2, 3]
    pboFences := [none, none, none]
    glBuffers := [⟨1, DATA_SIZE, none, []⟩, ⟨2, DATA_SIZE, none, []⟩, ⟨3, DATA_SIZE, none, []⟩]
    nextBuffer := 4
    copyIdx := 7 }

/-- A pool of one buffer under `UNSYNCH_FENCES` whose slot holds the live fence 1. -/
def fencedPool : State :=
  { initState true true 4096 with
    pboMethod := .UNSYNCH_FENCES
    pboCount := 1
    pboIds := [1]
    pboFences := [some 1]
    glBuffers := [⟨1, DATA_SIZE, none, []⟩]
    nextBuffer := 2
    glSyncs := [1]
    nextSync := 2 }

/-- A frame in which the map call returns `NULL`. -/
def failedMapTick : TickEnv :=
  { mapOk := false, unmapOk := true, waitResult := .ALREADY_SIGNALED, elapsedTime := 0 }

/-- A frame in which the wait on the fence returns `GL_CONDITION_SATISFIED`. -/
def hadToWaitTick : TickEnv :=
  { mapOk := true, unmapOk := true, waitResult := .CONDITION_SATISFIED, elapsedTime := 0 }

/-- Number of `glFenceSync` calls recorded in a list of events. -/
def fencesCreated (es : List Event) : Nat :=
  (es.filter fun e => match e with | .fenceSync _ _ _ => true | _ => false).length

/-- The output of the claim step of a frame on slot `u`: the lines of the wait on
the fence held by the slot; nothing when the slot holds `NULL`. -/
def claimLog (env : TickEnv) (s : State) (u : Int) : List LogLine :=
  match s.pboFences[u.toNat]? with
  | some (some _) => waitLog env.waitResult u
  | _ => []

/-- The state after the claim step on slot `u` when every non-null slot holds a
live fence: the fence of the slot waited on and deleted, the slot set to `NULL`. -/
def claimed (env : TickEnv) (u : Int) (s : State) : State :=
  match s.pboFences[u.toNat]? with
  | some (some f) =>
    { s with
      events := s.events ++ [.clientWaitSync f env.waitResult] ++ [.deleteSync f]
      log := s.log ++ waitLog env.waitResult u
      glError := if env.waitResult = .WAIT_FAILED then false else s.glError
      glSyncs := s.glSyncs.erase f
      pboFences := s.pboFences.set u.toNat none }
  | _ => s

/-- The state after `pboFences[u] = glFenceSync(...)`, the slot having held `prev`. -/
def stored (u : Int) (prev : Option Nat) (s : State) : State :=
  { s with
    glSyncs := s.glSyncs ++ [s.nextSync]
    nextSync := s.nextSync + 1
    pboFences := s.pboFences.set u.toNat (some s.nextSync)
    events := s.events ++ [.fenceSync s.nextSync u.toNat prev] }

/-- The state after the copy half of a frame reading buffer `id` of slot `c`. -/
def copied (c : Int) (id : Nat) (s : State) : State :=
  { s with
    texture := (bufferContent s id).getD s.texture
    boundUnpack := 0
    events := s.events ++ [.texSubImageBuffer c.toNat id] }

/-- The lines a fence wait can write. -/
def IsWaitLine (l : LogLine) : Prop :=
  match l with
  | .warnTimeoutExpired _ => True
  | .errWaitFailed => True
  | _ => False

/-- The fields of the pool that a frame leaves alone: `t` has the pool size, the
method, the buffer names, the host blocks and the number of fence slots of `s`. -/
structure Kept (s t : State) : Prop where
  count_kept : t.pboCount = s.pboCount
  method_kept : t.pboMethod = s.pboMethod
  ids_kept : t.pboIds = s.pboIds
  aligned_kept : t.alignedBuffers = s.alignedBuffers
  slots_kept : t.pboFences.length = s.pboFences.length

/-- The output of `t` is the output of `s` followed by lines that no fence wait writes. -/
def Quiet (s t : State) : Prop :=
  ∃ more, t.log = s.log ++ more ∧ ∀ l ∈ more, ¬ IsWaitLine l

/-- A pool of two buffers under `UNSYNCH_FENCES`, both fence slots `NULL`. -/
def pairPool : State :=
  { initState true true 4096 with
    pboMethod := .UNSYNCH_FENCES
    pboCount := 2
    pboIds := [1, 2]
    pboFences := [none, none]
    glBuffers := [⟨1, DATA_SIZE, none, []⟩, ⟨2, DATA_SIZE, none, []⟩]
    nextBuffer := 3 }

/-- Number of the frames `0 .. k-1` whose map call succeeds. -/
def mappedFrames (envs : Nat → TickEnv) (k : Nat) : Nat :=
  ((List.range k).filter fun i => (envs i).mapOk).length

/-- The error line of the map call of a frame under method `m`. -/
def mapErrLine (m : PboMethod) : LogLine :=
  if m = .ORPHAN then .errMapBufferARB else .errMapBufferRange

/-- The buffer names passed to `glDeleteBuffers`, in call order. -/
def deletedIds (es : List Event) : List Nat :=
  es.filterMap fun e => match e with | .deleteBuffer id => some id | _ => none

/-- The four values of the throughput meter are the same in `s` and `t`. -/
structure SameMeter (s t : State) : Prop where
  discarded_same : t.rateDiscarded = s.rateDiscarded
  samples_same : t.rateCount = s.rateCount
  transfer_same : t.transferRateSum = s.transferRateSum
  frames_same : t.frameRateSum = s.frameRateSum

/-- A step that leaves the meter alone and deletes no buffer. -/
def Calm (s t : State) : Prop :=
  SameMeter s t ∧ deletedIds t.events = deletedIds s.events

/-- The start state switched to `AMD`, the pool still empty. -/
def pinnedStart : State :=
  { initState true true 4096 with pboMethod := .AMD }

/-- An environment in which the third host allocation fails. -/
def failThird : GrowEnv := fun i => if i = 2 then .allocFails else .ok

/-- What a step of the pool does to its two vectors: both grow, or both shrink, by
the same number of entries, and the rotation index is left alone. -/
structure Paired (s t : State) : Prop where
  grown : t.pboIds.length + s.pboFences.length = s.pboIds.length + t.pboFences.length
  idx_same : t.copyIdx = s.copyIdx

/-- What holds of the pool in every state the program reaches: `pboCount` is the
number of buffer names, there is one fence slot per name, the pool holds at most
nine buffers (the largest count a key can ask for), and the rotation index is in
`0 .. 8`. -/
structure Sized (s : State) : Prop where
  count_len : s.pboCount = (s.pboIds.length : Int)
  slots_len : s.pboFences.length = s.pboIds.length
  few : s.pboIds.length ≤ 9
  idx_lo : 0 ≤ s.copyIdx
  idx_hi : s.copyIdx ≤ 8

/-- A step of a frame that leaves the pool and the rotation index alone. -/
def Steady (s t : State) : Prop := Kept s t ∧ t.copyIdx = s.copyIdx

/-! ## Lemmas: machine integers -/

theorem wrapInt_eq (x : Int) (h1 : -2147483648 ≤ x) (h2 : x < 2147483648) : wrapInt x = x := by
  unfold wrapInt
  omega

theorem printTransferRate_within (t : ℚ) (s : State) (h : t < 1) :
    (printTransferRate t s).rateDiscarded = s.rateDiscarded ∧
    (printTransferRate t s).rateCount = s.rateCount ∧
    (printTransferRate t s).transferRateSum = s.transferRateSum ∧
    (printTransferRate t s).frameRateSum = s.frameRateSum := by
  simp [printTransferRate, h]

theorem printTransferRate_discard (t : ℚ) (s : State) (h : ¬ t < 1)
    (hd : 0 < s.rateDiscarded) (hd3 : s.rateDiscarded ≤ 3) :
    (printTransferRate t s).rateDiscarded = s.rateDiscarded - 1 ∧
    (printTransferRate t s).rateCount = s.rateCount ∧
    (printTransferRate t s).transferRateSum = s.transferRateSum ∧
    (printTransferRate t s).frameRateSum = s.frameRateSum := by
  simp [printTransferRate, h, hd]
  exact wrapInt_eq _ (by omega) (by omega)

theorem printTransferRate_sample (t : ℚ) (s : State) (h : ¬ t < 1)
    (hd : s.rateDiscarded = 0) :
    (printTransferRate t s).rateDiscarded = 0 ∧
    (printTransferRate t s).rateCount = wrapInt (s.rateCount + 1) ∧
    (printTransferRate t s).frameRateSum = s.frameRateSum + (s.count : ℚ) / t := by
  simp [printTransferRate, h, hd]

theorem meterRun_spec (ts : List ℚ) : ∀ (s : State) (d : Nat),
    s.rateDiscarded = (d : Int) → d ≤ 3 →
    (meterRun s ts).rateDiscarded = ((d - rollovers ts : Nat) : Int) ∧
    (0 ≤ s.rateCount → s.rateCount + ((rollovers ts - d : Nat) : Int) < 2147483648 →
      (meterRun s ts).rateCount = s.rateCount + ((rollovers ts - d : Nat) : Int)) ∧
    (rollovers ts ≤ d →
      (meterRun s ts).rateCount = s.rateCount ∧
      (meterRun s ts).transferRateSum = s.transferRateSum ∧
      (meterRun s ts).frameRateSum = s.frameRateSum) := by
  induction ts with
  | nil => intro s d hd _; simp [meterRun, rollovers, hd]
  | cons t ts ih =>
    intro s d hd hd3
    have hrun : meterRun s (t :: ts) = meterRun (printTransferRate t s) ts := rfl
    rw [hrun]
    by_cases ht : t < 1
    · have hr : rollovers (t :: ts) = rollovers ts := by simp [rollovers, ht]
      obtain ⟨h1, h2, h3, h4⟩ := printTransferRate_within t s ht
      rw [hr]
      have := ih (printTransferRate t s) d (by rw [h1, hd]) hd3
      rw [h2, h3, h4] at this
      exact this
    · have hr : rollovers (t :: ts) = rollovers ts + 1 := by simp [rollovers, ht]
      rw [hr]
      rcases Nat.eq_zero_or_pos d with hz | hpos
      · subst hz
        obtain ⟨h1, h2, h3⟩ := printTransferRate_sample t s ht (by simpa using hd)
        obtain ⟨i1, i2, _⟩ := ih (printTransferRate t s) 0 (by simpa using h1) (by omega)
        refine ⟨?_, ?_, ?_⟩
        · simpa using i1
        · intro hc hlt
          have hw : wrapInt (s.rateCount + 1) = s.rateCount + 1 :=
            wrapInt_eq _ (by omega) (by push_cast at hlt; omega)
          rw [h2, hw] at i2
          have h' := i2 (by omega) (by push_cast at hlt ⊢; simp at hlt ⊢; omega)
          rw [h']
          push_cast
          simp
          omega
        · intro hle
          omega
      · obtain ⟨h1, h2, h3, h4⟩ := printTransferRate_discard t s ht (by omega) (by omega)
        have := ih (printTransferRate t s) (d - 1) (by rw [h1, hd]; omega) (by omega)
        rw [h2, h3, h4] at this
        obtain ⟨i1, i2, i3⟩ := this
        refine ⟨?_, ?_, ?_⟩
        · rw [i1]; congr 1; omega
        · intro hc hlt
          have e : rollovers ts + 1 - d = rollovers ts - (d - 1) := by omega
          rw [e] at hlt ⊢
          exact i2 hc hlt
        · intro hle
          exact i3 (by omega)

/-! ## Lemmas: frame producer and direct path -/

theorem writeRow_length (c : Nat) : ∀ n, (writeRow c n).length = n
  | 0 => rfl
  | n + 1 => by simp [writeRow, writeRow_length c n]

theorem writeRow_getElem? (c : Nat) : ∀ n j, j < n → (writeRow c n)[j]? = some c
  | 0, j, h => by omega
  | n + 1, 0, _ => by simp [writeRow]
  | n + 1, j + 1, h => by
    simp only [writeRow, List.getElem?_cons_succ]
    exact writeRow_getElem? c n j (by omega)

theorem writeRows_length (w : Nat) : ∀ h c, (writeRows w h c).1.length = w * h
  | 0, c => by simp [writeRows]
  | h + 1, c => by
    simp only [writeRows, List.length_append, writeRow_length, writeRows_length w h]
    ring

theorem writeRows_color (w : Nat) : ∀ h c,
    wrapColor ((writeRows w h c).2) = wrapColor (c + 257 * h)
  | 0, c => by simp [writeRows]
  | h + 1, c => by
    simp only [writeRows]
    rw [writeRows_color w h]
    unfold wrapColor
    omega

theorem writeRows_getElem? (w : Nat) : ∀ h c i j, i < h → j < w →
    (writeRows w h c).1[i * w + j]? = some (if i = 0 then c else wrapColor (c + 257 * i))
  | 0, c, i, j, hi, _ => by omega
  | h + 1, c, 0, j, _, hj => by
    simp only [writeRows, Nat.zero_mul, Nat.zero_add, if_true]
    rw [List.getElem?_append_left (by rw [writeRow_length]; exact hj)]
    exact writeRow_getElem? c w j hj
  | h + 1, c, i + 1, j, hi, hj => by
    simp only [writeRows]
    have e : (i + 1) * w + j = (writeRow c w).length + (i * w + j) := by
      rw [writeRow_length]; ring
    rw [e, List.getElem?_append_right (by omega)]
    simp only [Nat.add_sub_cancel_left]
    rw [writeRows_getElem? w h _ i j (by omega) hj]
    simp only [Nat.succ_ne_zero, if_false, Nat.add_eq_zero, one_ne_zero, and_false]
    congr 1
    split
    · subst_vars; simp [wrapColor]
    · unfold wrapColor; omega

theorem updatePixels_frame (c k : Nat) (hc : c = frameColor k) :
    ∃ img, updatePixels true DATA_SIZE c = (some img, frameColor (k + 1)) ∧
      img.length = IMAGE_WIDTH * IMAGE_HEIGHT ∧
      ∀ i j, i < IMAGE_HEIGHT → j < IMAGE_WIDTH →
        img[i * IMAGE_WIDTH + j]? = some (wrapColor (k * (257 * IMAGE_HEIGHT + 1) + 257 * i)) := by
  refine ⟨(writeRows IMAGE_WIDTH IMAGE_HEIGHT c).1, ?_, writeRows_length _ _ _, ?_⟩
  · simp only [updatePixels, if_true, Prod.mk.injEq, true_and]
    have := writeRows_color IMAGE_WIDTH IMAGE_HEIGHT c
    unfold wrapColor at this ⊢
    unfold frameColor wrapColor at *
    subst hc
    have e : (k + 1) * (257 * IMAGE_HEIGHT + 1) = k * (257 * IMAGE_HEIGHT + 1) + 257 * IMAGE_HEIGHT + 1 := by ring
    rw [e]
    omega
  · intro i j hi hj
    rw [writeRows_getElem? _ _ _ i j hi hj]
    subst hc
    unfold frameColor wrapColor
    split
    · subst_vars; simp
    · congr 1; omega

theorem run_append (l1 : List Input) : ∀ (s : State) (l2 : List Input),
    run s (l1 ++ l2) = (run s l1).bind fun s1 => run s1 l2 := by
  induction l1 with
  | nil => intro s l2; rfl
  | cons i l1 ih =>
    intro s l2
    simp only [List.cons_append, run]
    cases step s i with
    | ok s1 => simpa using ih s1 l2
    | error e => rfl

theorem ticks_succ (envs : Nat → TickEnv) (n : Nat) :
    ticks envs (n + 1) = ticks envs n ++ [Input.tick (envs n)] := by
  simp [ticks, List.range_succ]

theorem printTransferRate_frame (t : ℚ) (s : State) :
    (printTransferRate t s).pboMethod = s.pboMethod ∧
    (printTransferRate t s).color = s.color ∧
    (printTransferRate t s).imageData = s.imageData ∧
    (printTransferRate t s).events = s.events := by
  unfold printTransferRate
  split
  · simp
  · split <;> simp

theorem displayCB_direct (env : TickEnv) (s : State) (k : Nat) (old : List Nat)
    (hm : s.pboMethod = .NONE) (hc : s.color = frameColor k) (hi : s.imageData = some old) :
    ∃ s1 img, displayCB env s = .ok s1 ∧ s1.pboMethod = .NONE ∧
      s1.color = frameColor (k + 1) ∧ s1.imageData = some img ∧
      s1.events.getLast? = some (.texSubImageHost (some img)) ∧
      img.length = IMAGE_WIDTH * IMAGE_HEIGHT ∧
      ∀ i j, i < IMAGE_HEIGHT → j < IMAGE_WIDTH →
        img[i * IMAGE_WIDTH + j]? = some (wrapColor (k * (257 * IMAGE_HEIGHT + 1) + 257 * i)) := by
  obtain ⟨img, hu, hlen, hpix⟩ := updatePixels_frame s.color k hc
  have hd : ∃ s0, directPath s = .ok s0 ∧ s0.pboMethod = .NONE ∧
      s0.color = frameColor (k + 1) ∧ s0.imageData = some img ∧
      s0.events.getLast? = some (.texSubImageHost (some img)) := by
    unfold directPath
    simp only [hi, Option.isSome_some, hu]
    by_cases hb : s.boundUnpack = 0
    · simp [hb, hm]
    · simp [hb, hm]
  obtain ⟨s0, h0, h1, h2, h3, h4⟩ := hd
  obtain ⟨p1, p2, p3, p4⟩ := printTransferRate_frame env.elapsedTime s0
  refine ⟨printTransferRate env.elapsedTime s0, img, ?_, ?_, ?_, ?_, ?_, hlen, hpix⟩
  · simp [displayCB, hm, h0, bind, Except.bind, pure, Except.pure]
  · rw [p1, h1]
  · rw [p2, h2]
  · rw [p3, h3]
  · rw [p4, h4]

theorem getElem?_concat_some {α : Type} (l : List α) (x y : α) (i : Nat)
    (h : (l ++ [x])[i]? = some y) : (i < l.length ∧ l[i]? = some y) ∨ (i = l.length ∧ x = y) := by
  rw [List.getElem?_append] at h
  split at h
  · exact Or.inl ⟨by assumption, h⟩
  · rename_i hlt
    rcases Nat.eq_zero_or_pos (i - l.length) with hz | hp
    · right
      rw [hz] at h
      simp at h
      exact ⟨by omega, h⟩
    · rw [List.getElem?_eq_none (by simp; omega)] at h
      cases h

theorem fenceRel_push {S : List Nat} {F : List (Option Nat)} {n : Nat}
    (h : FenceRel S F n) : FenceRel S (F ++ [none]) n := by
  obtain ⟨h1, h2, h3, h4⟩ := h
  have key : ∀ (i f : Nat), (F ++ [none])[i]? = some (some f) ↔ F[i]? = some (some f) := by
    intro i f
    constructor
    · intro hi
      rcases getElem?_concat_some F none (some f) i hi with ⟨_, h⟩ | ⟨_, h⟩
      · exact h
      · cases h
    · intro hi
      have hlt : i < F.length := by
        by_contra hc
        rw [List.getElem?_eq_none (by omega)] at hi
        cases hi
      rw [List.getElem?_append_left hlt]
      exact hi
  refine ⟨fun f => ?_, h2, fun i j f hi hj => ?_, h4⟩
  · rw [h1 f]
    exact exists_congr fun i => (key i f).symm
  · exact h3 i j f ((key i f).mp hi) ((key j f).mp hj)

theorem fenceRel_pop_none {S : List Nat} {F : List (Option Nat)} {n : Nat}
    (h : FenceRel S (F ++ [none]) n) : FenceRel S F n := by
  obtain ⟨h1, h2, h3, h4⟩ := h
  have key : ∀ (i f : Nat), (F ++ [none])[i]? = some (some f) ↔ F[i]? = some (some f) := by
    intro i f
    constructor
    · intro hi
      rcases getElem?_concat_some F none (some f) i hi with ⟨_, h⟩ | ⟨_, h⟩
      · exact h
      · cases h
    · intro hi
      have hlt : i < F.length := by
        by_contra hc
        rw [List.getElem?_eq_none (by omega)] at hi
        cases hi
      rw [List.getElem?_append_left hlt]
      exact hi
  refine ⟨fun f => ?_, h2, fun i j f hi hj => ?_, h4⟩
  · rw [h1 f]
    exact exists_congr fun i => key i f
  · exact h3 i j f ((key i f).mpr hi) ((key j f).mpr hj)

theorem fenceRel_pop_some {S : List Nat} {F : List (Option Nat)} {n f : Nat}
    (h : FenceRel S (F ++ [some f]) n) : f ∈ S ∧ FenceRel (S.erase f) F n := by
  obtain ⟨h1, h2, h3, h4⟩ := h
  have hlast : (F ++ [some f])[F.length]? = some (some f) := List.getElem?_concat_length F (some f)
  have up : ∀ (i g : Nat), F[i]? = some (some g) → (F ++ [some f])[i]? = some (some g) ∧ i < F.length := by
    intro i g hi
    have hlt : i < F.length := by
      by_contra hc
      rw [List.getElem?_eq_none (by omega)] at hi
      cases hi
    exact ⟨by rw [List.getElem?_append_left hlt]; exact hi, hlt⟩
  refine ⟨(h1 f).mpr ⟨_, hlast⟩, fun g => ?_, h2.erase f, fun i j g hi hj => ?_,
    fun g hg => h4 g (List.mem_of_mem_erase hg)⟩
  · rw [List.Nodup.mem_erase_iff h2]
    constructor
    · rintro ⟨hne, hg⟩
      obtain ⟨i, hi⟩ := (h1 g).mp hg
      rcases getElem?_concat_some F (some f) (some g) i hi with ⟨_, h⟩ | ⟨_, h⟩
      · exact ⟨i, h⟩
      · exact absurd (Option.some.inj h).symm hne
    · rintro ⟨i, hi⟩
      obtain ⟨hi2, hlt⟩ := up i g hi
      refine ⟨fun e => ?_, (h1 g).mpr ⟨i, hi2⟩⟩
      subst e
      have := h3 i F.length g hi2 hlast
      omega
  · exact h3 i j g (up i g hi).1 (up j g hj).1

theorem fenceRel_clear {S : List Nat} {F : List (Option Nat)} {n f u : Nat}
    (h : FenceRel S F n) (hu : F[u]? = some (some f)) :
    f ∈ S ∧ FenceRel (S.erase f) (F.set u none) n := by
  obtain ⟨h1, h2, h3, h4⟩ := h
  have key : ∀ (i g : Nat), (F.set u none)[i]? = some (some g) ↔ i ≠ u ∧ F[i]? = some (some g) := by
    intro i g
    rw [List.getElem?_set]
    by_cases e : u = i
    · subst e
      simp only [if_true, ne_eq, not_true_eq_false, false_and, iff_false]
      split <;> simp
    · simp only [e, if_false]
      constructor
      · intro hi; exact ⟨fun e2 => e e2.symm, hi⟩
      · intro hi; exact hi.2
  refine ⟨(h1 f).mpr ⟨u, hu⟩, fun g => ?_, h2.erase f, fun i j g hi hj => ?_,
    fun g hg => h4 g (List.mem_of_mem_erase hg)⟩
  · rw [List.Nodup.mem_erase_iff h2]
    constructor
    · rintro ⟨hne, hg⟩
      obtain ⟨i, hi⟩ := (h1 g).mp hg
      refine ⟨i, (key i g).mpr ⟨fun e => ?_, hi⟩⟩
      subst e
      rw [hu] at hi
      exact hne (Option.some.inj (Option.some.inj hi)).symm
    · rintro ⟨i, hi⟩
      obtain ⟨hne, hi2⟩ := (key i g).mp hi
      refine ⟨fun e => ?_, (h1 g).mpr ⟨i, hi2⟩⟩
      subst e
      exact hne (h3 i u g hi2 hu)
  · exact h3 i j g ((key i g).mp hi).2 ((key j g).mp hj).2

theorem fenceRel_store {S : List Nat} {F : List (Option Nat)} {n u : Nat}
    (h : FenceRel S F n) (hu : F[u]? = some none) :
    FenceRel (S ++ [n]) (F.set u (some n)) (n + 1) := by
  obtain ⟨h1, h2, h3, h4⟩ := h
  have hlt : u < F.length := by
    by_contra hc
    rw [List.getElem?_eq_none (by omega)] at hu
    cases hu
  have hn : n ∉ S := fun hm => Nat.lt_irrefl _ (h4 n hm)
  have key : ∀ (i g : Nat), (F.set u (some n))[i]? = some (some g) ↔
      (i = u ∧ g = n) ∨ (i ≠ u ∧ F[i]? = some (some g)) := by
    intro i g
    rw [List.getElem?_set]
    by_cases e : u = i
    · subst e
      simp only [if_true, hlt, ne_eq, not_true_eq_false, false_and, or_false, true_and]
      constructor
      · intro hi; exact (Option.some.inj (Option.some.inj hi)).symm
      · intro hi; rw [hi]
    · simp only [e, if_false]
      constructor
      · intro hi; exact Or.inr ⟨fun e2 => e e2.symm, hi⟩
      · rintro (⟨e2, _⟩ | ⟨_, hi⟩)
        · exact absurd e2.symm e
        · exact hi
  refine ⟨fun g => ?_, ?_, fun i j g hi hj => ?_, fun g hg => ?_⟩
  · rw [List.mem_append, List.mem_singleton]
    constructor
    · rintro (hg | hg)
      · obtain ⟨i, hi⟩ := (h1 g).mp hg
        refine ⟨i, (key i g).mpr (Or.inr ⟨fun e => ?_, hi⟩)⟩
        subst e
        rw [hu] at hi
        cases hi
      · exact ⟨u, (key u g).mpr (Or.inl ⟨rfl, hg⟩)⟩
    · rintro ⟨i, hi⟩
      rcases (key i g).mp hi with ⟨_, hg⟩ | ⟨_, hi2⟩
      · exact Or.inr hg
      · exact Or.inl ((h1 g).mpr ⟨i, hi2⟩)
  · exact List.Nodup.append h2 (List.nodup_singleton n) (by
      intro x hx hx2
      rw [List.mem_singleton] at hx2
      subst hx2
      exact hn hx)
  · rcases (key i g).mp hi with ⟨ei, eg⟩ | ⟨ni, hi2⟩
    · rcases (key j g).mp hj with ⟨ej, _⟩ | ⟨_, hj2⟩
      · rw [ei, ej]
      · subst eg
        exact absurd ((h1 g).mpr ⟨j, hj2⟩) hn
    · rcases (key j g).mp hj with ⟨_, eg⟩ | ⟨_, hj2⟩
      · subst eg
        exact absurd ((h1 g).mpr ⟨i, hi2⟩) hn
      · exact h3 i j g hi2 hj2
  · rw [List.mem_append, List.mem_singleton] at hg
    rcases hg with hg | hg
    · exact Nat.lt_succ_of_lt (h4 g hg)
    · rw [hg]; exact Nat.lt_succ_self n

theorem find?_id_map (G : List GLBuffer) (f : GLBuffer → GLBuffer) (id : Nat)
    (hf : ∀ b, (f b).id = b.id) :
    (G.map f).find? (fun b => b.id = id) = (G.find? fun b => b.id = id).map f := by
  rw [List.find?_map]
  congr 1
  congr 1
  funext b
  simp [hf b]

theorem setStore_id (id size : Nat) (src : Option Nat) (b : GLBuffer) :
    (setStore id size src b).id = b.id := by
  unfold setStore
  split <;> rfl

theorem capacity_after_create (G : List GLBuffer) (nb id : Nat) (src : Option Nat) :
    ((((G ++ [newBuffer nb]).map (setStore nb DATA_SIZE src)).find?
      fun b => b.id = id).map fun b => b.size) =
      if id = nb then some DATA_SIZE else (G.find? fun b => b.id = id).map fun b => b.size := by
  rw [find?_id_map _ _ _ (setStore_id _ _ _), List.find?_append]
  by_cases h : id = nb
  · subst h
    simp only [if_true]
    cases hf : G.find? fun b => b.id = id with
    | none => simp [newBuffer, setStore]
    | some b =>
      have := List.find?_some hf
      simp at this
      simp [this, setStore]
  · simp only [h, if_false]
    have hne : nb ≠ id := fun e => h e.symm
    cases hf : G.find? fun b => b.id = id with
    | none => simp [hne, newBuffer]
    | some b =>
      have := List.find?_some hf
      simp at this
      simp [this, h, setStore]

theorem capacityOf_createPbo (i : Int) (s : State) (id : Nat) :
    capacityOf (createPbo i s) id =
      if id = s.nextBuffer then some DATA_SIZE else capacityOf s id :=
  capacity_after_create s.glBuffers s.nextBuffer id none

theorem createPbo_vecOk (i : Int) (s : State) (h : VecOk s) : VecOk (createPbo i s) := by
  refine ⟨?_, ?_, ?_, ?_, h.no_error, fenceRel_push h.fences⟩
  · show (s.pboFences ++ [none]).length = (s.pboIds ++ [s.nextBuffer]).length
    simp [h.fences_len]
  · show (s.pboIds ++ [s.nextBuffer]).Nodup
    refine List.Nodup.append h.ids_nodup (List.nodup_singleton _) ?_
    intro x hx hx2
    rw [List.mem_singleton] at hx2
    subst hx2
    exact Nat.lt_irrefl _ (h.ids_fresh _ hx)
  · intro id hid
    show id < s.nextBuffer + 1
    have hid2 : id ∈ s.pboIds ++ [s.nextBuffer] := hid
    rw [List.mem_append, List.mem_singleton] at hid2
    rcases hid2 with h1 | h1
    · exact Nat.lt_succ_of_lt (h.ids_fresh _ h1)
    · omega
  · intro id hid
    have hid2 : id ∈ s.pboIds ++ [s.nextBuffer] := hid
    rw [capacityOf_createPbo]
    split
    · rfl
    · rw [List.mem_append, List.mem_singleton] at hid2
      rcases hid2 with h1 | h1
      · exact h.capacity _ h1
      · contradiction

theorem createLoop_spec : ∀ (k : Nat) (i : Int) (s : State), VecOk s →
    VecOk (createLoop k i s) ∧
    (∃ fresh, (createLoop k i s).pboIds = s.pboIds ++ fresh ∧ fresh.length = k) ∧
    (createLoop k i s).pboFences = s.pboFences ++ List.replicate k none ∧
    (createLoop k i s).alignedBuffers = s.alignedBuffers ∧
    (createLoop k i s).hostMem = s.hostMem ∧
    (createLoop k i s).pboMethod = s.pboMethod
  | 0, i, s, h => ⟨h, ⟨[], by simp [createLoop], rfl⟩, by simp [createLoop], rfl, rfl, rfl⟩
  | k + 1, i, s, h => by
    obtain ⟨h1, ⟨fresh, h2, h2l⟩, h3, h4, h5, h6⟩ := createLoop_spec k (i + 1) (createPbo i s)
      (createPbo_vecOk i s h)
    refine ⟨h1, ⟨s.nextBuffer :: fresh, ?_, by simp [h2l]⟩, ?_, ?_, ?_, ?_⟩
    · show (createLoop k (i + 1) (createPbo i s)).pboIds = _
      rw [h2]
      show (s.pboIds ++ [s.nextBuffer]) ++ fresh = _
      simp
    · show (createLoop k (i + 1) (createPbo i s)).pboFences = _
      rw [h3]
      show (s.pboFences ++ [none]) ++ _ = _
      simp [List.replicate_succ]
    · exact h4
    · exact h5
    · exact h6

theorem exists_concat_of_ne_nil {α : Type} (l : List α) (h : l ≠ []) :
    ∃ ys x, l = ys ++ [x] := by
  rcases List.eq_nil_or_concat l with h1 | ⟨ys, x, h1⟩
  · exact absurd h1 h
  · exact ⟨ys, x, by rw [h1, List.concat_eq_append]⟩

theorem vecBack_concat {α : Type} (ys : List α) (x : α) : vecBack (ys ++ [x]) = .ok x := by
  simp [vecBack]

theorem capacityOf_filter (G : List GLBuffer) (x id : Nat) (hne : id ≠ x) :
    ((G.filter fun b => b.id ≠ x).find? fun b => b.id = id) = G.find? fun b => b.id = id := by
  rw [List.find?_filter]
  congr 1
  funext b
  by_cases hb : b.id = id
  · simp [hb, hne]
  · simp [hb]

theorem glDeleteSync_none (s : State) : glDeleteSync none s = s := rfl

theorem glDeleteSync_live (s : State) (f : Nat) (h : f ∈ s.glSyncs) :
    glDeleteSync (some f) s =
      { s with glSyncs := s.glSyncs.erase f, events := s.events ++ [.deleteSync f] } := by
  simp [glDeleteSync, h]

theorem deletePbo_spec (i : Int) (s : State) (h : VecOk s) (hne : s.pboIds ≠ []) :
    ∃ s1, deletePbo i s = .ok s1 ∧ VecOk s1 ∧
      s1.pboIds = s.pboIds.dropLast ∧ s1.pboFences = s.pboFences.dropLast ∧
      s1.alignedBuffers = s.alignedBuffers ∧ s1.hostMem = s.hostMem ∧
      s1.nextPtr = s.nextPtr ∧ s1.pboMethod = s.pboMethod := by
  obtain ⟨I, x, hI⟩ := exists_concat_of_ne_nil _ hne
  have hF0 : s.pboFences ≠ [] := by
    intro e
    have := h.fences_len
    rw [e, hI] at this
    simp at this
  obtain ⟨F, hd, hF⟩ := exists_concat_of_ne_nil _ hF0
  have hlen : F.length = I.length := by
    have := h.fences_len
    rw [hF, hI] at this
    simpa using this
  have hnd : (I ++ [x]).Nodup := hI ▸ h.ids_nodup
  have hx : ∀ id ∈ I, id ≠ x := by
    intro id hid e
    subst e
    rw [List.nodup_append] at hnd
    exact hnd.2.2 hid (List.mem_singleton_self _)
  have hrel : FenceRel s.glSyncs (F ++ [hd]) s.nextSync := hF ▸ h.fences
  have hcap : ∀ id ∈ I, (((s.glBuffers.filter fun b => b.id ≠ x).find?
      fun b => b.id = id).map fun b => b.size) = some DATA_SIZE := by
    intro id hid
    have := h.capacity id (by rw [hI]; exact List.mem_append_left _ hid)
    unfold capacityOf at this
    rw [capacityOf_filter _ _ _ (hx id hid)]
    exact this
  cases hd with
  | none =>
    refine ⟨
      { s with
        pboFences := F
        pboIds := I
        glBuffers := s.glBuffers.filter fun b => b.id ≠ x
        events := s.events ++ [.deleteBuffer x]
        log := s.log ++ [.deletedPbo i] }, ?_, ?_, ?_, ?_, rfl, rfl, rfl, rfl⟩
    · simp [deletePbo, hF, hI, vecBack_concat, glDeleteSync_none, bind, Except.bind, pure,
        Except.pure]
    · refine ⟨hlen, ?_, ?_, ?_, h.no_error, fenceRel_pop_none hrel⟩
      · rw [List.nodup_append] at hnd; exact hnd.1
      · intro id hid
        exact h.ids_fresh id (by rw [hI]; exact List.mem_append_left _ hid)
      · intro id hid
        exact hcap id hid
    · simp [hI]
    · simp [hF]
  | some f =>
    obtain ⟨hf, hrel2⟩ := fenceRel_pop_some hrel
    refine ⟨
      { s with
        glSyncs := s.glSyncs.erase f
        pboFences := F
        pboIds := I
        glBuffers := s.glBuffers.filter fun b => b.id ≠ x
        events := s.events ++ [.deleteSync f] ++ [.deleteBuffer x]
        log := s.log ++ [.deletedPbo i] }, ?_, ?_, ?_, ?_, rfl, rfl, rfl, rfl⟩
    · simp [deletePbo, hF, hI, vecBack_concat, glDeleteSync_live s f hf, bind, Except.bind,
        pure, Except.pure]
    · refine ⟨hlen, ?_, ?_, ?_, h.no_error, hrel2⟩
      · rw [List.nodup_append] at hnd; exact hnd.1
      · intro id hid
        exact h.ids_fresh id (by rw [hI]; exact List.mem_append_left _ hid)
      · intro id hid
        exact hcap id hid
    · simp [hI]
    · simp [hF]

theorem vecOk_of_eq {s t : State} (h : VecOk s)
    (e1 : t.pboFences = s.pboFences) (e2 : t.pboIds = s.pboIds)
    (e3 : t.nextBuffer = s.nextBuffer) (e4 : t.glBuffers = s.glBuffers)
    (e5 : t.glError = s.glError) (e6 : t.glSyncs = s.glSyncs)
    (e7 : t.nextSync = s.nextSync) : VecOk t := by
  refine ⟨by rw [e1, e2]; exact h.fences_len, by rw [e2]; exact h.ids_nodup, ?_, ?_,
    by rw [e5]; exact h.no_error, by rw [e1, e6, e7]; exact h.fences⟩
  · intro id hid
    rw [e3]
    exact h.ids_fresh id (e2 ▸ hid)
  · intro id hid
    have := h.capacity id (e2 ▸ hid)
    unfold capacityOf at this ⊢
    rw [e4]
    exact this

theorem take_dropLast {α : Type} (l : List α) (n k : Nat) (hn : n = l.length)
    (hk : k + 1 ≤ n) : l.dropLast.take (n - 1 - k) = l.take (n - (k + 1)) := by
  rw [List.dropLast_eq_take, List.take_take]
  congr 1
  omega

theorem deleteLoop_plain : ∀ (k : Nat) (i : Int) (s : State), VecOk s →
    k ≤ s.pboIds.length →
    ∃ s1, deleteLoop false k i s = .ok s1 ∧ VecOk s1 ∧
      s1.pboIds = s.pboIds.take (s.pboIds.length - k) ∧
      s1.pboFences = s.pboFences.take (s.pboIds.length - k) ∧
      s1.alignedBuffers = s.alignedBuffers ∧ s1.hostMem = s.hostMem ∧
      s1.nextPtr = s.nextPtr ∧ s1.pboMethod = s.pboMethod
  | 0, i, s, h, _ => by
    refine ⟨s, rfl, h, by simp, ?_, rfl, rfl, rfl, rfl⟩
    rw [Nat.sub_zero, ← h.fences_len, List.take_length]
  | k + 1, i, s, h, hk => by
    have hne : s.pboIds ≠ [] := by
      intro e; rw [e] at hk; simp at hk
    obtain ⟨s1, h0, h1, h2, h3, h4, h5, h6, h7⟩ := deletePbo_spec i s h hne
    have hk1 : k ≤ s1.pboIds.length := by
      rw [h2, List.length_dropLast]; omega
    obtain ⟨s2, g0, g1, g2, g3, g4, g5, g6, g7⟩ := deleteLoop_plain k (i - 1) s1 h1 hk1
    refine ⟨s2, ?_, g1, ?_, ?_, by rw [g4, h4], by rw [g5, h5], by rw [g6, h6],
      by rw [g7, h7]⟩
    · simp [deleteLoop, h0, g0, bind, Except.bind]
    · rw [g2, h2, List.length_dropLast]
      exact take_dropLast _ _ _ rfl hk
    · rw [g3, h2, h3, List.length_dropLast]
      exact take_dropLast _ _ _ h.fences_len.symm hk

theorem deletePinnedPbo_spec (i : Int) (s : State) (h : VecOk s) (hp : PinnedOk s)
    (hne : s.pboIds ≠ []) :
    ∃ s1, deletePinnedPbo i s = .ok s1 ∧ VecOk s1 ∧ PinnedOk s1 ∧
      s1.pboIds = s.pboIds.dropLast ∧ s1.pboFences = s.pboFences.dropLast ∧
      s1.alignedBuffers = s.alignedBuffers.dropLast ∧ s1.pboMethod = s.pboMethod := by
  obtain ⟨s1, h0, h1, h2, h3, h4, h5, h6, h7⟩ := deletePbo_spec i s h hne
  have hA0 : s.alignedBuffers ≠ [] := by
    intro e
    have := hp.len
    rw [e] at this
    exact hne (List.length_eq_zero.mp this.symm)
  obtain ⟨A, p, hA⟩ := exists_concat_of_ne_nil _ hA0
  have hnd : (A ++ [p]).Nodup := hA ▸ hp.nodup
  have hlive : (s1.hostMem.any fun m => m.1 = p) = true := by
    rw [h5]
    exact hp.live p (by rw [hA]; simp)
  refine ⟨
    { s1 with
      hostMem := s1.hostMem.filter fun m => m.1 ≠ p
      events := s1.events ++ [.alignedFree p]
      alignedBuffers := A
      log := s1.log ++ [.freedMemory i] }, ?_, ?_, ?_, h2, h3, ?_, h7⟩
  · simp [deletePinnedPbo, h0, h4, hA, vecBack_concat, alignedFree, hlive, bind, Except.bind,
      pure, Except.pure]
  · exact vecOk_of_eq h1 rfl rfl rfl rfl rfl rfl rfl
  · refine ⟨?_, ?_, ?_, ?_⟩
    · show A.length = s1.pboIds.length
      have := hp.len
      rw [hA] at this
      rw [h2, List.length_dropLast, ← this]
      simp
    · show A.Nodup
      rw [List.nodup_append] at hnd; exact hnd.1
    · intro q hq
      have hq : q ∈ A := hq
      show ((s1.hostMem.filter fun m => m.1 ≠ p).any fun m => m.1 = q) = true
      have hqp : q ≠ p := by
        intro e
        subst e
        rw [List.nodup_append] at hnd
        exact hnd.2.2 hq (List.mem_singleton_self _)
      have := hp.live q (by rw [hA]; exact List.mem_append_left _ hq)
      rw [← h5, List.any_eq_true] at this
      obtain ⟨m, hm, hmq⟩ := this
      rw [List.any_eq_true]
      refine ⟨m, ?_, hmq⟩
      rw [List.mem_filter]
      refine ⟨hm, ?_⟩
      simp at hmq ⊢
      rw [hmq]; exact hqp
    · intro q hq
      have hq : q ∈ A := hq
      show q < s1.nextPtr
      rw [h6]
      exact hp.fresh q (by rw [hA]; exact List.mem_append_left _ hq)
  · show A = s.alignedBuffers.dropLast
    simp [hA]

theorem deleteLoop_pinned : ∀ (k : Nat) (i : Int) (s : State), VecOk s → PinnedOk s →
    k ≤ s.pboIds.length →
    ∃ s1, deleteLoop true k i s = .ok s1 ∧ VecOk s1 ∧ PinnedOk s1 ∧
      s1.pboIds = s.pboIds.take (s.pboIds.length - k) ∧
      s1.pboFences = s.pboFences.take (s.pboIds.length - k) ∧
      s1.alignedBuffers = s.alignedBuffers.take (s.pboIds.length - k) ∧
      s1.pboMethod = s.pboMethod
  | 0, i, s, h, hp, _ => by
    refine ⟨s, rfl, h, hp, by simp, ?_, ?_, rfl⟩
    · rw [Nat.sub_zero, ← h.fences_len, List.take_length]
    · rw [Nat.sub_zero, ← hp.len, List.take_length]
  | k + 1, i, s, h, hp, hk => by
    have hne : s.pboIds ≠ [] := by
      intro e; rw [e] at hk; simp at hk
    obtain ⟨s1, h0, h1, hp1, h2, h3, h4, h7⟩ := deletePinnedPbo_spec i s h hp hne
    have hk1 : k ≤ s1.pboIds.length := by
      rw [h2, List.length_dropLast]; omega
    obtain ⟨s2, g0, g1, gp, g2, g3, g4, g7⟩ := deleteLoop_pinned k (i - 1) s1 h1 hp1 hk1
    refine ⟨s2, ?_, g1, gp, ?_, ?_, ?_, by rw [g7, h7]⟩
    · simp [deleteLoop, h0, g0, bind, Except.bind]
    · rw [g2, h2, List.length_dropLast]
      exact take_dropLast _ _ _ rfl hk
    · rw [g3, h2, h3, List.length_dropLast]
      exact take_dropLast _ _ _ h.fences_len.symm hk
    · rw [g4, h2, h4, List.length_dropLast]
      exact take_dropLast _ _ _ hp.len.symm hk

theorem createPinnedPbo_spec (env : GrowEnv) (i : Int) (s : State) (h : VecOk s)
    (he : env i.toNat = .ok) (ha : alignmentCheck s.systemPageSize = true) :
    ∃ s1, createPinnedPbo env i s = .ok (true, s1) ∧ VecOk s1 ∧
      s1.pboIds = s.pboIds ++ [s.nextBuffer] ∧ s1.pboFences = s.pboFences ++ [none] ∧
      s1.alignedBuffers = s.alignedBuffers ++ [s.nextPtr] ∧
      s1.pboMethod = s.pboMethod ∧ s1.systemPageSize = s.systemPageSize ∧
      (PinnedOk s → PinnedOk s1) := by
  have hg := h.no_error
  refine ⟨
    { s with
      nextBuffer := s.nextBuffer + 1
      glBuffers := (s.glBuffers ++ [newBuffer s.nextBuffer]).map
        (setStore s.nextBuffer DATA_SIZE (some s.nextPtr))
      nextPtr := s.nextPtr + 1
      hostMem := s.hostMem ++ [(s.nextPtr, List.replicate (DATA_SIZE / 4) 0)]
      events := s.events ++ [.genBuffer s.nextBuffer] ++ [.alignedMalloc s.nextPtr] ++
        [.bufferData s.nextBuffer DATA_SIZE (some s.nextPtr)]
      pboIds := s.pboIds ++ [s.nextBuffer]
      pboFences := s.pboFences ++ [none]
      alignedBuffers := s.alignedBuffers ++ [s.nextPtr]
      log := s.log ++ [.createdMemory i DATA_SIZE s.systemPageSize] ++ [.createdPinnedPbo i] },
    ?_, ?_, rfl, rfl, rfl, rfl, rfl, ?_⟩
  · simp [createPinnedPbo, assertNoError, alignedMalloc, glBufferData, he, ha, hg, bind,
      Except.bind, pure, Except.pure]
  · refine ⟨?_, ?_, ?_, ?_, hg, fenceRel_push h.fences⟩
    · show (s.pboFences ++ [none]).length = (s.pboIds ++ [s.nextBuffer]).length
      simp [h.fences_len]
    · show (s.pboIds ++ [s.nextBuffer]).Nodup
      refine List.Nodup.append h.ids_nodup (List.nodup_singleton _) ?_
      intro x hx hx2
      rw [List.mem_singleton] at hx2
      subst hx2
      exact Nat.lt_irrefl _ (h.ids_fresh _ hx)
    · intro id hid
      show id < s.nextBuffer + 1
      have hid2 : id ∈ s.pboIds ++ [s.nextBuffer] := hid
      rw [List.mem_append, List.mem_singleton] at hid2
      rcases hid2 with h1 | h1
      · exact Nat.lt_succ_of_lt (h.ids_fresh _ h1)
      · omega
    · intro id hid
      have hid2 : id ∈ s.pboIds ++ [s.nextBuffer] := hid
      unfold capacityOf
      simp only []
      rw [capacity_after_create]
      split
      · rfl
      · rw [List.mem_append, List.mem_singleton] at hid2
        rcases hid2 with h1 | h1
        · exact h.capacity _ h1
        · contradiction
  · intro hp
    refine ⟨?_, ?_, ?_, ?_⟩
    · show (s.alignedBuffers ++ [s.nextPtr]).length = (s.pboIds ++ [s.nextBuffer]).length
      simp [hp.len]
    · show (s.alignedBuffers ++ [s.nextPtr]).Nodup
      refine List.Nodup.append hp.nodup (List.nodup_singleton _) ?_
      intro x hx hx2
      rw [List.mem_singleton] at hx2
      subst hx2
      exact Nat.lt_irrefl _ (hp.fresh _ hx)
    · intro q hq
      have hq : q ∈ s.alignedBuffers ++ [s.nextPtr] := hq
      show ((s.hostMem ++ [(s.nextPtr, List.replicate (DATA_SIZE / 4) 0)]).any
        fun m => m.1 = q) = true
      rw [List.any_append]
      rw [List.mem_append, List.mem_singleton] at hq
      rcases hq with h1 | h1
      · rw [hp.live q h1]; rfl
      · subst h1; simp
    · intro q hq
      have hq : q ∈ s.alignedBuffers ++ [s.nextPtr] := hq
      show q < s.nextPtr + 1
      rw [List.mem_append, List.mem_singleton] at hq
      rcases hq with h1 | h1
      · exact Nat.lt_succ_of_lt (hp.fresh _ h1)
      · omega

theorem createPinnedLoop_spec (env : GrowEnv) (he : ∀ j, env j = .ok) :
    ∀ (k : Nat) (i : Int) (s : State), VecOk s → alignmentCheck s.systemPageSize = true →
    ∃ s1, createPinnedLoop env k i s = .ok s1 ∧ VecOk s1 ∧
      (∃ fresh, s1.pboIds = s.pboIds ++ fresh ∧ fresh.length = k) ∧
      s1.pboFences = s.pboFences ++ List.replicate k none ∧
      (∃ ptrs, s1.alignedBuffers = s.alignedBuffers ++ ptrs ∧ ptrs.length = k) ∧
      s1.pboMethod = s.pboMethod ∧ (PinnedOk s → PinnedOk s1)
  | 0, i, s, h, _ =>
    ⟨s, rfl, h, ⟨[], by simp, rfl⟩, by simp, ⟨[], by simp, rfl⟩, rfl, fun hp => hp⟩
  | k + 1, i, s, h, ha => by
    obtain ⟨s1, h0, h1, h2, h3, h4, h5, h6, h7⟩ := createPinnedPbo_spec env i s h (he _) ha
    obtain ⟨s2, g0, g1, ⟨fresh, g2, g2l⟩, g3, ⟨ptrs, g4, g4l⟩, g5, g7⟩ :=
      createPinnedLoop_spec env he k (i + 1) s1 h1 (by rw [h6]; exact ha)
    refine ⟨s2, ?_, g1, ⟨s.nextBuffer :: fresh, ?_, by simp [g2l]⟩, ?_,
      ⟨s.nextPtr :: ptrs, ?_, by simp [g4l]⟩, by rw [g5, h5], fun hp => g7 (h7 hp)⟩
    · simp [createPinnedLoop, h0, g0, bind, Except.bind]
    · rw [g2, h2]; simp
    · rw [g3, h3]; simp [List.replicate_succ]
    · rw [g4, h4]; simp

theorem closeBranch_spec (s : State) (h : VecOk s) :
    closeBranch s = .ok { s with pboCount := (s.pboIds.length : Int) } := by
  simp [closeBranch, assertNoError, h.no_error]

theorem pinnedOk_of_eq {s t : State} (h : PinnedOk s)
    (e1 : t.alignedBuffers = s.alignedBuffers) (e2 : t.pboIds = s.pboIds)
    (e3 : t.hostMem = s.hostMem) (e4 : t.nextPtr = s.nextPtr) : PinnedOk t :=
  ⟨by rw [e1, e2]; exact h.len, by rw [e1]; exact h.nodup,
    by rw [e1, e3]; exact h.live, by rw [e1, e4]; exact h.fresh⟩

/-- What `setPboCount` does on a consistent pool when it does not fail: it ends
with `n` buffers, the surviving entries are a prefix of the old ones, the new
entries follow the old ones. -/
theorem setPboCount_spec (env : GrowEnv) (n : Nat) (s : State)
    (hs : s.pboSupported = true) (hp : PoolOk s)
    (hshrink : s.pboMethod = .AMD → (n : Int) < s.pboCount → PinnedOk s)
    (hgrow : s.pboMethod = .AMD → s.pboCount < (n : Int) →
      alignmentCheck s.systemPageSize = true ∧ ∀ j, env j = .ok) :
    ∃ s1, setPboCount env n s = .ok s1 ∧ PoolOk s1 ∧ s1.pboCount = (n : Int) ∧
      s1.pboIds.length = n ∧ s1.pboMethod = s.pboMethod ∧
      s1.pboIds.take (min n s.pboIds.length) = s.pboIds.take (min n s.pboIds.length) ∧
      s1.pboFences.take (min n s.pboIds.length) = s.pboFences.take (min n s.pboIds.length) ∧
      (s.pboMethod = .AMD → PinnedOk s → PinnedOk s1) := by
  have hc := hp.count_eq
  have hv := hp.vec
  have fin : ∀ t : State, VecOk t → t.pboIds.length = n → t.pboMethod = s.pboMethod →
      t.pboIds.take (min n s.pboIds.length) = s.pboIds.take (min n s.pboIds.length) →
      t.pboFences.take (min n s.pboIds.length) = s.pboFences.take (min n s.pboIds.length) →
      (s.pboMethod = .AMD → PinnedOk s → PinnedOk t) →
      PoolOk (closed t) ∧ (closed t).pboCount = (n : Int) ∧
        (closed t).pboIds.length = n ∧ (closed t).pboMethod = s.pboMethod ∧
        (closed t).pboIds.take (min n s.pboIds.length) = s.pboIds.take (min n s.pboIds.length) ∧
        (closed t).pboFences.take (min n s.pboIds.length) =
          s.pboFences.take (min n s.pboIds.length) ∧
        (s.pboMethod = .AMD → PinnedOk s → PinnedOk (closed t)) := by
    intro t ht hl hm h1 h2 h3
    refine ⟨⟨rfl, vecOk_of_eq ht rfl rfl rfl rfl rfl rfl rfl⟩,
      ?_, hl, hm, h1, h2, fun a b => pinnedOk_of_eq (h3 a b) rfl rfl rfl rfl⟩
    show (t.pboIds.length : Int) = n
    rw [hl]
  by_cases hgt : (n : Int) > s.pboCount
  · have hk : ((n : Int) - s.pboCount).toNat = n - s.pboIds.length := by omega
    have hmin : min n s.pboIds.length = s.pboIds.length := by omega
    by_cases hm : s.pboMethod = .AMD
    · obtain ⟨ha, he⟩ := hgrow hm hgt
      obtain ⟨t, g0, g1, ⟨fresh, g2, g2l⟩, g3, ⟨ptrs, g4, g4l⟩, g5, g7⟩ :=
        createPinnedLoop_spec env he (n - s.pboIds.length) s.pboCount s hv ha
      have e : setPboCount env n s = .ok (closed t) := by
        unfold setPboCount
        rw [if_neg (by simp [hs]), if_pos hgt, if_neg (fun h => h hm), hk, g0]
        simp only [bind, Except.bind]
        rw [closeBranch_spec t g1]
        rfl
      refine ⟨closed t, e, fin t g1 ?_ (by rw [g5]) ?_ ?_ (fun _ hq => g7 hq)⟩
      · rw [g2, List.length_append, g2l]; omega
      · rw [hmin, g2, List.take_left' rfl, List.take_length]
      · rw [hmin, g3, List.take_left' hv.fences_len, ← hv.fences_len, List.take_length]
    · have hv0 : VecOk { s with boundUnpack := 0 } := vecOk_of_eq hv rfl rfl rfl rfl rfl rfl rfl
      obtain ⟨g1, ⟨fresh, g2, g2l⟩, g3, g4, g5, g6⟩ :=
        createLoop_spec (n - s.pboIds.length) s.pboCount { s with boundUnpack := 0 } hv0
      have e : setPboCount env n s = .ok
          (closed (createLoop (n - s.pboIds.length) s.pboCount { s with boundUnpack := 0 })) := by
        unfold setPboCount
        rw [if_neg (by simp [hs]), if_pos hgt, if_pos hm, hk]
        simp only [bind, Except.bind]
        rw [closeBranch_spec _ g1]
        rfl
      refine ⟨_, e, fin _ g1 ?_ g6 ?_ ?_ (fun a => absurd a hm)⟩
      · rw [g2, List.length_append, g2l]; show s.pboIds.length + _ = n; omega
      · rw [hmin, g2]; show (s.pboIds ++ fresh).take _ = _; rw [List.take_left' rfl, List.take_length]
      · rw [hmin, g3]; show (s.pboFences ++ _).take _ = _
        rw [List.take_left' hv.fences_len, ← hv.fences_len, List.take_length]
  · by_cases hlt : (n : Int) < s.pboCount
    · have hk : (s.pboCount - (n : Int)).toNat = s.pboIds.length - n := by omega
      have hmin : min n s.pboIds.length = n := by omega
      have hkn : s.pboIds.length - (s.pboIds.length - n) = n := by omega
      by_cases hm : s.pboMethod = .AMD
      · have hq := hshrink hm hlt
        obtain ⟨t, g0, g1, gp, g2, g3, g4, g5⟩ :=
          deleteLoop_pinned (s.pboIds.length - n) (s.pboCount - 1) s hv hq (by omega)
        rw [hkn] at g2 g3
        have e : setPboCount env n s = .ok (closed t) := by
          unfold setPboCount
          rw [if_neg (by simp [hs]), if_neg hgt, if_pos hlt, if_neg (fun h => h hm), hk, g0]
          simp only [bind, Except.bind]
          rw [closeBranch_spec t g1]
          rfl
        refine ⟨closed t, e, fin t g1 ?_ (by rw [g5]) ?_ ?_ (fun _ _ => gp)⟩
        · rw [g2, List.length_take]; omega
        · rw [hmin, g2, List.take_take]; simp
        · rw [hmin, g3, List.take_take]; simp
      · have hv0 : VecOk { s with boundUnpack := 0 } := vecOk_of_eq hv rfl rfl rfl rfl rfl rfl rfl
        obtain ⟨t, g0, g1, g2, g3, g4, g5, g6, g7⟩ :=
          deleteLoop_plain (s.pboIds.length - n) (s.pboCount - 1) { s with boundUnpack := 0 } hv0
            (by show _ ≤ s.pboIds.length; omega)
        have g2 : t.pboIds = s.pboIds.take n := by rw [g2]; show s.pboIds.take _ = _; rw [hkn]
        have g3 : t.pboFences = s.pboFences.take n := by
          rw [g3]; show s.pboFences.take _ = _; rw [hkn]
        have e : setPboCount env n s = .ok (closed t) := by
          unfold setPboCount
          rw [if_neg (by simp [hs]), if_neg hgt, if_pos hlt, if_pos hm, hk, g0]
          simp only [bind, Except.bind]
          rw [closeBranch_spec t g1]
          rfl
        refine ⟨closed t, e, fin t g1 ?_ (by rw [g7]) ?_ ?_ (fun a => absurd a hm)⟩
        · rw [g2, List.length_take]; omega
        · rw [hmin, g2, List.take_take]; simp
        · rw [hmin, g3, List.take_take]; simp
    · have hn : s.pboIds.length = n := by omega
      have e : setPboCount env n s = .ok { s with log := s.log ++ [.pboCountLine s.pboCount] } := by
        unfold setPboCount
        rw [if_neg (by simp [hs]), if_neg hgt, if_neg hlt]
        rfl
      refine ⟨_, e,
        ⟨hc, vecOk_of_eq hv rfl rfl rfl rfl rfl rfl rfl⟩, by show s.pboCount = n; omega, hn, rfl, rfl,
        rfl, fun _ hq => pinnedOk_of_eq hq rfl rfl rfl rfl⟩

theorem vecAt_of_getElem? {α : Type} (xs : List α) (i : Int) (x : α) (h0 : 0 ≤ i)
    (h : xs[i.toNat]? = some x) : vecAt xs i = .ok x := by
  unfold vecAt
  rw [if_neg (by omega), h]

theorem vecAt_total {α : Type} (xs : List α) (i : Int) (h0 : 0 ≤ i)
    (h : i.toNat < xs.length) : ∃ x, vecAt xs i = .ok x ∧ xs[i.toNat]? = some x :=
  ⟨xs[i.toNat], vecAt_of_getElem? xs i _ h0 (List.getElem?_eq_getElem h),
    List.getElem?_eq_getElem h⟩

theorem rotate_spec (s : State) (h1 : 1 ≤ s.pboCount) (h2 : s.pboCount ≤ 2147483647)
    (h3 : 0 ≤ s.copyIdx) (h4 : s.copyIdx < 2147483647) :
    rotate s = .ok ((s.copyIdx + 1) % s.pboCount,
      ((s.copyIdx + 1) % s.pboCount + 1) % s.pboCount) := by
  have hpos : (0 : Int) < s.pboCount := by omega
  have hc0 : 0 ≤ (s.copyIdx + 1) % s.pboCount := Int.emod_nonneg _ (by omega)
  have hc1 : (s.copyIdx + 1) % s.pboCount < s.pboCount := Int.emod_lt_of_pos _ hpos
  have e1 : cRem (wrapInt (s.copyIdx + 1)) s.pboCount = .ok ((s.copyIdx + 1) % s.pboCount) := by
    unfold cRem
    rw [if_neg (by omega), wrapInt_eq _ (by omega) (by omega),
      Int.tmod_eq_emod (by omega) (by omega)]
  have e2 : cRem (wrapInt ((s.copyIdx + 1) % s.pboCount + 1)) s.pboCount =
      .ok (((s.copyIdx + 1) % s.pboCount + 1) % s.pboCount) := by
    unfold cRem
    rw [if_neg (by omega), wrapInt_eq _ (by omega) (by omega),
      Int.tmod_eq_emod (by omega) (by omega)]
  unfold rotate
  rw [e1]
  simp only [bind, Except.bind]
  rw [e2]
  rfl

theorem claimFence_spec (env : TickEnv) (u : Int) (s : State) (hu0 : 0 ≤ u)
    (hu : u.toNat < s.pboFences.length)
    (hr : FenceRel s.glSyncs s.pboFences s.nextSync) :
    ∃ s1, claimFence env u s = .ok s1 ∧ s1.pboFences[u.toNat]? = some none ∧
      FenceRel s1.glSyncs s1.pboFences s1.nextSync ∧
      s1.events = s.events ++ claimEvents env s u ∧
      s1.pboIds = s.pboIds ∧ s1.pboMethod = s.pboMethod ∧
      s1.alignedBuffers = s.alignedBuffers ∧ s1.hostMem = s.hostMem ∧
      s1.copyIdx = s.copyIdx ∧ s1.pboFences.length = s.pboFences.length ∧
      s1.nextSync = s.nextSync := by
  obtain ⟨h, hv, hslot⟩ := vecAt_total s.pboFences u hu0 hu
  cases h with
  | none =>
    refine ⟨s, ?_, hslot, hr, ?_, rfl, rfl, rfl, rfl, rfl, rfl, rfl⟩
    · simp [claimFence, hv, glIsSync, bind, Except.bind, pure, Except.pure]
    · simp [claimEvents, hslot]
  | some f =>
    obtain ⟨hf, hr2⟩ := fenceRel_clear hr hslot
    refine ⟨
      { s with
        events := s.events ++ [.clientWaitSync f env.waitResult] ++ [.deleteSync f]
        log := s.log ++ waitLog env.waitResult u
        glError := if env.waitResult = .WAIT_FAILED then false else s.glError
        glSyncs := s.glSyncs.erase f
        pboFences := s.pboFences.set u.toNat none }, ?_, ?_, hr2, ?_, rfl, rfl, rfl, rfl, rfl,
      ?_, rfl⟩
    · simp [claimFence, hv, glIsSync, hf, glDeleteSync, bind, Except.bind, pure, Except.pure]
    · show (s.pboFences.set u.toNat none)[u.toNat]? = some none
      rw [List.getElem?_set]; simp [hu]
    · simp [claimEvents, hslot]
    · show (s.pboFences.set u.toNat none).length = _
      simp

theorem storeFence_spec (u : Int) (s : State)
    (hm : s.pboMethod = .UNSYNCH_FENCES ∨ s.pboMethod = .AMD) (hu0 : 0 ≤ u)
    (hslot : s.pboFences[u.toNat]? = some none)
    (hr : FenceRel s.glSyncs s.pboFences s.nextSync) :
    ∃ s1, storeFence u s = .ok s1 ∧
      s1.pboFences[u.toNat]? = some (some s.nextSync) ∧
      FenceRel s1.glSyncs s1.pboFences s1.nextSync ∧
      s1.events = s.events ++ [.fenceSync s.nextSync u.toNat none] ∧
      s1.pboIds = s.pboIds ∧ s1.copyIdx = s.copyIdx ∧ s1.glBuffers = s.glBuffers ∧
      s1.hostMem = s.hostMem := by
  have hlt : u.toNat < s.pboFences.length := by
    by_contra hc
    rw [List.getElem?_eq_none (by omega)] at hslot
    cases hslot
  refine ⟨
    { s with
      glSyncs := s.glSyncs ++ [s.nextSync]
      nextSync := s.nextSync + 1
      pboFences := s.pboFences.set u.toNat (some s.nextSync)
      events := s.events ++ [.fenceSync s.nextSync u.toNat none] }, ?_, ?_,
    fenceRel_store hr hslot, rfl, rfl, rfl, rfl, rfl⟩
  · unfold storeFence
    rw [if_pos hm, vecAt_of_getElem? _ _ _ hu0 hslot]
    rfl
  · show (s.pboFences.set u.toNat (some s.nextSync))[u.toNat]? = _
    rw [List.getElem?_set]; simp [hlt]

theorem printTransferRate_pool (t : ℚ) (s : State) :
    (printTransferRate t s).events = s.events ∧
    (printTransferRate t s).pboFences = s.pboFences ∧
    (printTransferRate t s).glSyncs = s.glSyncs ∧
    (printTransferRate t s).nextSync = s.nextSync ∧
    (printTransferRate t s).copyIdx = s.copyIdx ∧
    (printTransferRate t s).pboIds = s.pboIds := by
  unfold printTransferRate
  split
  · simp
  · split <;> simp

theorem fillMapped_spec (env : TickEnv) (u : Int) (id : Nat) (e2 : LogLine)
    (r : Option (List Nat) × Nat) (s : State) :
    (fillMapped env u id e2 r s).events =
      s.events ++ [.producerWrite u.toNat, .unmapBuffer u.toNat id env.unmapOk] ∧
    (fillMapped env u id e2 r s).pboFences = s.pboFences ∧
    (fillMapped env u id e2 r s).glSyncs = s.glSyncs ∧
    (fillMapped env u id e2 r s).nextSync = s.nextSync ∧
    (fillMapped env u id e2 r s).pboIds = s.pboIds ∧
    (fillMapped env u id e2 r s).copyIdx = s.copyIdx ∧
    (fillMapped env u id e2 r s).pboMethod = s.pboMethod := by
  unfold fillMapped
  by_cases hu : env.unmapOk = true <;> simp [hu, writeBuffer]

theorem fillPinned_spec (u : Int) (p : Nat) (r : Option (List Nat) × Nat) (s : State) :
    (fillPinned u p r s).events = s.events ++ [.producerWrite u.toNat] ∧
    (fillPinned u p r s).pboFences = s.pboFences ∧
    (fillPinned u p r s).glSyncs = s.glSyncs ∧
    (fillPinned u p r s).nextSync = s.nextSync ∧
    (fillPinned u p r s).pboIds = s.pboIds ∧
    (fillPinned u p r s).copyIdx = s.copyIdx ∧
    (fillPinned u p r s).pboMethod = s.pboMethod :=
  ⟨rfl, rfl, rfl, rfl, rfl, rfl, rfl⟩

theorem mapAndFill_spec (env : TickEnv) (u : Int) (id : Nat) (e1 e2 : LogLine) (s : State) :
    ∃ w, (mapAndFill env u id e1 e2 s).2.events = s.events ++ w ∧
      (∀ e ∈ w, IsFillEvent u.toNat e) ∧
      (mapAndFill env u id e1 e2 s).2.pboFences = s.pboFences ∧
      (mapAndFill env u id e1 e2 s).2.glSyncs = s.glSyncs ∧
      (mapAndFill env u id e1 e2 s).2.nextSync = s.nextSync ∧
      (mapAndFill env u id e1 e2 s).2.pboIds = s.pboIds ∧
      (mapAndFill env u id e1 e2 s).2.copyIdx = s.copyIdx ∧
      (mapAndFill env u id e1 e2 s).2.pboMethod = s.pboMethod := by
  unfold mapAndFill
  by_cases hm : env.mapOk = true
  · simp only [hm, Bool.not_true, Bool.false_eq_true, if_false]
    obtain ⟨f1, f2, f3, f4, f5, f6, f7⟩ := fillMapped_spec env u id e2
      (updatePixels true DATA_SIZE s.color)
      { s with events := s.events ++ [.mapBuffer u.toNat id true] }
    refine ⟨[.mapBuffer u.toNat id true, .producerWrite u.toNat,
      .unmapBuffer u.toNat id env.unmapOk], ?_, ?_, f2, f3, f4, f5, f6, f7⟩
    · rw [f1]; simp
    · intro e he
      simp at he
      rcases he with h | h | h <;> subst h <;> simp [IsFillEvent]
  · refine ⟨[.mapBuffer u.toNat id env.mapOk], ?_, ?_, ?_⟩
    · simp [hm]
    · intro e he
      simp at he
      subst he
      simp [IsFillEvent]
    · simp [hm]

theorem uploadPhase_fence_spec (env : TickEnv) (u : Int) (s : State)
    (hm : s.pboMethod = .UNSYNCH_FENCES ∨ s.pboMethod = .AMD)
    (hu0 : 0 ≤ u) (hu : u.toNat < s.pboIds.length)
    (hfl : s.pboFences.length = s.pboIds.length)
    (hp : s.pboMethod = .AMD → PinnedOk s)
    (hr : FenceRel s.glSyncs s.pboFences s.nextSync) :
    ∃ b s1 w, uploadPhase env u s = .ok (b, s1) ∧
      s1.events = s.events ++ claimEvents env s u ++ w ∧
      (∀ e ∈ w, IsFillEvent u.toNat e) ∧
      s1.pboFences[u.toNat]? = some none ∧
      FenceRel s1.glSyncs s1.pboFences s1.nextSync ∧
      s1.pboIds = s.pboIds ∧ s1.copyIdx = s.copyIdx ∧ s1.pboMethod = s.pboMethod ∧
      s1.nextSync = s.nextSync := by
  obtain ⟨id, hid, _⟩ := vecAt_total s.pboIds u hu0 hu
  obtain ⟨s1, c0, c1, c2, c3, c4, c5, c6, c7, c8, c9, c10⟩ :=
    claimFence_spec env u { s with boundUnpack := id } hu0
      (by show u.toNat < s.pboFences.length; omega) hr
  have c3 : s1.events = s.events ++ claimEvents env s u := c3
  have c4 : s1.pboIds = s.pboIds := c4
  have c5 : s1.pboMethod = s.pboMethod := c5
  have c6 : s1.alignedBuffers = s.alignedBuffers := c6
  have c7 : s1.hostMem = s.hostMem := c7
  have c8 : s1.copyIdx = s.copyIdx := c8
  have c10 : s1.nextSync = s.nextSync := c10
  rcases hm with hm | hm
  · obtain ⟨w, m1, m2, m3, m4, m5, m6, m7, m8⟩ :=
      mapAndFill_spec env u id .errMapBufferRange .errUnmapBuffer s1
    refine ⟨(mapAndFill env u id .errMapBufferRange .errUnmapBuffer s1).1,
      (mapAndFill env u id .errMapBufferRange .errUnmapBuffer s1).2, w, ?_, ?_, m2, ?_, ?_, ?_,
      ?_, ?_, ?_⟩
    · unfold uploadPhase
      rw [hid]
      simp only [bind, Except.bind, hm] at c0 ⊢
      rw [c0]
      rfl
    · rw [m1, c3]
    · rw [m3]; exact c1
    · rw [m3, m4, m5]; exact c2
    · rw [m6]; exact c4
    · rw [m7]; exact c8
    · rw [m8, c5]
    · rw [m5, c10]
  · have hq := hp hm
    have hua : u.toNat < s1.alignedBuffers.length := by
      rw [c6, hq.len]; exact hu
    obtain ⟨p, hpv, hpe⟩ := vecAt_total s1.alignedBuffers u hu0 hua
    have hlive : (s1.hostMem.any fun m => m.1 = p) = true := by
      rw [c7]
      refine hq.live p ?_
      rw [c6] at hpe
      exact List.mem_iff_getElem?.mpr ⟨_, hpe⟩
    obtain ⟨f1, f2, f3, f4, f5, f6, f7⟩ :=
      fillPinned_spec u p (updatePixels true DATA_SIZE s1.color) s1
    refine ⟨true, fillPinned u p (updatePixels true DATA_SIZE s1.color) s1,
      [.producerWrite u.toNat], ?_, ?_, ?_, ?_, ?_, ?_, ?_, ?_, ?_⟩
    · unfold uploadPhase
      rw [hid]
      simp only [bind, Except.bind, hm] at c0 ⊢
      rw [c0]
      simp only []
      rw [hpv]
      simp only []
      rw [if_pos hlive]
      rfl
    · rw [f1, c3]
    · intro e he
      simp at he
      subst he
      simp [IsFillEvent]
    · rw [f2]; exact c1
    · rw [f2, f3, f4]; exact c2
    · rw [f5]; exact c4
    · rw [f6]; exact c8
    · rw [f7]; exact c5
    · rw [f4]; exact c10

theorem claimFence_total (env : TickEnv) (u : Int) (s : State) (hu0 : 0 ≤ u)
    (hu : u.toNat < s.pboFences.length) :
    ∃ s1, claimFence env u s = .ok s1 ∧ s1.pboIds = s.pboIds ∧ s1.copyIdx = s.copyIdx ∧
      s1.pboFences.length = s.pboFences.length ∧ s1.pboMethod = s.pboMethod ∧
      s1.alignedBuffers = s.alignedBuffers ∧ s1.hostMem = s.hostMem := by
  obtain ⟨h, hv, hslot⟩ := vecAt_total s.pboFences u hu0 hu
  unfold claimFence
  rw [hv]
  simp only [bind, Except.bind]
  split
  · rename_i f hg
    refine ⟨_, rfl, ?_⟩
    unfold glDeleteSync
    simp only []
    split <;> simp
  · exact ⟨s, rfl, rfl, rfl, rfl, rfl, rfl, rfl⟩

theorem uploadPhase_total (env : TickEnv) (u : Int) (s : State)
    (hu0 : 0 ≤ u) (hu : u.toNat < s.pboIds.length)
    (hfl : s.pboFences.length = s.pboIds.length)
    (hp : s.pboMethod = .AMD → PinnedOk s) :
    ∃ b s1, uploadPhase env u s = .ok (b, s1) ∧ s1.pboIds = s.pboIds ∧
      s1.copyIdx = s.copyIdx ∧ s1.pboFences.length = s.pboFences.length ∧
      s1.pboMethod = s.pboMethod := by
  obtain ⟨id, hid, _⟩ := vecAt_total s.pboIds u hu0 hu
  obtain ⟨s1, c0, c1, c2, c3, c4, c5, c6⟩ :=
    claimFence_total env u { s with boundUnpack := id } hu0
      (by show u.toNat < s.pboFences.length; omega)
  have c1 : s1.pboIds = s.pboIds := c1
  have c2 : s1.copyIdx = s.copyIdx := c2
  have c3 : s1.pboFences.length = s.pboFences.length := c3
  have c4 : s1.pboMethod = s.pboMethod := c4
  have c5 : s1.alignedBuffers = s.alignedBuffers := c5
  have c6 : s1.hostMem = s.hostMem := c6
  cases hm : s.pboMethod with
  | NONE =>
    refine ⟨true, { s with boundUnpack := id }, ?_, rfl, rfl, rfl, hm⟩
    unfold uploadPhase
    rw [hid]
    simp only [bind, Except.bind, hm]
    rfl
  | ORPHAN =>
    obtain ⟨w, m1, m2, m3, m4, m5, m6, m7, m8⟩ :=
      mapAndFill_spec env u id .errMapBufferARB .errUnmapBufferARB
        (glBufferData id DATA_SIZE none { s with boundUnpack := id })
    refine ⟨(mapAndFill env u id .errMapBufferARB .errUnmapBufferARB
        (glBufferData id DATA_SIZE none { s with boundUnpack := id })).1,
      (mapAndFill env u id .errMapBufferARB .errUnmapBufferARB
        (glBufferData id DATA_SIZE none { s with boundUnpack := id })).2, ?_, ?_, ?_, ?_, ?_⟩
    · unfold uploadPhase
      rw [hid]
      simp only [bind, Except.bind, hm]
      rfl
    · rw [m6]; rfl
    · rw [m7]; rfl
    · rw [m3]; rfl
    · rw [m8]; exact hm
  | UNSYNCH_ORPHAN =>
    obtain ⟨w, m1, m2, m3, m4, m5, m6, m7, m8⟩ :=
      mapAndFill_spec env u id .errMapBufferRange .errUnmapBuffer
        (glBufferData id DATA_SIZE none { s with boundUnpack := id })
    refine ⟨(mapAndFill env u id .errMapBufferRange .errUnmapBuffer
        (glBufferData id DATA_SIZE none { s with boundUnpack := id })).1,
      (mapAndFill env u id .errMapBufferRange .errUnmapBuffer
        (glBufferData id DATA_SIZE none { s with boundUnpack := id })).2, ?_, ?_, ?_, ?_, ?_⟩
    · unfold uploadPhase
      rw [hid]
      simp only [bind, Except.bind, hm]
      rfl
    · rw [m6]; rfl
    · rw [m7]; rfl
    · rw [m3]; rfl
    · rw [m8]; exact hm
  | UNSYNCH_FENCES =>
    obtain ⟨w, m1, m2, m3, m4, m5, m6, m7, m8⟩ :=
      mapAndFill_spec env u id .errMapBufferRange .errUnmapBuffer s1
    refine ⟨(mapAndFill env u id .errMapBufferRange .errUnmapBuffer s1).1,
      (mapAndFill env u id .errMapBufferRange .errUnmapBuffer s1).2, ?_, ?_, ?_, ?_, ?_⟩
    · unfold uploadPhase
      rw [hid]
      simp only [bind, Except.bind, hm] at c0 ⊢
      rw [c0]
      rfl
    · rw [m6]; exact c1
    · rw [m7]; exact c2
    · rw [m3]; exact c3
    · rw [m8, c4]; exact hm
  | AMD =>
    have hq := hp hm
    have hua : u.toNat < s1.alignedBuffers.length := by
      rw [c5, hq.len]; exact hu
    obtain ⟨p, hpv, hpe⟩ := vecAt_total s1.alignedBuffers u hu0 hua
    have hlive : (s1.hostMem.any fun m => m.1 = p) = true := by
      rw [c6]
      refine hq.live p ?_
      rw [c5] at hpe
      exact List.mem_iff_getElem?.mpr ⟨_, hpe⟩
    obtain ⟨f1, f2, f3, f4, f5, f6, f7⟩ :=
      fillPinned_spec u p (updatePixels true DATA_SIZE s1.color) s1
    refine ⟨true, fillPinned u p (updatePixels true DATA_SIZE s1.color) s1, ?_, ?_, ?_, ?_, ?_⟩
    · unfold uploadPhase
      rw [hid]
      simp only [bind, Except.bind, hm] at c0 ⊢
      rw [c0]
      simp only []
      rw [hpv]
      simp only []
      rw [if_pos hlive]
      rfl
    · rw [f5]; exact c1
    · rw [f6]; exact c2
    · rw [f2]; exact c3
    · rw [f7, c4]; exact hm

theorem storeFence_total (u : Int) (s : State) (hu0 : 0 ≤ u)
    (hu : u.toNat < s.pboFences.length) :
    ∃ s1, storeFence u s = .ok s1 ∧ s1.pboIds = s.pboIds ∧ s1.copyIdx = s.copyIdx := by
  obtain ⟨h, hv, _⟩ := vecAt_total s.pboFences u hu0 hu
  unfold storeFence
  split
  · rw [hv]; exact ⟨_, rfl, rfl, rfl⟩
  · exact ⟨s, rfl, rfl, rfl⟩

theorem copyPhase_spec (c : Int) (s : State) (hc0 : 0 ≤ c) (hc : c.toNat < s.pboIds.length) :
    ∃ id s1, copyPhase c s = .ok s1 ∧
      s1.events = s.events ++ [.texSubImageBuffer c.toNat id] ∧
      s1.pboFences = s.pboFences ∧ s1.glSyncs = s.glSyncs ∧ s1.nextSync = s.nextSync ∧
      s1.copyIdx = s.copyIdx ∧ s1.pboIds = s.pboIds := by
  obtain ⟨id, hv, _⟩ := vecAt_total s.pboIds c hc0 hc
  refine ⟨id,
    { s with
      texture := (bufferContent s id).getD s.texture
      boundUnpack := 0
      events := s.events ++ [.texSubImageBuffer c.toNat id] }, ?_, rfl, rfl, rfl, rfl, rfl, rfl⟩
  unfold copyPhase
  rw [hv]
  rfl

theorem displayCB_buffered (env : TickEnv) (s : State) (c u : Int) (b : Bool) (s1 : State)
    (hm : s.pboMethod ≠ .NONE) (hrot : rotate s = .ok (c, u))
    (hup : uploadPhase env u { s with copyIdx := c } = .ok (b, s1)) :
    displayCB env s =
      if b then
        (storeFence u s1).bind fun s2 =>
          (copyPhase c s2).bind fun s3 => .ok (printTransferRate env.elapsedTime s3)
      else .ok s1 := by
  unfold displayCB
  rw [if_neg hm, hrot]
  simp only [bind, Except.bind]
  rw [hup]
  cases b <;> rfl

theorem fenceRel_nil (n : Nat) : FenceRel [] [] n := by
  refine ⟨fun f => ?_, List.nodup_nil, fun i j f hi _ => ?_, fun f hf => ?_⟩
  · simp
  · simp at hi
  · cases hf

theorem initState_poolOk (a b : Bool) (p : Nat) : PoolOk (initState a b p) := by
  refine ⟨rfl, ⟨rfl, List.nodup_nil, ?_, ?_, rfl, fenceRel_nil _⟩⟩
  · intro id hid; cases hid
  · intro id hid; cases hid

theorem displayCB_fence_tick (env : TickEnv) (s : State)
    (hm : s.pboMethod = .UNSYNCH_FENCES ∨ s.pboMethod = .AMD)
    (h1 : 1 ≤ s.pboCount) (h2 : s.pboCount ≤ 2147483647)
    (hc : s.pboCount = (s.pboIds.length : Int)) (hfl : s.pboFences.length = s.pboIds.length)
    (h3 : 0 ≤ s.copyIdx) (h4 : s.copyIdx < 2147483647)
    (hp : s.pboMethod = .AMD → PinnedOk s)
    (hr : FenceRel s.glSyncs s.pboFences s.nextSync) :
    ∃ c u s1 rest, rotate s = .ok (c, u) ∧ displayCB env s = .ok s1 ∧
      s1.events = s.events ++ claimEvents env s u ++ rest ∧
      (∀ slot, Event.producerWrite slot ∈ rest → slot = u.toNat) ∧
      (∀ f slot prev, Event.fenceSync f slot prev ∈ rest → slot = u.toNat ∧ prev = none) ∧
      FenceRel s1.glSyncs s1.pboFences s1.nextSync := by
  have hrot := rotate_spec s h1 h2 h3 h4
  have hpos : (0 : Int) < s.pboCount := by omega
  have hc0 : 0 ≤ (s.copyIdx + 1) % s.pboCount := Int.emod_nonneg _ (by omega)
  have hc1 : (s.copyIdx + 1) % s.pboCount < s.pboCount := Int.emod_lt_of_pos _ hpos
  have hu0 : 0 ≤ ((s.copyIdx + 1) % s.pboCount + 1) % s.pboCount := Int.emod_nonneg _ (by omega)
  have hu1 : ((s.copyIdx + 1) % s.pboCount + 1) % s.pboCount < s.pboCount :=
    Int.emod_lt_of_pos _ hpos
  generalize (s.copyIdx + 1) % s.pboCount = c at hrot hc0 hc1 hu0 hu1
  generalize (c + 1) % s.pboCount = u at hrot hu0 hu1
  have hnot : s.pboMethod ≠ .NONE := by rcases hm with h | h <;> rw [h] <;> decide
  obtain ⟨b, s1, w, p0, p1, p2, p3, p4, p5, p6, p7, p8⟩ :=
    uploadPhase_fence_spec env u { s with copyIdx := c } hm hu0
      (by show u.toNat < s.pboIds.length; omega) hfl
      (fun h => pinnedOk_of_eq (hp h) rfl rfl rfl rfl) hr
  have p1 : s1.events = s.events ++ claimEvents env s u ++ w := p1
  have p5 : s1.pboIds = s.pboIds := p5
  have p7 : s1.pboMethod = s.pboMethod := p7
  have hfill : ∀ e ∈ w, (∀ slot, e = Event.producerWrite slot → slot = u.toNat) ∧
      ∀ f slot prev, e ≠ Event.fenceSync f slot prev := by
    intro e he
    have := p2 e he
    cases e <;> simp_all [IsFillEvent]
  have hd := displayCB_buffered env s c u b s1 hnot hrot p0
  cases b with
  | false =>
    refine ⟨c, u, s1, w, hrot, by rw [hd]; rfl, p1, ?_, ?_, p4⟩
    · intro slot hs
      exact (hfill _ hs).1 slot rfl
    · intro f slot prev hs
      exact absurd rfl ((hfill _ hs).2 f slot prev)
  | true =>
    obtain ⟨s2, q0, q1, q2, q3, q4, q5, q6, q7⟩ :=
      storeFence_spec u s1 (by rw [p7]; exact hm) hu0 p3 p4
    obtain ⟨id, s3, r0, r1, r2, r3, r4, r5, r6⟩ :=
      copyPhase_spec c s2 hc0 (by rw [q4, p5]; omega)
    obtain ⟨t1, t2, t3, t4, t5, t6⟩ := printTransferRate_pool env.elapsedTime s3
    refine ⟨c, u, printTransferRate env.elapsedTime s3,
      w ++ [.fenceSync s1.nextSync u.toNat none] ++ [.texSubImageBuffer c.toNat id], hrot, ?_, ?_,
      ?_, ?_, ?_⟩
    · rw [hd, if_pos rfl, q0]
      simp only [Except.bind]
      rw [r0]
    · rw [t1, r1, q3, p1]
      simp
    · intro slot hs
      simp only [List.mem_append, List.mem_singleton] at hs
      rcases hs with (hs | hs) | hs
      · exact (hfill _ hs).1 slot rfl
      · cases hs
      · cases hs
    · intro f slot prev hs
      simp only [List.mem_append, List.mem_singleton] at hs
      rcases hs with (hs | hs) | hs
      · exact absurd rfl ((hfill _ hs).2 f slot prev)
      · cases hs; exact ⟨rfl, rfl⟩
      · cases hs
    · rw [t2, t3, t4, r2, r3, r4]
      exact q2

theorem displayCB_copyIdx (env : TickEnv) (s : State)
    (hm : s.pboMethod ≠ .NONE)
    (h1 : 1 ≤ s.pboCount) (h2 : s.pboCount ≤ 2147483647)
    (hc : s.pboCount = (s.pboIds.length : Int)) (hfl : s.pboFences.length = s.pboIds.length)
    (h3 : 0 ≤ s.copyIdx) (h4 : s.copyIdx < 2147483647)
    (hp : s.pboMethod = .AMD → PinnedOk s) :
    ∃ s1, rotate s = .ok ((s.copyIdx + 1) % s.pboCount,
        ((s.copyIdx + 1) % s.pboCount + 1) % s.pboCount) ∧
      displayCB env s = .ok s1 ∧ s1.copyIdx = (s.copyIdx + 1) % s.pboCount ∧
      s1.pboIds = s.pboIds := by
  have hrot := rotate_spec s h1 h2 h3 h4
  have hpos : (0 : Int) < s.pboCount := by omega
  have hc0 : 0 ≤ (s.copyIdx + 1) % s.pboCount := Int.emod_nonneg _ (by omega)
  have hc1 : (s.copyIdx + 1) % s.pboCount < s.pboCount := Int.emod_lt_of_pos _ hpos
  have hu0 : 0 ≤ ((s.copyIdx + 1) % s.pboCount + 1) % s.pboCount := Int.emod_nonneg _ (by omega)
  have hu1 : ((s.copyIdx + 1) % s.pboCount + 1) % s.pboCount < s.pboCount :=
    Int.emod_lt_of_pos _ hpos
  have key : ∀ c u : Int, rotate s = .ok (c, u) → 0 ≤ c → c < s.pboCount → 0 ≤ u →
      u < s.pboCount → ∃ s1, displayCB env s = .ok s1 ∧ s1.copyIdx = c ∧
        s1.pboIds = s.pboIds := by
    intro c u hrot hc0 hc1 hu0 hu1
    obtain ⟨b, s1, p0, p1, p2, p3, p4⟩ :=
      uploadPhase_total env u { s with copyIdx := c } hu0
        (by show u.toNat < s.pboIds.length; omega) hfl
        (fun h => pinnedOk_of_eq (hp h) rfl rfl rfl rfl)
    have p1 : s1.pboIds = s.pboIds := p1
    have p2 : s1.copyIdx = c := p2
    have p3 : s1.pboFences.length = s.pboFences.length := p3
    have hd := displayCB_buffered env s c u b s1 hm hrot p0
    cases b with
    | false => exact ⟨s1, by rw [hd]; rfl, p2, p1⟩
    | true =>
      obtain ⟨s2, q0, q1, q2⟩ := storeFence_total u s1 hu0 (by rw [p3, hfl]; omega)
      obtain ⟨id, s3, r0, r1, r2, r3, r4, r5, r6⟩ :=
        copyPhase_spec c s2 hc0 (by rw [q1, p1]; omega)
      obtain ⟨t1, t2, t3, t4, t5, t6⟩ := printTransferRate_pool env.elapsedTime s3
      refine ⟨printTransferRate env.elapsedTime s3, ?_, ?_, ?_⟩
      · rw [hd, if_pos rfl, q0]
        simp only [Except.bind]
        rw [r0]
      · rw [t5, r5, q2, p2]
      · rw [t6, r6, q1, p1]
  obtain ⟨s1, k1, k2, k3⟩ := key _ _ hrot hc0 hc1 hu0 hu1
  exact ⟨s1, hrot, k1, k2, k3⟩

theorem fencedPool_fenceRel :
    FenceRel fencedPool.glSyncs fencedPool.pboFences fencedPool.nextSync :=
  @fenceRel_store [] [none] 1 0 (fenceRel_push (fenceRel_nil 1)) rfl

theorem land_odd_pred (b : Nat) : (2 * b + 1) &&& (2 * b) = 2 * b := by
  have := Nat.land_bit true b false b
  simp [Nat.bit_val] at this
  omega

theorem land_even_odd (b c : Nat) : (2 * b) &&& (2 * c + 1) = 2 * (b &&& c) := by
  have := Nat.land_bit false b true c
  simp [Nat.bit_val] at this
  omega

theorem land_pred_eq_zero_iff : ∀ a : Nat, 0 < a → (a &&& (a - 1) = 0 ↔ ∃ k : Nat, a = 2 ^ k) := by
  intro a
  induction a using Nat.strong_induction_on with
  | _ a ih =>
    intro ha
    rcases Nat.even_or_odd' a with ⟨b, hb | hb⟩
    · have hb1 : 0 < b := by omega
      have e : a - 1 = 2 * (b - 1) + 1 := by omega
      rw [e, hb, land_even_odd]
      have := ih b (by omega) hb1
      constructor
      · intro h
        obtain ⟨k, hk⟩ := this.mp (by omega)
        exact ⟨k + 1, by rw [hk, pow_succ]; ring⟩
      · rintro ⟨k, hk⟩
        cases k with
        | zero => simp at hk
        | succ k =>
          have hbk : b = 2 ^ k := by rw [pow_succ] at hk; omega
          have := this.mpr ⟨k, hbk⟩
          omega
    · have e : a - 1 = 2 * b := by omega
      rw [e, hb, land_odd_pred]
      constructor
      · intro h
        exact ⟨0, by simp; omega⟩
      · rintro ⟨k, hk⟩
        cases k with
        | zero => simp at hk; omega
        | succ k => rw [pow_succ] at hk; omega

theorem alignmentCheck_iff (a : Nat) (h : a < 18446744073709551616) :
    alignmentCheck a = true ↔ a = 0 ∨ ∃ k : Nat, a = 2 ^ k := by
  unfold alignmentCheck
  rcases Nat.eq_zero_or_pos a with h0 | hpos
  · subst h0
    simp
  · have e : (a + 18446744073709551615) % 18446744073709551616 = a - 1 := by omega
    rw [e]
    simp only [beq_iff_eq]
    rw [land_pred_eq_zero_iff a hpos]
    constructor
    · intro h1; exact Or.inr h1
    · rintro (h1 | h1)
      · omega
      · exact h1

theorem claimFence_eq (env : TickEnv) (u : Int) (s : State) (hu0 : 0 ≤ u)
    (hu : u.toNat < s.pboFences.length)
    (hr : FenceRel s.glSyncs s.pboFences s.nextSync) :
    claimFence env u s = .ok (claimed env u s) := by
  obtain ⟨h, hv, hslot⟩ := vecAt_total s.pboFences u hu0 hu
  cases h with
  | none =>
    simp [claimFence, claimed, hv, hslot, glIsSync, bind, Except.bind, pure, Except.pure]
  | some f =>
    obtain ⟨hf, _⟩ := fenceRel_clear hr hslot
    simp [claimFence, claimed, hv, hslot, glIsSync, hf, glDeleteSync, bind, Except.bind, pure,
      Except.pure]

theorem claimed_events (env : TickEnv) (u : Int) (s : State) :
    (claimed env u s).events = s.events ++ claimEvents env s u := by
  unfold claimed claimEvents
  split <;> simp

theorem claimed_log (env : TickEnv) (u : Int) (s : State) :
    (claimed env u s).log = s.log ++ claimLog env s u := by
  unfold claimed claimLog
  split <;> simp

theorem claimed_keeps (env : TickEnv) (u : Int) (s : State) :
    (claimed env u s).color = s.color ∧ (claimed env u s).glBuffers = s.glBuffers ∧
    (claimed env u s).texture = s.texture ∧ (claimed env u s).hostMem = s.hostMem ∧
    (claimed env u s).pboIds = s.pboIds ∧ (claimed env u s).pboCount = s.pboCount ∧
    (claimed env u s).pboMethod = s.pboMethod ∧
    (claimed env u s).alignedBuffers = s.alignedBuffers ∧
    (claimed env u s).copyIdx = s.copyIdx ∧ (claimed env u s).boundUnpack = s.boundUnpack ∧
    (claimed env u s).nextSync = s.nextSync ∧
    (claimed env u s).pboFences.length = s.pboFences.length := by
  unfold claimed
  split <;> simp

theorem mapAndFill_fail (env : TickEnv) (u : Int) (id : Nat) (e1 e2 : LogLine) (s : State)
    (hm : env.mapOk = false) :
    mapAndFill env u id e1 e2 s =
      (false,
        { s with
          events := s.events ++ [.mapBuffer u.toNat id env.mapOk]
          log := s.log ++ [e1]
          glError := false }) := by
  unfold mapAndFill
  simp [hm]

theorem mapAndFill_ok (env : TickEnv) (u : Int) (id : Nat) (e1 e2 : LogLine) (s : State)
    (hm : env.mapOk = true) :
    mapAndFill env u id e1 e2 s =
      (true, fillMapped env u id e2 (updatePixels true DATA_SIZE s.color)
        { s with events := s.events ++ [.mapBuffer u.toNat id env.mapOk] }) := by
  unfold mapAndFill
  simp [hm]

theorem storeFence_eq (u : Int) (prev : Option Nat) (s : State)
    (hm : s.pboMethod = .UNSYNCH_FENCES ∨ s.pboMethod = .AMD)
    (hv : vecAt s.pboFences u = .ok prev) :
    storeFence u s = .ok (stored u prev s) := by
  unfold storeFence
  rw [if_pos hm, hv]
  rfl

theorem storeFence_skip (u : Int) (s : State)
    (hm : ¬ (s.pboMethod = .UNSYNCH_FENCES ∨ s.pboMethod = .AMD)) :
    storeFence u s = .ok s := by
  unfold storeFence
  rw [if_neg hm]
  rfl

theorem copyPhase_eq (c : Int) (id : Nat) (s : State) (hv : vecAt s.pboIds c = .ok id) :
    copyPhase c s = .ok (copied c id s) := by
  unfold copyPhase
  rw [hv]
  rfl

theorem kept_refl (s : State) : Kept s s := ⟨rfl, rfl, rfl, rfl, rfl⟩

theorem kept_trans {a b c : State} (h1 : Kept a b) (h2 : Kept b c) : Kept a c :=
  ⟨h2.count_kept.trans h1.count_kept, h2.method_kept.trans h1.method_kept,
    h2.ids_kept.trans h1.ids_kept, h2.aligned_kept.trans h1.aligned_kept,
    h2.slots_kept.trans h1.slots_kept⟩

theorem quiet_refl (s : State) : Quiet s s := ⟨[], by simp, by simp⟩

theorem quiet_trans {a b c : State} (h1 : Quiet a b) (h2 : Quiet b c) : Quiet a c := by
  obtain ⟨m1, e1, n1⟩ := h1
  obtain ⟨m2, e2, n2⟩ := h2
  refine ⟨m1 ++ m2, by rw [e2, e1, List.append_assoc], ?_⟩
  intro l hl
  rcases List.mem_append.mp hl with h | h
  · exact n1 l h
  · exact n2 l h

theorem quiet_of_log_eq {s t : State} (h : t.log = s.log) : Quiet s t :=
  ⟨[], by simp [h], by simp⟩

theorem printTransferRate_kept (t : ℚ) (s : State) : Kept s (printTransferRate t s) := by
  unfold printTransferRate
  split
  · exact ⟨rfl, rfl, rfl, rfl, rfl⟩
  · split
    · exact ⟨rfl, rfl, rfl, rfl, rfl⟩
    · exact ⟨rfl, rfl, rfl, rfl, rfl⟩

theorem printTransferRate_quiet (t : ℚ) (s : State) : Quiet s (printTransferRate t s) := by
  unfold printTransferRate
  split
  · exact quiet_of_log_eq rfl
  · split
    · exact quiet_of_log_eq rfl
    · refine ⟨[_], rfl, ?_⟩
      intro l hl
      rw [List.mem_singleton] at hl
      subst hl
      exact fun h => h

theorem fillMapped_kept (env : TickEnv) (u : Int) (id : Nat) (e2 : LogLine)
    (r : Option (List Nat) × Nat) (s : State) : Kept s (fillMapped env u id e2 r s) := by
  unfold fillMapped
  by_cases hu : env.unmapOk = true
  · simp only [hu, Bool.not_true, Bool.false_eq_true, if_false]
    exact ⟨rfl, rfl, rfl, rfl, rfl⟩
  · simp only [hu, Bool.not_false, if_true]
    exact ⟨rfl, rfl, rfl, rfl, rfl⟩

theorem fillMapped_quiet (env : TickEnv) (u : Int) (id : Nat) (e2 : LogLine)
    (r : Option (List Nat) × Nat) (s : State) (he : ¬ IsWaitLine e2) :
    Quiet s (fillMapped env u id e2 r s) := by
  unfold fillMapped
  by_cases hu : env.unmapOk = true
  · simp only [hu, Bool.not_true, Bool.false_eq_true, if_false]
    exact quiet_of_log_eq rfl
  · simp only [hu, Bool.not_false, if_true]
    refine ⟨[e2], rfl, ?_⟩
    intro l hl
    rw [List.mem_singleton] at hl
    subst hl
    exact he

theorem claimed_slot (env : TickEnv) (u : Int) (s : State)
    (hu : u.toNat < s.pboFences.length)
    (hr : FenceRel s.glSyncs s.pboFences s.nextSync) :
    (claimed env u s).pboFences[u.toNat]? = some none ∧
    FenceRel (claimed env u s).glSyncs (claimed env u s).pboFences (claimed env u s).nextSync := by
  have hslot : s.pboFences[u.toNat]? = some (s.pboFences[u.toNat]) := List.getElem?_eq_getElem hu
  cases hx : s.pboFences[u.toNat] with
  | none =>
    rw [hx] at hslot
    unfold claimed
    simp only [hslot]
    exact ⟨trivial, hr⟩
  | some f =>
    rw [hx] at hslot
    obtain ⟨_, hr2⟩ := fenceRel_clear hr hslot
    unfold claimed
    simp only [hslot]
    refine ⟨?_, hr2⟩
    rw [List.getElem?_set]
    simp [hu]

theorem fencesCreated_append (a b : List Event) :
    fencesCreated (a ++ b) = fencesCreated a + fencesCreated b := by
  simp [fencesCreated]

theorem fencesCreated_claimEvents (env : TickEnv) (s : State) (u : Int) :
    fencesCreated (claimEvents env s u) = 0 := by
  unfold claimEvents
  split <;> rfl

theorem uploadPhase_unsynch_eq (env : TickEnv) (u : Int) (s : State) (id : Nat)
    (hm : s.pboMethod = .UNSYNCH_FENCES) (hu0 : 0 ≤ u)
    (hid : vecAt s.pboIds u = .ok id)
    (hu : u.toNat < s.pboFences.length)
    (hr : FenceRel s.glSyncs s.pboFences s.nextSync) :
    uploadPhase env u s =
      .ok (mapAndFill env u id .errMapBufferRange .errUnmapBuffer
        (claimed env u { s with boundUnpack := id })) := by
  have c0 := claimFence_eq env u { s with boundUnpack := id } hu0 hu hr
  unfold uploadPhase
  rw [hid]
  simp only [bind, Except.bind, hm] at c0 ⊢
  rw [c0]
  rfl

theorem uploadPhase_orphan_eq (env : TickEnv) (u : Int) (s : State) (id : Nat)
    (hm : s.pboMethod = .ORPHAN) (hid : vecAt s.pboIds u = .ok id) :
    uploadPhase env u s =
      .ok (mapAndFill env u id .errMapBufferARB .errUnmapBufferARB
        (glBufferData id DATA_SIZE none { s with boundUnpack := id })) := by
  unfold uploadPhase
  rw [hid]
  simp only [bind, Except.bind, hm]
  rfl

theorem uploadPhase_unsynchOrphan_eq (env : TickEnv) (u : Int) (s : State) (id : Nat)
    (hm : s.pboMethod = .UNSYNCH_ORPHAN) (hid : vecAt s.pboIds u = .ok id) :
    uploadPhase env u s =
      .ok (mapAndFill env u id .errMapBufferRange .errUnmapBuffer
        (glBufferData id DATA_SIZE none { s with boundUnpack := id })) := by
  unfold uploadPhase
  rw [hid]
  simp only [bind, Except.bind, hm]
  rfl

theorem uploadPhase_amd_eq (env : TickEnv) (u : Int) (s : State) (id p : Nat)
    (hm : s.pboMethod = .AMD) (hu0 : 0 ≤ u)
    (hid : vecAt s.pboIds u = .ok id)
    (hu : u.toNat < s.pboFences.length)
    (hr : FenceRel s.glSyncs s.pboFences s.nextSync)
    (hp : vecAt s.alignedBuffers u = .ok p)
    (hlive : (s.hostMem.any fun m => m.1 = p) = true) :
    uploadPhase env u s =
      .ok (true, fillPinned u p
        (updatePixels true DATA_SIZE (claimed env u { s with boundUnpack := id }).color)
        (claimed env u { s with boundUnpack := id })) := by
  have c0 := claimFence_eq env u { s with boundUnpack := id } hu0 hu hr
  obtain ⟨_, _, _, k4, _, _, _, k8, _⟩ := claimed_keeps env u { s with boundUnpack := id }
  have hp2 : vecAt (claimed env u { s with boundUnpack := id }).alignedBuffers u = .ok p := by
    rw [k8]; exact hp
  have hl2 : ((claimed env u { s with boundUnpack := id }).hostMem.any fun m => m.1 = p) =
      true := by
    rw [k4]; exact hlive
  unfold uploadPhase
  rw [hid]
  simp only [bind, Except.bind, hm] at c0 hp2 hl2 ⊢
  rw [c0]
  simp only []
  rw [hp2]
  simp only []
  rw [if_pos hl2]
  rfl

theorem not_waitLine_mapRange : ¬ IsWaitLine LogLine.errMapBufferRange := fun h => h

theorem not_waitLine_unmap : ¬ IsWaitLine LogLine.errUnmapBuffer := fun h => h

theorem displayCB_finish (env : TickEnv) (s : State) (c u : Int) (idc : Nat) (F : State)
    (hm : s.pboMethod ≠ .NONE) (hrot : rotate s = .ok (c, u))
    (hup : uploadPhase env u { s with copyIdx := c } = .ok (true, F))
    (hfm : F.pboMethod = .UNSYNCH_FENCES ∨ F.pboMethod = .AMD)
    (hslot : vecAt F.pboFences u = .ok none)
    (hidc : vecAt F.pboIds c = .ok idc) :
    displayCB env s =
      .ok (printTransferRate env.elapsedTime (copied c idc (stored u none F))) := by
  rw [displayCB_buffered env s c u true F hm hrot hup, if_pos rfl,
    storeFence_eq u none F hfm hslot]
  simp only [Except.bind]
  rw [copyPhase_eq c idc (stored u none F) hidc]

theorem finish_facts (t : ℚ) (c u : Int) (idc : Nat) (F : State) :
    Kept F (printTransferRate t (copied c idc (stored u none F))) ∧
    Quiet F (printTransferRate t (copied c idc (stored u none F))) ∧
    (printTransferRate t (copied c idc (stored u none F))).events =
      F.events ++ [.fenceSync F.nextSync u.toNat none] ++ [.texSubImageBuffer c.toNat idc] ∧
    (printTransferRate t (copied c idc (stored u none F))).glSyncs = F.glSyncs ++ [F.nextSync] ∧
    (printTransferRate t (copied c idc (stored u none F))).color = F.color := by
  obtain ⟨t1, t2, t3, t4, t5, t6⟩ := printTransferRate_pool t (copied c idc (stored u none F))
  have hk : Kept F (copied c idc (stored u none F)) := by
    refine ⟨rfl, rfl, rfl, rfl, ?_⟩
    show (F.pboFences.set u.toNat (some F.nextSync)).length = _
    simp
  have hq : Quiet F (copied c idc (stored u none F)) := quiet_of_log_eq rfl
  refine ⟨kept_trans hk (printTransferRate_kept t _),
    quiet_trans hq (printTransferRate_quiet t _), ?_, ?_, ?_⟩
  · rw [t1]; rfl
  · rw [t3]; rfl
  · rw [(printTransferRate_frame t _).2.1]; rfl

theorem fencesCreated_tail_mapped (a b : Nat) (id idc f : Nat) (ok1 ok2 : Bool) :
    fencesCreated [Event.mapBuffer a id ok1, .producerWrite a, .unmapBuffer a id ok2,
      .fenceSync f a none, .texSubImageBuffer b idc] = 1 := rfl

theorem fillPinned_kept (u : Int) (p : Nat) (r : Option (List Nat) × Nat) (s : State) :
    Kept s (fillPinned u p r s) := ⟨rfl, rfl, rfl, rfl, rfl⟩

theorem fillPinned_log (u : Int) (p : Nat) (r : Option (List Nat) × Nat) (s : State) :
    (fillPinned u p r s).log = s.log := rfl

theorem finish_nextSync (t : ℚ) (c u : Int) (idc : Nat) (F : State) :
    (printTransferRate t (copied c idc (stored u none F))).nextSync = F.nextSync + 1 := by
  rw [(printTransferRate_pool t _).2.2.2.1]
  rfl

theorem displayCB_fence_frame (env : TickEnv) (s : State)
    (hm : s.pboMethod = .UNSYNCH_FENCES ∨ s.pboMethod = .AMD)
    (h1 : 1 ≤ s.pboCount) (h2 : s.pboCount ≤ 2147483647)
    (hc : s.pboCount = (s.pboIds.length : Int)) (hfl : s.pboFences.length = s.pboIds.length)
    (h3 : 0 ≤ s.copyIdx) (h4 : s.copyIdx < 2147483647)
    (hp : s.pboMethod = .AMD → PinnedOk s)
    (hr : FenceRel s.glSyncs s.pboFences s.nextSync) :
    ∃ c u s1 more tail, rotate s = .ok (c, u) ∧ displayCB env s = .ok s1 ∧
      s1.log = s.log ++ claimLog env s u ++ more ∧ (∀ l ∈ more, ¬ IsWaitLine l) ∧
      s1.events = s.events ++ claimEvents env s u ++ tail ∧
      (s.pboMethod = .AMD ∨ env.mapOk = true →
        Event.producerWrite u.toNat ∈ tail ∧ fencesCreated tail = 1) ∧
      (¬ (s.pboMethod = .AMD ∨ env.mapOk = true) → fencesCreated tail = 0) ∧
      Kept s s1 ∧ s1.nextSync = s.nextSync + fencesCreated tail := by
  have hrot := rotate_spec s h1 h2 h3 h4
  have hpos : (0 : Int) < s.pboCount := by omega
  have hc0 : 0 ≤ (s.copyIdx + 1) % s.pboCount := Int.emod_nonneg _ (by omega)
  have hc1 : (s.copyIdx + 1) % s.pboCount < s.pboCount := Int.emod_lt_of_pos _ hpos
  have hu0 : 0 ≤ ((s.copyIdx + 1) % s.pboCount + 1) % s.pboCount := Int.emod_nonneg _ (by omega)
  have hu1 : ((s.copyIdx + 1) % s.pboCount + 1) % s.pboCount < s.pboCount :=
    Int.emod_lt_of_pos _ hpos
  generalize (s.copyIdx + 1) % s.pboCount = c at hrot hc0 hc1 hu0 hu1
  generalize (c + 1) % s.pboCount = u at hrot hu0 hu1
  have hnot : s.pboMethod ≠ .NONE := by rcases hm with h | h <;> rw [h] <;> decide
  have hul : u.toNat < s.pboIds.length := by omega
  have hcl : c.toNat < s.pboIds.length := by omega
  obtain ⟨id, hid, _⟩ := vecAt_total s.pboIds u hu0 hul
  obtain ⟨idc, hidc, _⟩ := vecAt_total s.pboIds c hc0 hcl
  obtain ⟨S0, hS0⟩ : ∃ S0 : State, S0 = { s with copyIdx := c, boundUnpack := id } := ⟨_, rfl⟩
  have a1 : S0.pboFences = s.pboFences := by rw [hS0]
  have a2 : S0.log = s.log := by rw [hS0]
  have a3 : S0.events = s.events := by rw [hS0]
  have a4 : claimLog env S0 u = claimLog env s u := by rw [hS0]; rfl
  have a5 : claimEvents env S0 u = claimEvents env s u := by rw [hS0]; rfl
  have a6 : Kept s S0 := by rw [hS0]; exact ⟨rfl, rfl, rfl, rfl, rfl⟩
  have a7 : FenceRel S0.glSyncs S0.pboFences S0.nextSync := by rw [hS0]; exact hr
  have a8 : u.toNat < S0.pboFences.length := by rw [a1, hfl]; exact hul
  have a9 : S0.nextSync = s.nextSync := by rw [hS0]
  have b1 := claimed_events env u S0
  have b2 := claimed_log env u S0
  obtain ⟨_, _, _, b3, b4, b5, b6, b7, _, _, b10, b8⟩ := claimed_keeps env u S0
  rw [a9] at b10
  obtain ⟨b9, _⟩ := claimed_slot env u S0 a8 a7
  have hupF : s.pboMethod = .UNSYNCH_FENCES → uploadPhase env u { s with copyIdx := c } =
      .ok (mapAndFill env u id .errMapBufferRange .errUnmapBuffer (claimed env u S0)) := by
    intro h
    rw [hS0]
    exact uploadPhase_unsynch_eq env u { s with copyIdx := c } id h hu0 hid
      (by show u.toNat < s.pboFences.length; omega) hr
  have hupA : s.pboMethod = .AMD → ∃ p, uploadPhase env u { s with copyIdx := c } =
      .ok (true, fillPinned u p (updatePixels true DATA_SIZE (claimed env u S0).color)
        (claimed env u S0)) := by
    intro h
    have hq := hp h
    obtain ⟨p, hpv, hpe⟩ := vecAt_total s.alignedBuffers u hu0 (by rw [hq.len]; exact hul)
    refine ⟨p, ?_⟩
    rw [hS0]
    exact uploadPhase_amd_eq env u { s with copyIdx := c } id p h hu0 hid
      (by show u.toNat < s.pboFences.length; omega) hr hpv
      (hq.live p (List.mem_iff_getElem?.mpr ⟨_, hpe⟩))
  have hP : Kept s (claimed env u S0) := kept_trans a6 ⟨b5, b6, b4, b7, b8⟩
  generalize claimed env u S0 = P at b1 b2 b9 b10 hupF hupA hP
  rw [a3, a5] at b1
  rw [a2, a4] at b2
  rcases hm with hm | hm
  · have hup := hupF hm
    by_cases hmap : env.mapOk = true
    · rw [mapAndFill_ok env u id _ _ P hmap] at hup
      generalize updatePixels true DATA_SIZE P.color = r at hup
      obtain ⟨P1, hP1⟩ : ∃ P1 : State,
        P1 = { P with events := P.events ++ [.mapBuffer u.toNat id env.mapOk] } := ⟨_, rfl⟩
      rw [← hP1] at hup
      have d1 : P1.events = P.events ++ [.mapBuffer u.toNat id env.mapOk] := by rw [hP1]
      have d2 : Kept P P1 := by rw [hP1]; exact ⟨rfl, rfl, rfl, rfl, rfl⟩
      have d3 : P1.log = P.log := by rw [hP1]
      have d4 : P1.pboFences = P.pboFences := by rw [hP1]
      have d5 : P1.nextSync = P.nextSync := by rw [hP1]
      obtain ⟨f1, f2, _, f4, f5, _, f7⟩ := fillMapped_spec env u id .errUnmapBuffer r P1
      have fk := fillMapped_kept env u id .errUnmapBuffer r P1
      obtain ⟨m1, fq, fn⟩ := fillMapped_quiet env u id .errUnmapBuffer r P1 not_waitLine_unmap
      generalize fillMapped env u id .errUnmapBuffer r P1 = F at hup f1 f2 f4 f5 f7 fk fq
      have hk : Kept s F := kept_trans hP (kept_trans d2 fk)
      have hd := displayCB_finish env s c u idc F hnot hrot hup
        (Or.inl (by rw [hk.method_kept]; exact hm))
        (vecAt_of_getElem? _ _ _ hu0 (by rw [f2, d4]; exact b9))
        (by rw [hk.ids_kept]; exact hidc)
      obtain ⟨g1, ⟨m2, gq, gn⟩, g3, _, _⟩ := finish_facts env.elapsedTime c u idc F
      refine ⟨c, u, _, m1 ++ m2,
        [.mapBuffer u.toNat id env.mapOk, .producerWrite u.toNat,
          .unmapBuffer u.toNat id env.unmapOk, .fenceSync F.nextSync u.toNat none,
          .texSubImageBuffer c.toNat idc], hrot, hd, ?_, ?_, ?_, ?_, ?_, kept_trans hk g1, ?_⟩
      · rw [gq, fq, d3, b2]
        simp
      · intro l hl
        rcases List.mem_append.mp hl with h | h
        · exact fn l h
        · exact gn l h
      · rw [g3, f1, d1, b1]
        simp
      · intro _
        exact ⟨by simp, rfl⟩
      · intro h
        exact absurd (Or.inr hmap) h
      · rw [finish_nextSync, f4, d5, b10]
        rfl
    · have hmap2 : env.mapOk = false := by simpa using hmap
      rw [mapAndFill_fail env u id _ _ P hmap2] at hup
      have hd := displayCB_buffered env s c u false _ hnot hrot hup
      refine ⟨c, u, _, [.errMapBufferRange], [.mapBuffer u.toNat id env.mapOk], hrot,
        by rw [hd]; rfl, ?_, ?_, ?_, ?_, ?_, ?_, ?_⟩
      · show P.log ++ [LogLine.errMapBufferRange] = _
        rw [b2]
      · intro l hl
        rw [List.mem_singleton] at hl
        subst hl
        exact not_waitLine_mapRange
      · show P.events ++ [Event.mapBuffer u.toNat id env.mapOk] = _
        rw [b1]
      · intro h
        rcases h with h | h
        · rw [hm] at h; cases h
        · exact absurd h hmap
      · intro _
        rfl
      · exact kept_trans hP ⟨rfl, rfl, rfl, rfl, rfl⟩
      · show P.nextSync = _
        rw [b10]
        rfl
  · obtain ⟨p, hup⟩ := hupA hm
    generalize updatePixels true DATA_SIZE P.color = r at hup
    obtain ⟨f1, f2, _, f4, f5, _, f7⟩ := fillPinned_spec u p r P
    have fk := fillPinned_kept u p r P
    have fq := fillPinned_log u p r P
    generalize fillPinned u p r P = F at hup f1 f2 f4 f5 f7 fk fq
    have hk : Kept s F := kept_trans hP fk
    have hd := displayCB_finish env s c u idc F hnot hrot hup
      (Or.inr (by rw [hk.method_kept]; exact hm))
      (vecAt_of_getElem? _ _ _ hu0 (by rw [f2]; exact b9))
      (by rw [hk.ids_kept]; exact hidc)
    obtain ⟨g1, ⟨m2, gq, gn⟩, g3, _, _⟩ := finish_facts env.elapsedTime c u idc F
    refine ⟨c, u, _, m2,
      [.producerWrite u.toNat, .fenceSync F.nextSync u.toNat none,
        .texSubImageBuffer c.toNat idc], hrot, hd, ?_, gn, ?_, ?_, ?_, kept_trans hk g1, ?_⟩
    · rw [gq, fq, b2]
    · rw [g3, f1, b1]
      simp
    · intro _
      exact ⟨by simp, rfl⟩
    · intro h
      exact absurd (Or.inl hm) h
    · rw [finish_nextSync, f4, b10]
      rfl

theorem fenceRel_length_le {S : List Nat} {F : List (Option Nat)} {n : Nat}
    (h : FenceRel S F n) : S.length ≤ F.length := by
  obtain ⟨h1, h2, _, _⟩ := h
  have hsub : S.map some ⊆ F := by
    intro x hx
    obtain ⟨f, hf, rfl⟩ := List.mem_map.mp hx
    obtain ⟨i, hi⟩ := (h1 f).mp hf
    exact List.mem_iff_getElem?.mpr ⟨i, hi⟩
  have hnd : (S.map some).Nodup := List.Nodup.map (Option.some_injective _) h2
  have := (List.subperm_of_subset hnd hsub).length_le
  simpa using this

theorem mappedFrames_succ (envs : Nat → TickEnv) (k : Nat) :
    mappedFrames envs (k + 1) = mappedFrames envs k + if (envs k).mapOk = true then 1 else 0 := by
  unfold mappedFrames
  rw [List.range_succ, List.filter_append, List.length_append]
  by_cases h : (envs k).mapOk = true <;> simp [h]

theorem pairPool_fenceRel :
    FenceRel pairPool.glSyncs pairPool.pboFences pairPool.nextSync :=
  fenceRel_push (fenceRel_push (fenceRel_nil 1))

theorem fence_run (envs : Nat → TickEnv) : ∀ (k : Nat) (s : State),
    s.pboMethod = .UNSYNCH_FENCES → 1 ≤ s.pboCount → s.pboCount ≤ 2147483647 →
    s.pboCount = (s.pboIds.length : Int) → s.pboFences.length = s.pboIds.length →
    0 ≤ s.copyIdx → s.copyIdx < 2147483647 →
    FenceRel s.glSyncs s.pboFences s.nextSync →
    ∃ s1, run s (ticks envs k) = .ok s1 ∧ Kept s s1 ∧
      FenceRel s1.glSyncs s1.pboFences s1.nextSync ∧
      0 ≤ s1.copyIdx ∧ s1.copyIdx < 2147483647 ∧
      fencesCreated s1.events = fencesCreated s.events + mappedFrames envs k ∧
      s1.nextSync = s.nextSync + mappedFrames envs k := by
  intro k
  induction k with
  | zero =>
    intro s hm h1 h2 hc hfl h3 h4 hr
    exact ⟨s, rfl, kept_refl s, hr, h3, h4, rfl, rfl⟩
  | succ k ih =>
    intro s hm h1 h2 hc hfl h3 h4 hr
    obtain ⟨s1, r0, rk, rr, r3, r4, rf, rn⟩ := ih s hm h1 h2 hc hfl h3 h4 hr
    have hm1 : s1.pboMethod = .UNSYNCH_FENCES := by rw [rk.method_kept]; exact hm
    have g1 : 1 ≤ s1.pboCount := by rw [rk.count_kept]; exact h1
    have g2 : s1.pboCount ≤ 2147483647 := by rw [rk.count_kept]; exact h2
    have gc : s1.pboCount = (s1.pboIds.length : Int) := by
      rw [rk.count_kept, rk.ids_kept]; exact hc
    have gfl : s1.pboFences.length = s1.pboIds.length := by
      rw [rk.slots_kept, rk.ids_kept]; exact hfl
    have gp : s1.pboMethod = .AMD → PinnedOk s1 := by
      intro h; rw [hm1] at h; cases h
    obtain ⟨c, u, s2, more, tail, _, d0, _, _, d3, d4, d5, d6, d7⟩ :=
      displayCB_fence_frame (envs k) s1 (Or.inl hm1) g1 g2 gc gfl r3 r4 gp rr
    obtain ⟨_, _, s2a, _, _, e0, _, _, _, e5⟩ :=
      displayCB_fence_tick (envs k) s1 (Or.inl hm1) g1 g2 gc gfl r3 r4 gp rr
    obtain ⟨s2b, _, f0, f1, _⟩ :=
      displayCB_copyIdx (envs k) s1 (by rw [hm1]; decide) g1 g2 gc gfl r3 r4 gp
    have ea : s2 = s2a := by
      rw [d0] at e0
      exact Except.ok.inj e0
    have eb : s2 = s2b := by
      rw [d0] at f0
      exact Except.ok.inj f0
    subst ea
    subst eb
    have hpos : (0 : Int) < s1.pboCount := by omega
    have hcnt : fencesCreated tail = if (envs k).mapOk = true then 1 else 0 := by
      by_cases hmap : (envs k).mapOk = true
      · rw [if_pos hmap]
        exact (d4 (Or.inr hmap)).2
      · rw [if_neg hmap]
        refine d5 ?_
        rintro (h | h)
        · rw [hm1] at h; cases h
        · exact hmap h
    refine ⟨s2, ?_, kept_trans rk d6, e5, ?_, ?_, ?_, ?_⟩
    · rw [ticks_succ, run_append, r0]
      show run s1 [Input.tick (envs k)] = _
      simp only [run, step]
      rw [d0]
    · rw [f1]
      exact Int.emod_nonneg _ (by omega)
    · rw [f1]
      have := Int.emod_lt_of_pos (s1.copyIdx + 1) hpos
      omega
    · rw [d3, fencesCreated_append, fencesCreated_append, fencesCreated_claimEvents, rf,
        mappedFrames_succ, hcnt]
      omega
    · rw [d7, rn, mappedFrames_succ, hcnt]
      omega

theorem rotate_ready (s : State) (h1 : 1 ≤ s.pboCount) (h2 : s.pboCount ≤ 2147483647)
    (hc : s.pboCount = (s.pboIds.length : Int))
    (h3 : 0 ≤ s.copyIdx) (h4 : s.copyIdx < 2147483647) :
    ∃ (c u : Int) (id idc : Nat), rotate s = .ok (c, u) ∧
      0 ≤ c ∧ c.toNat < s.pboIds.length ∧ 0 ≤ u ∧ u.toNat < s.pboIds.length ∧
      vecAt s.pboIds u = .ok id ∧ s.pboIds[u.toNat]? = some id ∧
      vecAt s.pboIds c = .ok idc := by
  have hrot := rotate_spec s h1 h2 h3 h4
  have hpos : (0 : Int) < s.pboCount := by omega
  have hc0 : 0 ≤ (s.copyIdx + 1) % s.pboCount := Int.emod_nonneg _ (by omega)
  have hc1 : (s.copyIdx + 1) % s.pboCount < s.pboCount := Int.emod_lt_of_pos _ hpos
  have hu0 : 0 ≤ ((s.copyIdx + 1) % s.pboCount + 1) % s.pboCount := Int.emod_nonneg _ (by omega)
  have hu1 : ((s.copyIdx + 1) % s.pboCount + 1) % s.pboCount < s.pboCount :=
    Int.emod_lt_of_pos _ hpos
  generalize (s.copyIdx + 1) % s.pboCount = c at hrot hc0 hc1 hu0 hu1
  generalize (c + 1) % s.pboCount = u at hrot hu0 hu1
  have hul : u.toNat < s.pboIds.length := by omega
  have hcl : c.toNat < s.pboIds.length := by omega
  obtain ⟨id, hid, hide⟩ := vecAt_total s.pboIds u hu0 hul
  obtain ⟨idc, hidc, _⟩ := vecAt_total s.pboIds c hc0 hcl
  exact ⟨c, u, id, idc, hrot, hc0, hcl, hu0, hul, hid, hide, hidc⟩

theorem mapFail_orphan (env : TickEnv) (s : State) (c u : Int) (id : Nat) (e1 e2 : LogLine)
    (hnot : s.pboMethod ≠ .NONE) (hmap : env.mapOk = false)
    (hrot : rotate s = .ok (c, u))
    (hup : uploadPhase env u { s with copyIdx := c } =
      .ok (mapAndFill env u id e1 e2
        (glBufferData id DATA_SIZE none { s with copyIdx := c, boundUnpack := id }))) :
    ∃ s1, displayCB env s = .ok s1 ∧ s1.color = s.color ∧ s1.texture = s.texture ∧
      s1.hostMem = s.hostMem ∧ s1.copyIdx = c ∧ s1.log = s.log ++ [e1] ∧
      s1.events = s.events ++ [.bufferData id DATA_SIZE none] ++ [.mapBuffer u.toNat id false] ∧
      s1.glBuffers = s.glBuffers.map (setStore id DATA_SIZE none) ∧ Kept s s1 := by
  obtain ⟨G, hG⟩ : ∃ G : State,
    G = glBufferData id DATA_SIZE none { s with copyIdx := c, boundUnpack := id } := ⟨_, rfl⟩
  rw [← hG, mapAndFill_fail env u id e1 e2 G hmap] at hup
  have hd := displayCB_buffered env s c u false _ hnot hrot hup
  refine ⟨
    { G with
      events := G.events ++ [.mapBuffer u.toNat id env.mapOk]
      log := G.log ++ [e1]
      glError := false }, by rw [hd]; rfl, ?_, ?_, ?_, ?_, ?_, ?_, ?_, ?_⟩
  · rw [hG]; rfl
  · rw [hG]; rfl
  · rw [hG]; rfl
  · rw [hG]; rfl
  · rw [hG]; rfl
  · rw [hG, hmap]; rfl
  · rw [hG]; rfl
  · rw [hG]; exact ⟨rfl, rfl, rfl, rfl, rfl⟩

theorem mapFail_fences (env : TickEnv) (s : State) (c u : Int) (id : Nat)
    (hm : s.pboMethod = .UNSYNCH_FENCES) (hmap : env.mapOk = false)
    (hrot : rotate s = .ok (c, u)) (hu0 : 0 ≤ u) (hid : vecAt s.pboIds u = .ok id)
    (hu : u.toNat < s.pboFences.length)
    (hr : FenceRel s.glSyncs s.pboFences s.nextSync) :
    ∃ s1, displayCB env s = .ok s1 ∧ s1.color = s.color ∧ s1.texture = s.texture ∧
      s1.hostMem = s.hostMem ∧ s1.copyIdx = c ∧
      s1.log = s.log ++ claimLog env s u ++ [.errMapBufferRange] ∧
      s1.events = s.events ++ claimEvents env s u ++ [.mapBuffer u.toNat id false] ∧
      s1.glBuffers = s.glBuffers ∧ Kept s s1 := by
  have hnot : s.pboMethod ≠ .NONE := by rw [hm]; decide
  obtain ⟨S0, hS0⟩ : ∃ S0 : State, S0 = { s with copyIdx := c, boundUnpack := id } := ⟨_, rfl⟩
  have hup : uploadPhase env u { s with copyIdx := c } =
      .ok (mapAndFill env u id .errMapBufferRange .errUnmapBuffer (claimed env u S0)) := by
    rw [hS0]
    exact uploadPhase_unsynch_eq env u { s with copyIdx := c } id hm hu0 hid hu hr
  have a2 : S0.log = s.log := by rw [hS0]
  have a3 : S0.events = s.events := by rw [hS0]
  have a4 : claimLog env S0 u = claimLog env s u := by rw [hS0]; rfl
  have a5 : claimEvents env S0 u = claimEvents env s u := by rw [hS0]; rfl
  have a6 : Kept s S0 := by rw [hS0]; exact ⟨rfl, rfl, rfl, rfl, rfl⟩
  have a7 : S0.color = s.color ∧ S0.texture = s.texture ∧ S0.hostMem = s.hostMem ∧
      S0.copyIdx = c ∧ S0.glBuffers = s.glBuffers := by
    rw [hS0]; exact ⟨rfl, rfl, rfl, rfl, rfl⟩
  have b1 := claimed_events env u S0
  have b2 := claimed_log env u S0
  obtain ⟨k1, k2, k3, k4, k5, k6, k7, k8, k9, _, _, k12⟩ := claimed_keeps env u S0
  have hP : Kept s (claimed env u S0) := kept_trans a6 ⟨k6, k7, k5, k8, k12⟩
  rw [a3, a5] at b1
  rw [a2, a4] at b2
  rw [a7.1] at k1
  rw [a7.2.1] at k3
  rw [a7.2.2.1] at k4
  rw [a7.2.2.2.1] at k9
  rw [a7.2.2.2.2] at k2
  generalize claimed env u S0 = P at b1 b2 k1 k2 k3 k4 k9 hup hP
  rw [mapAndFill_fail env u id _ _ P hmap] at hup
  have hd := displayCB_buffered env s c u false _ hnot hrot hup
  refine ⟨
    { P with
      events := P.events ++ [.mapBuffer u.toNat id env.mapOk]
      log := P.log ++ [.errMapBufferRange]
      glError := false }, by rw [hd]; rfl, k1, k3, k4, k9, ?_, ?_, k2,
    kept_trans hP ⟨rfl, rfl, rfl, rfl, rfl⟩⟩
  · show P.log ++ [LogLine.errMapBufferRange] = _
    rw [b2]
  · show P.events ++ [Event.mapBuffer u.toNat id env.mapOk] = _
    rw [b1, hmap]

theorem displayCB_mapFail (env : TickEnv) (s : State)
    (hm : s.pboMethod = .ORPHAN ∨ s.pboMethod = .UNSYNCH_ORPHAN ∨
      s.pboMethod = .UNSYNCH_FENCES)
    (hmap : env.mapOk = false)
    (h1 : 1 ≤ s.pboCount) (h2 : s.pboCount ≤ 2147483647)
    (hc : s.pboCount = (s.pboIds.length : Int)) (hfl : s.pboFences.length = s.pboIds.length)
    (h3 : 0 ≤ s.copyIdx) (h4 : s.copyIdx < 2147483647)
    (hr : FenceRel s.glSyncs s.pboFences s.nextSync) :
    ∃ c u id s1, rotate s = .ok (c, u) ∧ s.pboIds[u.toNat]? = some id ∧
      displayCB env s = .ok s1 ∧ s1.color = s.color ∧ s1.texture = s.texture ∧
      s1.hostMem = s.hostMem ∧ s1.copyIdx = c ∧
      s1.log =
        s.log ++ (if s.pboMethod = .UNSYNCH_FENCES then claimLog env s u else []) ++
          [mapErrLine s.pboMethod] ∧
      s1.events =
        s.events ++
          (if s.pboMethod = .UNSYNCH_FENCES then claimEvents env s u
            else [.bufferData id DATA_SIZE none]) ++
          [.mapBuffer u.toNat id false] ∧
      s1.glBuffers =
        (if s.pboMethod = .UNSYNCH_FENCES then s.glBuffers
          else s.glBuffers.map (setStore id DATA_SIZE none)) ∧
      Kept s s1 := by
  obtain ⟨c, u, id, idc, hrot, hc0, hcl, hu0, hul, hid, hide, hidc⟩ :=
    rotate_ready s h1 h2 hc h3 h4
  rcases hm with hm | hm | hm
  · obtain ⟨s1, q0, q1, q2, q3, q4, q5, q6, q7, q8⟩ :=
      mapFail_orphan env s c u id .errMapBufferARB .errUnmapBufferARB
        (by rw [hm]; decide) hmap hrot
        (uploadPhase_orphan_eq env u { s with copyIdx := c } id hm hid)
    refine ⟨c, u, id, s1, hrot, hide, q0, q1, q2, q3, q4, ?_, ?_, ?_, q8⟩
    · rw [q5, hm]; simp [mapErrLine]
    · rw [q6, hm]; simp
    · rw [q7, hm]; simp
  · obtain ⟨s1, q0, q1, q2, q3, q4, q5, q6, q7, q8⟩ :=
      mapFail_orphan env s c u id .errMapBufferRange .errUnmapBuffer
        (by rw [hm]; decide) hmap hrot
        (uploadPhase_unsynchOrphan_eq env u { s with copyIdx := c } id hm hid)
    refine ⟨c, u, id, s1, hrot, hide, q0, q1, q2, q3, q4, ?_, ?_, ?_, q8⟩
    · rw [q5, hm]; simp [mapErrLine]
    · rw [q6, hm]; simp
    · rw [q7, hm]; simp
  · obtain ⟨s1, q0, q1, q2, q3, q4, q5, q6, q7, q8⟩ :=
      mapFail_fences env s c u id hm hmap hrot hu0 hid (by rw [hfl]; exact hul) hr
    refine ⟨c, u, id, s1, hrot, hide, q0, q1, q2, q3, q4, ?_, ?_, ?_, q8⟩
    · rw [q5, hm]; simp [mapErrLine]
    · rw [q6, hm]; simp
    · rw [q7, hm]; simp

theorem leftoverPool_fenceRel :
    FenceRel leftoverPool.glSyncs leftoverPool.pboFences leftoverPool.nextSync :=
  fenceRel_push (fenceRel_push (fenceRel_push (fenceRel_nil 1)))

theorem producerWrite_not_claim (env : TickEnv) (s : State) (u : Int) (slot : Nat) :
    Event.producerWrite slot ∉ claimEvents env s u := by
  unfold claimEvents
  split <;> simp

theorem sameMeter_refl (s : State) : SameMeter s s := ⟨rfl, rfl, rfl, rfl⟩

theorem sameMeter_trans {a b c : State} (h1 : SameMeter a b) (h2 : SameMeter b c) :
    SameMeter a c :=
  ⟨h2.discarded_same.trans h1.discarded_same, h2.samples_same.trans h1.samples_same,
    h2.transfer_same.trans h1.transfer_same, h2.frames_same.trans h1.frames_same⟩

theorem calm_refl (s : State) : Calm s s := ⟨sameMeter_refl s, rfl⟩

theorem calm_trans {a b c : State} (h1 : Calm a b) (h2 : Calm b c) : Calm a c :=
  ⟨sameMeter_trans h1.1 h2.1, h2.2.trans h1.2⟩

theorem deletedIds_append (a b : List Event) :
    deletedIds (a ++ b) = deletedIds a ++ deletedIds b := by
  simp [deletedIds]

theorem createPbo_calm (i : Int) (s : State) : Calm s (createPbo i s) := by
  refine ⟨⟨rfl, rfl, rfl, rfl⟩, ?_⟩
  show deletedIds (s.events ++ [.genBuffer s.nextBuffer] ++
    [.bufferData s.nextBuffer DATA_SIZE none]) = _
  rw [deletedIds_append, deletedIds_append]
  simp [deletedIds]

theorem createLoop_calm : ∀ (k : Nat) (i : Int) (s : State), Calm s (createLoop k i s)
  | 0, _, s => calm_refl s
  | k + 1, i, s => calm_trans (createPbo_calm i s) (createLoop_calm k (i + 1) (createPbo i s))

theorem createPinnedPbo_calm (env : GrowEnv) (i : Int) (s : State) (b : Bool) (s1 : State)
    (h : createPinnedPbo env i s = .ok (b, s1)) : Calm s s1 := by
  unfold createPinnedPbo at h
  simp only [assertNoError, alignedMalloc, alignedFree, glBufferData, bind, Except.bind, pure,
    Except.pure] at h
  by_cases hg : s.glError = true
  · simp [hg] at h
  · by_cases ha : alignmentCheck s.systemPageSize = true
    · cases he : env i.toNat with
      | allocFails =>
        simp [hg, ha, he] at h
        obtain ⟨_, rfl⟩ := h
        refine ⟨⟨rfl, rfl, rfl, rfl⟩, ?_⟩
        simp [deletedIds]
      | ok =>
        simp [hg, ha, he] at h
        obtain ⟨_, rfl⟩ := h
        refine ⟨⟨rfl, rfl, rfl, rfl⟩, ?_⟩
        simp [deletedIds]
      | bufferDataFails =>
        simp [hg, ha, he] at h
        obtain ⟨_, rfl⟩ := h
        refine ⟨⟨rfl, rfl, rfl, rfl⟩, ?_⟩
        simp [deletedIds]
    · simp [hg, ha] at h

theorem createPinnedLoop_calm (env : GrowEnv) : ∀ (k : Nat) (i : Int) (s s1 : State),
    createPinnedLoop env k i s = .ok s1 → Calm s s1
  | 0, _, s, s1, h => by
    cases h
    exact calm_refl s
  | k + 1, i, s, s1, h => by
    unfold createPinnedLoop at h
    cases hr : createPinnedPbo env i s with
    | error e =>
      rw [hr] at h
      cases h
    | ok r =>
      obtain ⟨b, t⟩ := r
      rw [hr] at h
      have hc := createPinnedPbo_calm env i s b t hr
      cases b with
      | true => exact calm_trans hc (createPinnedLoop_calm env k (i + 1) t s1 h)
      | false =>
        cases h
        exact hc

theorem closeBranch_calm (s s1 : State) (h : closeBranch s = .ok s1) : Calm s s1 := by
  unfold closeBranch assertNoError at h
  split at h
  · cases h
  · cases h
    exact ⟨⟨rfl, rfl, rfl, rfl⟩, rfl⟩

theorem deletePbo_step (i : Int) (s s1 : State) (h : deletePbo i s = .ok s1) :
    ∃ ys x, s.pboIds = ys ++ [x] ∧ s1.pboIds = ys ∧ SameMeter s s1 ∧
      deletedIds s1.events = deletedIds s.events ++ [x] := by
  unfold deletePbo at h
  cases hb : vecBack s.pboFences with
  | error e =>
    rw [hb] at h
    cases h
  | ok f =>
    rw [hb] at h
    simp only [bind, Except.bind] at h
    have hids : (glDeleteSync f s).pboIds = s.pboIds := by
      unfold glDeleteSync
      split
      · rfl
      · split <;> rfl
    have hm : SameMeter s (glDeleteSync f s) := by
      unfold glDeleteSync
      split
      · exact sameMeter_refl s
      · split
        · exact ⟨rfl, rfl, rfl, rfl⟩
        · exact ⟨rfl, rfl, rfl, rfl⟩
    have hd : deletedIds (glDeleteSync f s).events = deletedIds s.events := by
      unfold glDeleteSync
      split
      · rfl
      · split
        · show deletedIds (s.events ++ [Event.deleteSync _]) = _
          rw [deletedIds_append]
          simp [deletedIds]
        · rfl
    generalize glDeleteSync f s = t at h hids hm hd
    by_cases hne : s.pboIds = []
    · have : vecBack t.pboIds = .error .emptyVector := by
        rw [hids, hne]
        rfl
      simp only [this] at h
      cases h
    · obtain ⟨ys, x, hx⟩ := exists_concat_of_ne_nil s.pboIds hne
      have hv : vecBack t.pboIds = .ok x := by
        rw [hids, hx]
        exact vecBack_concat ys x
      simp only [hv, pure, Except.pure] at h
      cases h
      refine ⟨ys, x, hx, ?_, ⟨hm.1, hm.2, hm.3, hm.4⟩, ?_⟩
      · show t.pboIds.dropLast = ys
        rw [hids, hx]
        simp
      · show deletedIds (t.events ++ [Event.deleteBuffer x]) = _
        rw [deletedIds_append, hd]
        simp [deletedIds]

theorem deletePinnedPbo_step (i : Int) (s s1 : State) (h : deletePinnedPbo i s = .ok s1) :
    ∃ ys x, s.pboIds = ys ++ [x] ∧ s1.pboIds = ys ∧ SameMeter s s1 ∧
      deletedIds s1.events = deletedIds s.events ++ [x] := by
  unfold deletePinnedPbo at h
  cases hd : deletePbo i s with
  | error e =>
    rw [hd] at h
    cases h
  | ok t =>
    rw [hd] at h
    obtain ⟨ys, x, h1, h2, h3, h4⟩ := deletePbo_step i s t hd
    simp only [bind, Except.bind] at h
    cases hb : vecBack t.alignedBuffers with
    | error e =>
      rw [hb] at h
      cases h
    | ok p =>
      rw [hb] at h
      by_cases hl : (t.hostMem.any fun m => m.1 = p) = true
      · simp only [alignedFree, hl, if_true, pure, Except.pure] at h
        cases h
        refine ⟨ys, x, h1, h2, ⟨h3.1, h3.2, h3.3, h3.4⟩, ?_⟩
        show deletedIds (t.events ++ [Event.alignedFree p]) = _
        rw [deletedIds_append, h4]
        simp [deletedIds]
      · simp only [alignedFree, hl] at h
        cases h

theorem drop_concat_reverse (ys : List Nat) (x : Nat) (k : Nat) (hk : k ≤ ys.length) :
    ((ys ++ [x]).drop ((ys ++ [x]).length - (k + 1))).reverse =
      x :: (ys.drop (ys.length - k)).reverse := by
  have e : (ys ++ [x]).length - (k + 1) = ys.length - k := by
    simp
  rw [e, List.drop_append_of_le_length (by omega)]
  simp

theorem deleteLoop_trace (pinned : Bool) : ∀ (k : Nat) (i : Int) (s s1 : State),
    deleteLoop pinned k i s = .ok s1 →
    k ≤ s.pboIds.length ∧ SameMeter s s1 ∧
      deletedIds s1.events =
        deletedIds s.events ++ (s.pboIds.drop (s.pboIds.length - k)).reverse
  | 0, _, s, s1, h => by
    cases h
    exact ⟨Nat.zero_le _, sameMeter_refl s, by simp⟩
  | k + 1, i, s, s1, h => by
    unfold deleteLoop at h
    have key : ∀ t, (∃ ys x, s.pboIds = ys ++ [x] ∧ t.pboIds = ys ∧ SameMeter s t ∧
        deletedIds t.events = deletedIds s.events ++ [x]) →
        deleteLoop pinned k (i - 1) t = .ok s1 →
        k + 1 ≤ s.pboIds.length ∧ SameMeter s s1 ∧
          deletedIds s1.events =
            deletedIds s.events ++ (s.pboIds.drop (s.pboIds.length - (k + 1))).reverse := by
      intro t ht hl
      obtain ⟨ys, x, h1, h2, h3, h4⟩ := ht
      obtain ⟨g1, g2, g3⟩ := deleteLoop_trace pinned k (i - 1) t s1 hl
      rw [h2] at g1 g3
      refine ⟨by rw [h1]; simp; exact g1, sameMeter_trans h3 g2, ?_⟩
      rw [g3, h4, h1, drop_concat_reverse ys x k g1]
      simp
    cases pinned with
    | true =>
      simp only [if_true] at h
      cases hd : deletePinnedPbo i s with
      | error e =>
        rw [hd] at h
        cases h
      | ok t =>
        rw [hd] at h
        exact key t (deletePinnedPbo_step i s t hd) h
    | false =>
      simp only [Bool.false_eq_true, if_false] at h
      cases hd : deletePbo i s with
      | error e =>
        rw [hd] at h
        cases h
      | ok t =>
        rw [hd] at h
        exact key t (deletePbo_step i s t hd) h

theorem setPboCount_trace (env : GrowEnv) (n : Int) (s s1 : State)
    (h : setPboCount env n s = .ok s1) :
    SameMeter s s1 ∧
      deletedIds s1.events =
        deletedIds s.events ++
          (if s.pboSupported = true ∧ n < s.pboCount then
            (s.pboIds.drop (s.pboIds.length - (s.pboCount - n).toNat)).reverse
          else []) := by
  unfold setPboCount at h
  by_cases hs : s.pboSupported = true
  · have e : (!s.pboSupported) = false := by simp [hs]
    rw [e] at h
    simp only [Bool.false_eq_true, if_false, bind, Except.bind] at h
    by_cases hgt : n > s.pboCount
    · have hlt : ¬ n < s.pboCount := by omega
      rw [if_neg (fun hh => hlt hh.2), List.append_nil]
      rw [if_pos hgt] at h
      by_cases hm : s.pboMethod ≠ .AMD
      · rw [if_pos hm] at h
        cases hc : closeBranch
            (createLoop (n - s.pboCount).toNat s.pboCount { s with boundUnpack := 0 }) with
        | error e =>
          rw [hc] at h
          cases h
        | ok t =>
          rw [hc] at h
          cases h
          have c1 : Calm s { s with boundUnpack := 0 } := ⟨⟨rfl, rfl, rfl, rfl⟩, rfl⟩
          have c2 := createLoop_calm (n - s.pboCount).toNat s.pboCount { s with boundUnpack := 0 }
          have c3 := closeBranch_calm _ t hc
          have c4 := calm_trans c1 (calm_trans c2 c3)
          exact ⟨⟨c4.1.1, c4.1.2, c4.1.3, c4.1.4⟩, c4.2⟩
      · rw [if_neg hm] at h
        cases hl : createPinnedLoop env (n - s.pboCount).toNat s.pboCount s with
        | error e =>
          rw [hl] at h
          cases h
        | ok t0 =>
          rw [hl] at h
          simp only [] at h
          cases hc : closeBranch t0 with
          | error e =>
            rw [hc] at h
            cases h
          | ok t =>
            rw [hc] at h
            cases h
            have c2 := createPinnedLoop_calm env _ _ s t0 hl
            have c3 := closeBranch_calm _ t hc
            have c4 := calm_trans c2 c3
            exact ⟨⟨c4.1.1, c4.1.2, c4.1.3, c4.1.4⟩, c4.2⟩
    · rw [if_neg hgt] at h
      by_cases hlt : n < s.pboCount
      · rw [if_pos hlt] at h
        rw [if_pos ⟨hs, hlt⟩]
        by_cases hm : s.pboMethod ≠ .AMD
        · rw [if_pos hm] at h
          cases hl : deleteLoop false (s.pboCount - n).toNat (s.pboCount - 1)
              { s with boundUnpack := 0 } with
          | error e =>
            rw [hl] at h
            cases h
          | ok t0 =>
            rw [hl] at h
            simp only [] at h
            cases hc : closeBranch t0 with
            | error e =>
              rw [hc] at h
              cases h
            | ok t =>
              rw [hc] at h
              cases h
              obtain ⟨_, g2, g3⟩ := deleteLoop_trace false _ _ _ t0 hl
              have c3 := closeBranch_calm _ t hc
              refine ⟨⟨c3.1.1.trans g2.1, c3.1.2.trans g2.2, c3.1.3.trans g2.3,
                c3.1.4.trans g2.4⟩, ?_⟩
              exact c3.2.trans g3
        · rw [if_neg hm] at h
          cases hl : deleteLoop true (s.pboCount - n).toNat (s.pboCount - 1) s with
          | error e =>
            rw [hl] at h
            cases h
          | ok t0 =>
            rw [hl] at h
            simp only [] at h
            cases hc : closeBranch t0 with
            | error e =>
              rw [hc] at h
              cases h
            | ok t =>
              rw [hc] at h
              cases h
              obtain ⟨_, g2, g3⟩ := deleteLoop_trace true _ _ _ t0 hl
              have c3 := closeBranch_calm _ t hc
              refine ⟨⟨c3.1.1.trans g2.1, c3.1.2.trans g2.2, c3.1.3.trans g2.3,
                c3.1.4.trans g2.4⟩, ?_⟩
              exact c3.2.trans g3
      · rw [if_neg hlt] at h
        rw [if_neg (fun hh => hlt hh.2)]
        cases h
        exact ⟨⟨rfl, rfl, rfl, rfl⟩, by simp⟩
  · have hs2 : s.pboSupported = false := by simpa using hs
    have e : (!s.pboSupported) = true := by simp [hs2]
    rw [e, if_pos rfl] at h
    cases h
    refine ⟨sameMeter_refl s, ?_⟩
    rw [if_neg (fun hh => hs hh.1), List.append_nil]

theorem leftoverPool_poolOk : PoolOk leftoverPool := by
  refine ⟨rfl, ⟨rfl, by decide, ?_, ?_, rfl, leftoverPool_fenceRel⟩⟩
  · intro id hid
    have : id = 1 ∨ id = 2 ∨ id = 3 := by simpa [leftoverPool] using hid
    show id < 4
    omega
  · intro id hid
    have : id = 1 ∨ id = 2 ∨ id = 3 := by simpa [leftoverPool] using hid
    rcases this with h | h | h <;> subst h <;> rfl

theorem resize_shape (env : GrowEnv) (m : Nat) (s : State)
    (hs : s.pboSupported = true) (hp : PoolOk s)
    (hshrink : s.pboMethod = .AMD → (m : Int) < s.pboCount → PinnedOk s)
    (hgrow : s.pboMethod = .AMD → s.pboCount < (m : Int) →
      alignmentCheck s.systemPageSize = true ∧ ∀ j, env j = .ok) :
    ∃ s1, setPboCount env m s = .ok s1 ∧ s1.pboIds.length = m ∧ s1.pboFences.length = m ∧
      (m < s.pboIds.length →
        s1.pboIds = s.pboIds.take m ∧ s1.pboFences = s.pboFences.take m ∧
        deletedIds s1.events = deletedIds s.events ++ (s.pboIds.drop m).reverse) ∧
      (s.pboIds.length ≤ m →
        ∃ fresh slots, s1.pboIds = s.pboIds ++ fresh ∧ s1.pboFences = s.pboFences ++ slots ∧
          fresh.length = m - s.pboIds.length ∧ slots.length = m - s.pboIds.length ∧
          deletedIds s1.events = deletedIds s.events) := by
  obtain ⟨s1, p0, p1, p2, p3, p4, p5, p6, _⟩ := setPboCount_spec env m s hs hp hshrink hgrow
  obtain ⟨_, t2⟩ := setPboCount_trace env m s s1 p0
  have hc := hp.count_eq
  have hfl := hp.vec.fences_len
  have hfl1 : s1.pboFences.length = m := by rw [p1.vec.fences_len, p3]
  refine ⟨s1, p0, p3, hfl1, ?_, ?_⟩
  · intro hlt
    have e : min m s.pboIds.length = m := by omega
    rw [e] at p5 p6
    rw [List.take_of_length_le (by omega)] at p5 p6
    refine ⟨p5, p6, ?_⟩
    rw [t2, if_pos ⟨hs, by omega⟩]
    have e2 : s.pboIds.length - (s.pboCount - (m : Int)).toNat = m := by omega
    rw [e2]
  · intro hle
    have e : min m s.pboIds.length = s.pboIds.length := by omega
    rw [e] at p5 p6
    rw [List.take_of_length_le (le_refl _)] at p5
    rw [List.take_of_length_le (l := s.pboFences) (by omega)] at p6
    refine ⟨s1.pboIds.drop s.pboIds.length, s1.pboFences.drop s.pboIds.length, ?_, ?_, ?_, ?_,
      ?_⟩
    · have := List.take_append_drop s.pboIds.length s1.pboIds
      rw [p5] at this
      exact this.symm
    · have := List.take_append_drop s.pboIds.length s1.pboFences
      rw [p6] at this
      exact this.symm
    · rw [List.length_drop, p3]
    · rw [List.length_drop, hfl1]
    · rw [t2, if_neg (by omega), List.append_nil]

theorem setPboCount_unsupported (env : GrowEnv) (n : Int) (s : State)
    (h : s.pboSupported = false) : setPboCount env n s = .ok s := by
  unfold setPboCount
  rw [if_pos (by simp [h])]

theorem keyboardCB_space (env : GrowEnv) (s : State) :
    keyboardCB env 32 s =
      (setPboCount env 1
        { s with
          pboMethod :=
            methodOfNat ((methodToNat s.pboMethod + 1) % (if s.amdSupported then 5 else 4))
          log := s.log ++ [.pboMethodLine
            (methodOfNat
              ((methodToNat s.pboMethod + 1) % (if s.amdSupported then 5 else 4)))] }).bind
        fun s2 => .ok (resetTransferRate s2) := rfl

theorem keyboardCB_escape (env : GrowEnv) (s : State) :
    keyboardCB env 27 s =
      (setPboCount env 0 { s with imageData := none, texture := [] }).bind
        fun s1 => .ok { s1 with exited := true } := rfl

theorem keyboardCB_digit (env : GrowEnv) (key : Nat) (s : State)
    (kn : 48 ≤ key ∧ key ≤ 57) :
    keyboardCB env key s =
      (setPboCount env ((key : Int) - 48) s).bind fun s2 => .ok (resetTransferRate s2) := by
  unfold keyboardCB
  have k27 : ¬ key = 27 := by omega
  have k32 : ¬ key = 32 := by omega
  have kd : ¬ (key = 100 ∨ key = 68) := by omega
  simp only [if_neg k27, if_neg k32, if_neg kd, if_pos kn, bind, Except.bind, pure, Except.pure]

theorem keyboardCB_draw (env : GrowEnv) (key : Nat) (s : State)
    (kd : key = 100 ∨ key = 68) :
    keyboardCB env key s =
      .ok { s with drawMode := Int.tmod (wrapInt (s.drawMode + 1)) 3 } := by
  unfold keyboardCB
  have k27 : ¬ key = 27 := by omega
  have k32 : ¬ key = 32 := by omega
  have kn : ¬ (48 ≤ key ∧ key ≤ 57) := by omega
  simp only [if_neg k27, if_neg k32, if_pos kd, if_neg kn, bind, Except.bind, pure, Except.pure]

theorem keyboardCB_other (env : GrowEnv) (key : Nat) (s : State)
    (k27 : ¬ key = 27) (k32 : ¬ key = 32) (kd : ¬ (key = 100 ∨ key = 68))
    (kn : ¬ (48 ≤ key ∧ key ≤ 57)) :
    keyboardCB env key s = .ok s := by
  unfold keyboardCB
  simp only [if_neg k27, if_neg k32, if_neg kd, if_neg kn, bind, Except.bind, pure, Except.pure]

theorem createPinnedPbo_allocFails (env : GrowEnv) (i : Int) (s : State)
    (hg : s.glError = false) (he : env i.toNat = .allocFails)
    (ha : alignmentCheck s.systemPageSize = true) :
    ∃ s1, createPinnedPbo env i s = .ok (false, s1) ∧ s1.glError = false ∧
      s1.pboIds = s.pboIds ∧ s1.pboFences = s.pboFences ∧
      s1.alignedBuffers = s.alignedBuffers ∧
      s1.log = s.log ++ [.errPosixMemalign DATA_SIZE s.systemPageSize,
        .errAlignedMalloc DATA_SIZE s.systemPageSize] := by
  refine ⟨
    { s with
      nextBuffer := s.nextBuffer + 1
      glBuffers := s.glBuffers ++ [newBuffer s.nextBuffer]
      events := s.events ++ [.genBuffer s.nextBuffer]
      log := s.log ++ [.errPosixMemalign DATA_SIZE s.systemPageSize,
        .errAlignedMalloc DATA_SIZE s.systemPageSize] }, ?_, hg, rfl, rfl, rfl, rfl⟩
  simp [createPinnedPbo, assertNoError, alignedMalloc, hg, ha, he, bind, Except.bind, pure,
    Except.pure]

theorem createPinnedPbo_log (env : GrowEnv) (i : Int) (s : State) (b : Bool) (s1 : State)
    (h : createPinnedPbo env i s = .ok (b, s1)) : ∃ more, s1.log = s.log ++ more := by
  unfold createPinnedPbo at h
  simp only [assertNoError, alignedMalloc, alignedFree, glBufferData, bind, Except.bind, pure,
    Except.pure] at h
  by_cases hg : s.glError = true
  · simp [hg] at h
  · by_cases ha : alignmentCheck s.systemPageSize = true
    · cases he : env i.toNat with
      | allocFails =>
        simp [hg, ha, he] at h
        obtain ⟨_, rfl⟩ := h
        exact ⟨_, rfl⟩
      | ok =>
        simp [hg, ha, he] at h
        obtain ⟨_, rfl⟩ := h
        exact ⟨_, rfl⟩
      | bufferDataFails =>
        simp [hg, ha, he] at h
        obtain ⟨_, rfl⟩ := h
        exact ⟨_, rfl⟩
    · simp [hg, ha] at h

theorem createPinnedLoop_allocFails (env : GrowEnv) : ∀ (j k : Nat) (i : Int) (s : State),
    VecOk s → alignmentCheck s.systemPageSize = true → 0 ≤ i →
    (∀ t, t < j → env (i.toNat + t) = .ok) → env (i.toNat + j) = .allocFails → j < k →
    ∃ s1 mid, createPinnedLoop env k i s = .ok s1 ∧ s1.glError = false ∧
      (∃ fresh, s1.pboIds = s.pboIds ++ fresh ∧ fresh.length = j) ∧
      s1.pboFences = s.pboFences ++ List.replicate j none ∧
      (∃ ptrs, s1.alignedBuffers = s.alignedBuffers ++ ptrs ∧ ptrs.length = j) ∧
      s1.log = s.log ++ mid ++ [.errPosixMemalign DATA_SIZE s.systemPageSize,
        .errAlignedMalloc DATA_SIZE s.systemPageSize]
  | 0, 0, _, _, _, _, _, _, _, hk => absurd hk (by omega)
  | 0, k + 1, i, s, h, ha, _, _, hf, _ => by
    obtain ⟨s1, c0, c1, c2, c3, c4, c5⟩ :=
      createPinnedPbo_allocFails env i s h.no_error (by simpa using hf) ha
    refine ⟨s1, [], ?_, c1, ⟨[], by simp [c2], rfl⟩, by simp [c3], ⟨[], by simp [c4], rfl⟩,
      by simp [c5]⟩
    unfold createPinnedLoop
    rw [c0]
    rfl
  | j + 1, 0, _, _, _, _, _, _, _, hk => absurd hk (by omega)
  | j + 1, k + 1, i, s, h, ha, hi, hok, hf, hk => by
    obtain ⟨s1, c0, c1, c2, c3, c4, _, c6, _⟩ :=
      createPinnedPbo_spec env i s h (by simpa using hok 0 (by omega)) ha
    obtain ⟨more, cl⟩ := createPinnedPbo_log env i s true s1 c0
    have e1 : (i + 1).toNat = i.toNat + 1 := by omega
    obtain ⟨s2, mid, g0, g1, ⟨fresh, g2, g2l⟩, g3, ⟨ptrs, g4, g4l⟩, g5⟩ :=
      createPinnedLoop_allocFails env j k (i + 1) s1 c1 (by rw [c6]; exact ha) (by omega)
        (fun t ht => by
          rw [e1]
          have := hok (t + 1) (by omega)
          rw [show i.toNat + 1 + t = i.toNat + (t + 1) by omega]
          exact this)
        (by
          rw [e1, show i.toNat + 1 + j = i.toNat + (j + 1) by omega]
          exact hf)
        (by omega)
    refine ⟨s2, more ++ mid, ?_, g1, ⟨s.nextBuffer :: fresh, ?_, ?_⟩, ?_,
      ⟨s.nextPtr :: ptrs, ?_, ?_⟩, ?_⟩
    · unfold createPinnedLoop
      rw [c0]
      exact g0
    · rw [g2, c2]
      simp
    · simp [g2l]
    · rw [g3, c3, List.replicate_succ]
      simp
    · rw [g4, c4]
      simp
    · simp [g4l]
    · rw [g5, cl, c6]
      simp

theorem setPboCount_allocFails (env : GrowEnv) (n j : Nat) (s : State)
    (hs : s.pboSupported = true) (hp : PoolOk s) (hm : s.pboMethod = .AMD)
    (ha : alignmentCheck s.systemPageSize = true)
    (hok : ∀ t, t < j → env (s.pboIds.length + t) = .ok)
    (hf : env (s.pboIds.length + j) = .allocFails)
    (hj : s.pboIds.length + j < n) :
    ∃ s1 mid, setPboCount env n s = .ok s1 ∧
      s1.pboCount = ((s.pboIds.length + j : Nat) : Int) ∧
      (∃ fresh, s1.pboIds = s.pboIds ++ fresh ∧ fresh.length = j) ∧
      s1.pboFences = s.pboFences ++ List.replicate j none ∧
      (∃ ptrs, s1.alignedBuffers = s.alignedBuffers ++ ptrs ∧ ptrs.length = j) ∧
      s1.log = s.log ++ mid ++ [.errPosixMemalign DATA_SIZE s.systemPageSize,
        .errAlignedMalloc DATA_SIZE s.systemPageSize,
        .pboCountLine ((s.pboIds.length + j : Nat) : Int)] := by
  have hc := hp.count_eq
  have hi : s.pboCount.toNat = s.pboIds.length := by omega
  obtain ⟨t, mid, g0, g1, ⟨fresh, g2, g2l⟩, g3, g4, g5⟩ :=
    createPinnedLoop_allocFails env j ((n : Int) - s.pboCount).toNat s.pboCount s hp.vec ha
      (by omega) (by rw [hi]; exact hok) (by rw [hi]; exact hf) (by omega)
  have hlen : t.pboIds.length = s.pboIds.length + j := by
    rw [g2, List.length_append, g2l]
  have hcl : closeBranch t = .ok { t with pboCount := (t.pboIds.length : Int) } := by
    unfold closeBranch assertNoError
    rw [if_neg (by simp [g1])]
  refine ⟨
    { t with
      pboCount := (t.pboIds.length : Int)
      log := t.log ++ [.pboCountLine (t.pboIds.length : Int)] }, mid, ?_, ?_, ⟨fresh, g2, g2l⟩,
    g3, g4, ?_⟩
  · unfold setPboCount
    have e : (!s.pboSupported) = false := by simp [hs]
    rw [e]
    simp only [Bool.false_eq_true, if_false, bind, Except.bind]
    rw [if_pos (by omega), if_neg (not_not.mpr hm), g0]
    simp only []
    rw [hcl]
    rfl
  · show (t.pboIds.length : Int) = _
    rw [hlen]
  · show t.log ++ [LogLine.pboCountLine (t.pboIds.length : Int)] = _
    rw [g5, hlen]
    simp

theorem pinnedStart_poolOk : PoolOk pinnedStart :=
  ⟨rfl, vecOk_of_eq (initState_poolOk true true 4096).vec rfl rfl rfl rfl rfl rfl rfl⟩

theorem failThird_ok (t : Nat) (h : t < 2) : failThird (pinnedStart.pboIds.length + t) = .ok := by
  show failThird (0 + t) = .ok
  unfold failThird
  rw [if_neg (by omega)]

theorem meterRun_append (s : State) (a b : List ℚ) :
    meterRun s (a ++ b) = meterRun (meterRun s a) b := by
  simp [meterRun, List.foldl_append]

theorem printTransferRate_counts (t : ℚ) (s : State) (h : t < 1) :
    (printTransferRate t s).count = wrapInt (s.count + 1) ∧
    (printTransferRate t s).log = s.log := by
  simp [printTransferRate, h]

theorem printTransferRate_restart (t : ℚ) (s : State) (h : ¬ t < 1) :
    (printTransferRate t s).count = 0 := by
  unfold printTransferRate
  rw [if_neg h]
  split <;> rfl

theorem printTransferRate_rate (t : ℚ) (s : State) (h : ¬ t < 1)
    (hd : ¬ 0 < s.rateDiscarded) :
    (printTransferRate t s).frameRateSum = s.frameRateSum + (s.count : ℚ) / t ∧
    (printTransferRate t s).transferRateSum =
      s.transferRateSum + ((s.count : ℚ) / t) * (DATA_SIZE : ℚ) * (1 / (1024 * 1024)) ∧
    ∃ ra fa, (printTransferRate t s).log =
      s.log ++ [.transferRate (((s.count : ℚ) / t) * (DATA_SIZE : ℚ) * (1 / (1024 * 1024)))
        ((s.count : ℚ) / t) ra fa] := by
  unfold printTransferRate
  rw [if_neg h, if_neg (by simpa using hd)]
  exact ⟨rfl, rfl, _, _, rfl⟩

theorem meterRun_within (ts : List ℚ) : ∀ (s : State), (∀ x ∈ ts, x < 1) →
    0 ≤ s.count → s.count + (ts.length : Int) ≤ 2147483647 →
    (meterRun s ts).count = s.count + (ts.length : Int) ∧
    (meterRun s ts).rateDiscarded = s.rateDiscarded ∧
    (meterRun s ts).frameRateSum = s.frameRateSum ∧
    (meterRun s ts).transferRateSum = s.transferRateSum ∧
    (meterRun s ts).log = s.log := by
  induction ts with
  | nil =>
    intro s _ _ _
    simp [meterRun]
  | cons t ts ih =>
    intro s hts h0 hlen
    have hrun : meterRun s (t :: ts) = meterRun (printTransferRate t s) ts := rfl
    have ht : t < 1 := hts t (List.mem_cons_self _ _)
    obtain ⟨c1, c2⟩ := printTransferRate_counts t s ht
    obtain ⟨d1, _, d3, d4⟩ := printTransferRate_within t s ht
    simp only [List.length_cons, Nat.cast_add, Nat.cast_one] at hlen
    have hw : wrapInt (s.count + 1) = s.count + 1 := wrapInt_eq _ (by omega) (by omega)
    rw [hw] at c1
    obtain ⟨i1, i2, i3, i4, i5⟩ := ih (printTransferRate t s)
      (fun x hx => hts x (List.mem_cons_of_mem _ hx)) (by rw [c1]; omega) (by rw [c1]; omega)
    rw [hrun]
    refine ⟨?_, by rw [i2, d1], by rw [i3, d4], by rw [i4, d3], by rw [i5, c2]⟩
    rw [i1, c1]
    simp only [List.length_cons, Nat.cast_add, Nat.cast_one]
    omega

theorem meterRun_window (s : State) (pre ts : List ℚ) (t0 t : ℚ)
    (h0 : ¬ t0 < 1) (hts : ∀ x ∈ ts, x < 1) (ht : ¬ t < 1)
    (hlen : ts.length ≤ 2147483647) :
    (meterRun s (pre ++ [t0])).count = 0 ∧
    (meterRun s (pre ++ [t0] ++ ts)).count = (ts.length : Int) ∧
    (meterRun s (pre ++ [t0] ++ ts ++ [t])).count = 0 ∧
    (¬ 0 < (meterRun s (pre ++ [t0] ++ ts)).rateDiscarded →
      (meterRun s (pre ++ [t0] ++ ts ++ [t])).frameRateSum =
        (meterRun s (pre ++ [t0] ++ ts)).frameRateSum + (ts.length : ℚ) / t ∧
      (meterRun s (pre ++ [t0] ++ ts ++ [t])).transferRateSum =
        (meterRun s (pre ++ [t0] ++ ts)).transferRateSum +
          ((ts.length : ℚ) / t) * (DATA_SIZE : ℚ) * (1 / (1024 * 1024)) ∧
      ∃ ra fa, (meterRun s (pre ++ [t0] ++ ts ++ [t])).log =
        (meterRun s (pre ++ [t0] ++ ts)).log ++
          [.transferRate (((ts.length : ℚ) / t) * (DATA_SIZE : ℚ) * (1 / (1024 * 1024)))
            ((ts.length : ℚ) / t) ra fa]) := by
  have a0 : (meterRun s (pre ++ [t0])).count = 0 := by
    rw [meterRun_append]
    exact printTransferRate_restart t0 _ h0
  obtain ⟨b1, _⟩ := meterRun_within ts (meterRun s (pre ++ [t0])) hts (by rw [a0])
    (by rw [a0]; omega)
  rw [a0, zero_add] at b1
  have b1' : (meterRun s (pre ++ [t0] ++ ts)).count = (ts.length : Int) := by
    rw [meterRun_append]; exact b1
  have e : meterRun s (pre ++ [t0] ++ ts ++ [t]) =
      printTransferRate t (meterRun s (pre ++ [t0] ++ ts)) := by
    rw [meterRun_append]; rfl
  refine ⟨a0, b1', ?_, ?_⟩
  · rw [e]
    exact printTransferRate_restart t _ ht
  · intro hd
    obtain ⟨r1, r2, ra, fa, r3⟩ := printTransferRate_rate t _ ht hd
    rw [b1'] at r1 r2 r3
    rw [e]
    refine ⟨?_, ?_, ra, fa, ?_⟩
    · rw [r1]; simp
    · rw [r2]; simp
    · rw [r3]; simp

theorem paired_refl (s : State) : Paired s s := ⟨rfl, rfl⟩

theorem paired_trans {a b c : State} (h1 : Paired a b) (h2 : Paired b c) : Paired a c :=
  ⟨by have := h1.grown; have := h2.grown; omega, h2.idx_same.trans h1.idx_same⟩

theorem createPbo_paired (i : Int) (s : State) :
    Paired s (createPbo i s) ∧ (createPbo i s).pboIds.length = s.pboIds.length + 1 := by
  refine ⟨⟨?_, rfl⟩, ?_⟩
  · show (s.pboIds ++ [s.nextBuffer]).length + s.pboFences.length =
      s.pboIds.length + (s.pboFences ++ [(none : Option Nat)]).length
    simp
    omega
  · show (s.pboIds ++ [s.nextBuffer]).length = _
    simp

theorem createLoop_paired : ∀ (k : Nat) (i : Int) (s : State),
    Paired s (createLoop k i s) ∧ (createLoop k i s).pboIds.length = s.pboIds.length + k
  | 0, _, s => ⟨paired_refl s, rfl⟩
  | k + 1, i, s => by
    obtain ⟨h1, h2⟩ := createPbo_paired i s
    obtain ⟨g1, g2⟩ := createLoop_paired k (i + 1) (createPbo i s)
    refine ⟨paired_trans h1 g1, ?_⟩
    show (createLoop k (i + 1) (createPbo i s)).pboIds.length = _
    rw [g2, h2]
    omega

theorem createPinnedPbo_paired (env : GrowEnv) (i : Int) (s : State) (b : Bool) (s1 : State)
    (h : createPinnedPbo env i s = .ok (b, s1)) :
    Paired s s1 ∧ s.pboIds.length ≤ s1.pboIds.length ∧
      s1.pboIds.length ≤ s.pboIds.length + 1 := by
  unfold createPinnedPbo at h
  simp only [assertNoError, alignedMalloc, alignedFree, glBufferData, bind, Except.bind, pure,
    Except.pure] at h
  by_cases hg : s.glError = true
  · simp [hg] at h
  · by_cases ha : alignmentCheck s.systemPageSize = true
    · cases he : env i.toNat with
      | allocFails =>
        simp [hg, ha, he] at h
        obtain ⟨_, rfl⟩ := h
        exact ⟨⟨rfl, rfl⟩, le_refl _, Nat.le_succ _⟩
      | ok =>
        simp [hg, ha, he] at h
        obtain ⟨_, rfl⟩ := h
        refine ⟨⟨?_, rfl⟩, ?_, ?_⟩
        · show (s.pboIds ++ [s.nextBuffer]).length + s.pboFences.length =
            s.pboIds.length + (s.pboFences ++ [(none : Option Nat)]).length
          simp
          omega
        · show s.pboIds.length ≤ (s.pboIds ++ [s.nextBuffer]).length
          simp
        · show (s.pboIds ++ [s.nextBuffer]).length ≤ _
          simp
      | bufferDataFails =>
        simp [hg, ha, he] at h
        obtain ⟨_, rfl⟩ := h
        exact ⟨⟨rfl, rfl⟩, le_refl _, Nat.le_succ _⟩
    · simp [hg, ha] at h

theorem createPinnedLoop_paired (env : GrowEnv) : ∀ (k : Nat) (i : Int) (s s1 : State),
    createPinnedLoop env k i s = .ok s1 →
    Paired s s1 ∧ s.pboIds.length ≤ s1.pboIds.length ∧ s1.pboIds.length ≤ s.pboIds.length + k
  | 0, _, s, s1, h => by
    cases h
    exact ⟨paired_refl s, le_refl _, le_refl _⟩
  | k + 1, i, s, s1, h => by
    unfold createPinnedLoop at h
    cases hr : createPinnedPbo env i s with
    | error e =>
      rw [hr] at h
      cases h
    | ok r =>
      obtain ⟨b, t⟩ := r
      rw [hr] at h
      obtain ⟨c1, c2, c3⟩ := createPinnedPbo_paired env i s b t hr
      cases b with
      | true =>
        obtain ⟨g1, g2, g3⟩ := createPinnedLoop_paired env k (i + 1) t s1 h
        exact ⟨paired_trans c1 g1, by omega, by omega⟩
      | false =>
        cases h
        exact ⟨c1, c2, Nat.le_trans c3 (by omega)⟩

theorem vecBack_ne_nil {α : Type} (xs : List α) (x : α) (h : vecBack xs = .ok x) :
    xs ≠ [] := by
  intro e
  rw [e] at h
  cases h

theorem glDeleteSync_paired (f : Option Nat) (s : State) :
    (glDeleteSync f s).pboFences = s.pboFences ∧ (glDeleteSync f s).pboIds = s.pboIds ∧
    (glDeleteSync f s).copyIdx = s.copyIdx ∧
    (glDeleteSync f s).alignedBuffers = s.alignedBuffers := by
  unfold glDeleteSync
  split
  · exact ⟨rfl, rfl, rfl, rfl⟩
  · split
    · exact ⟨rfl, rfl, rfl, rfl⟩
    · exact ⟨rfl, rfl, rfl, rfl⟩

theorem deletePbo_paired (i : Int) (s s1 : State) (h : deletePbo i s = .ok s1) :
    Paired s s1 ∧ s1.pboIds.length + 1 = s.pboIds.length ∧
      s1.alignedBuffers = s.alignedBuffers := by
  obtain ⟨ys, x, h1, h2, _, _⟩ := deletePbo_step i s s1 h
  unfold deletePbo at h
  cases hb : vecBack s.pboFences with
  | error e =>
    rw [hb] at h
    cases h
  | ok f =>
    rw [hb] at h
    simp only [bind, Except.bind] at h
    have hne := vecBack_ne_nil _ _ hb
    obtain ⟨g1, g2, g3, g4⟩ := glDeleteSync_paired f s
    generalize glDeleteSync f s = t at h g1 g2 g3 g4
    have hv : vecBack t.pboIds = .ok x := by
      rw [g2, h1]
      exact vecBack_concat ys x
    simp only [hv, pure, Except.pure] at h
    cases h
    have hl : 0 < s.pboFences.length := List.length_pos.mpr hne
    refine ⟨⟨?_, g3⟩, ?_, g4⟩
    · show t.pboIds.dropLast.length + s.pboFences.length =
        s.pboIds.length + t.pboFences.dropLast.length
      rw [g1, g2, h1]
      simp
      omega
    · show t.pboIds.dropLast.length + 1 = _
      rw [g2, h1]
      simp

theorem deletePinnedPbo_paired (i : Int) (s s1 : State)
    (h : deletePinnedPbo i s = .ok s1) :
    Paired s s1 ∧ s1.pboIds.length + 1 = s.pboIds.length := by
  unfold deletePinnedPbo at h
  cases hd : deletePbo i s with
  | error e =>
    rw [hd] at h
    cases h
  | ok t =>
    rw [hd] at h
    obtain ⟨h1, h2, _⟩ := deletePbo_paired i s t hd
    simp only [bind, Except.bind] at h
    cases hb : vecBack t.alignedBuffers with
    | error e =>
      rw [hb] at h
      cases h
    | ok p =>
      rw [hb] at h
      by_cases hl : (t.hostMem.any fun m => m.1 = p) = true
      · simp only [alignedFree, hl, if_true, pure, Except.pure] at h
        cases h
        exact ⟨⟨h1.grown, h1.idx_same⟩, h2⟩
      · simp only [alignedFree, hl] at h
        cases h

theorem deleteLoop_paired (pinned : Bool) : ∀ (k : Nat) (i : Int) (s s1 : State),
    deleteLoop pinned k i s = .ok s1 →
    Paired s s1 ∧ s1.pboIds.length + k = s.pboIds.length
  | 0, _, s, s1, h => by
    cases h
    exact ⟨paired_refl s, rfl⟩
  | k + 1, i, s, s1, h => by
    unfold deleteLoop at h
    have key : ∀ t, (Paired s t ∧ t.pboIds.length + 1 = s.pboIds.length) →
        deleteLoop pinned k (i - 1) t = .ok s1 →
        Paired s s1 ∧ s1.pboIds.length + (k + 1) = s.pboIds.length := by
      intro t ht hl
      obtain ⟨g1, g2⟩ := deleteLoop_paired pinned k (i - 1) t s1 hl
      exact ⟨paired_trans ht.1 g1, by have := ht.2; omega⟩
    cases pinned with
    | true =>
      simp only [if_true] at h
      cases hd : deletePinnedPbo i s with
      | error e =>
        rw [hd] at h
        cases h
      | ok t =>
        rw [hd] at h
        exact key t (deletePinnedPbo_paired i s t hd) h
    | false =>
      simp only [Bool.false_eq_true, if_false] at h
      cases hd : deletePbo i s with
      | error e =>
        rw [hd] at h
        cases h
      | ok t =>
        rw [hd] at h
        obtain ⟨d1, d2, _⟩ := deletePbo_paired i s t hd
        exact key t ⟨d1, d2⟩ h

theorem closeBranch_eq (s s1 : State) (h : closeBranch s = .ok s1) :
    s1 = { s with pboCount := (s.pboIds.length : Int) } := by
  unfold closeBranch assertNoError at h
  split at h
  · cases h
  · cases h
    rfl

theorem closed_sized (s t0 t s1 : State) (n : Int)
    (hf : s.pboFences.length = s.pboIds.length)
    (hp : Paired s t0) (hle : t0.pboIds.length ≤ max s.pboIds.length n.toNat)
    (hc : closeBranch t0 = .ok t)
    (h1 : s1 = { t with log := t.log ++ [.pboCountLine t.pboCount] }) :
    s1.pboCount = (s1.pboIds.length : Int) ∧ s1.pboFences.length = s1.pboIds.length ∧
      s1.pboIds.length ≤ max s.pboIds.length n.toNat ∧ s1.copyIdx = s.copyIdx := by
  have e := closeBranch_eq t0 t hc
  subst e
  subst h1
  refine ⟨rfl, ?_, hle, hp.idx_same⟩
  show t0.pboFences.length = t0.pboIds.length
  have := hp.grown
  omega

theorem setPboCount_sized (env : GrowEnv) (n : Int) (s s1 : State)
    (h : setPboCount env n s = .ok s1)
    (hc : s.pboCount = (s.pboIds.length : Int))
    (hf : s.pboFences.length = s.pboIds.length) :
    s1.pboCount = (s1.pboIds.length : Int) ∧ s1.pboFences.length = s1.pboIds.length ∧
      s1.pboIds.length ≤ max s.pboIds.length n.toNat ∧ s1.copyIdx = s.copyIdx := by
  unfold setPboCount at h
  by_cases hs : s.pboSupported = true
  · have e : (!s.pboSupported) = false := by simp [hs]
    rw [e] at h
    simp only [Bool.false_eq_true, if_false, bind, Except.bind] at h
    by_cases hgt : n > s.pboCount
    · rw [if_pos hgt] at h
      by_cases hm : s.pboMethod ≠ .AMD
      · rw [if_pos hm] at h
        cases hcl : closeBranch
            (createLoop (n - s.pboCount).toNat s.pboCount { s with boundUnpack := 0 }) with
        | error e =>
          rw [hcl] at h
          cases h
        | ok t =>
          rw [hcl] at h
          obtain ⟨c1, c2⟩ :=
            createLoop_paired (n - s.pboCount).toNat s.pboCount { s with boundUnpack := 0 }
          exact closed_sized s _ t s1 n hf ⟨c1.grown, c1.idx_same⟩
            (by
              rw [c2]
              show s.pboIds.length + (n - s.pboCount).toNat ≤ _
              omega) hcl (Except.ok.inj h).symm
      · rw [if_neg hm] at h
        cases hl : createPinnedLoop env (n - s.pboCount).toNat s.pboCount s with
        | error e =>
          rw [hl] at h
          cases h
        | ok t0 =>
          rw [hl] at h
          simp only [] at h
          cases hcl : closeBranch t0 with
          | error e =>
            rw [hcl] at h
            cases h
          | ok t =>
            rw [hcl] at h
            obtain ⟨c1, _, c3⟩ := createPinnedLoop_paired env _ _ s t0 hl
            exact closed_sized s t0 t s1 n hf c1 (by omega) hcl (Except.ok.inj h).symm
    · rw [if_neg hgt] at h
      by_cases hlt : n < s.pboCount
      · rw [if_pos hlt] at h
        by_cases hm : s.pboMethod ≠ .AMD
        · rw [if_pos hm] at h
          cases hl : deleteLoop false (s.pboCount - n).toNat (s.pboCount - 1)
              { s with boundUnpack := 0 } with
          | error e =>
            rw [hl] at h
            cases h
          | ok t0 =>
            rw [hl] at h
            simp only [] at h
            cases hcl : closeBranch t0 with
            | error e =>
              rw [hcl] at h
              cases h
            | ok t =>
              rw [hcl] at h
              obtain ⟨c1, c2⟩ := deleteLoop_paired false _ _ _ t0 hl
              have c2 : t0.pboIds.length + (s.pboCount - n).toNat = s.pboIds.length := c2
              exact closed_sized s t0 t s1 n hf ⟨c1.grown, c1.idx_same⟩ (by omega) hcl
                (Except.ok.inj h).symm
        · rw [if_neg hm] at h
          cases hl : deleteLoop true (s.pboCount - n).toNat (s.pboCount - 1) s with
          | error e =>
            rw [hl] at h
            cases h
          | ok t0 =>
            rw [hl] at h
            simp only [] at h
            cases hcl : closeBranch t0 with
            | error e =>
              rw [hcl] at h
              cases h
            | ok t =>
              rw [hcl] at h
              obtain ⟨c1, c2⟩ := deleteLoop_paired true _ _ _ t0 hl
              exact closed_sized s t0 t s1 n hf c1 (by omega) hcl (Except.ok.inj h).symm
      · rw [if_neg hlt] at h
        cases h
        exact ⟨hc, hf, le_max_left _ _, rfl⟩
  · have hs2 : s.pboSupported = false := by simpa using hs
    have e : (!s.pboSupported) = true := by simp [hs2]
    rw [e, if_pos rfl] at h
    cases h
    exact ⟨hc, hf, le_max_left _ _, rfl⟩

theorem initState_sized (a b : Bool) (p : Nat) : Sized (initState a b p) :=
  ⟨rfl, rfl, Nat.zero_le 9, le_refl (0 : Int), by show (0 : Int) ≤ 8; decide⟩

theorem sized_resize (env : GrowEnv) (n : Int) (s0 s t : State)
    (h : setPboCount env n s = .ok t) (hs : Sized s0)
    (e1 : s.pboCount = s0.pboCount) (e2 : s.pboIds = s0.pboIds)
    (e3 : s.pboFences = s0.pboFences) (e4 : s.copyIdx = s0.copyIdx)
    (hn : n ≤ 9) : Sized t := by
  obtain ⟨r1, r2, r3, r4⟩ := setPboCount_sized env n s t h
    (by rw [e1, e2]; exact hs.count_len) (by rw [e2, e3]; exact hs.slots_len)
  have := hs.few
  refine ⟨r1, r2, ?_, by rw [r4, e4]; exact hs.idx_lo, by rw [r4, e4]; exact hs.idx_hi⟩
  rw [e2] at r3
  have h9 : n.toNat ≤ 9 := by omega
  exact le_trans r3 (max_le this h9)

theorem sized_of_eq {s t : State} (hs : Sized s)
    (e1 : t.pboCount = s.pboCount) (e2 : t.pboIds = s.pboIds)
    (e3 : t.pboFences.length = s.pboFences.length) (e4 : t.copyIdx = s.copyIdx) : Sized t :=
  ⟨by rw [e1, e2]; exact hs.count_len, by rw [e3, e2]; exact hs.slots_len,
    by rw [e2]; exact hs.few, by rw [e4]; exact hs.idx_lo, by rw [e4]; exact hs.idx_hi⟩

theorem keyboardCB_sized (env : GrowEnv) (key : Nat) (s s1 : State)
    (h : keyboardCB env key s = .ok s1) (hs : Sized s) : Sized s1 := by
  by_cases k27 : key = 27
  · subst k27
    rw [keyboardCB_escape] at h
    cases hx : setPboCount env 0 { s with imageData := none, texture := [] } with
    | error e =>
      rw [hx] at h
      cases h
    | ok t =>
      rw [hx] at h
      have ht := sized_resize env 0 s _ t hx hs rfl rfl rfl rfl (by decide)
      have e : s1 = { t with exited := true } := (Except.ok.inj h).symm
      rw [e]
      exact sized_of_eq ht rfl rfl rfl rfl
  · by_cases k32 : key = 32
    · subst k32
      rw [keyboardCB_space] at h
      cases hx : setPboCount env 1
          { s with
            pboMethod :=
              methodOfNat ((methodToNat s.pboMethod + 1) % (if s.amdSupported then 5 else 4))
            log := s.log ++ [.pboMethodLine
              (methodOfNat
                ((methodToNat s.pboMethod + 1) % (if s.amdSupported then 5 else 4)))] } with
      | error e =>
        rw [hx] at h
        cases h
      | ok t =>
        rw [hx] at h
        have ht := sized_resize env 1 s _ t hx hs rfl rfl rfl rfl (by decide)
        have e : s1 = resetTransferRate t := (Except.ok.inj h).symm
        rw [e]
        exact sized_of_eq ht rfl rfl rfl rfl
    · by_cases kd : key = 100 ∨ key = 68
      · rw [keyboardCB_draw env key s kd] at h
        have e : s1 = { s with drawMode := Int.tmod (wrapInt (s.drawMode + 1)) 3 } :=
          (Except.ok.inj h).symm
        rw [e]
        exact sized_of_eq hs rfl rfl rfl rfl
      · by_cases kn : 48 ≤ key ∧ key ≤ 57
        · rw [keyboardCB_digit env key s kn] at h
          cases hx : setPboCount env ((key : Int) - 48) s with
          | error e =>
            rw [hx] at h
            cases h
          | ok t =>
            rw [hx] at h
            have ht := sized_resize env ((key : Int) - 48) s s t hx hs rfl rfl rfl rfl (by omega)
            have e : s1 = resetTransferRate t := (Except.ok.inj h).symm
            rw [e]
            exact sized_of_eq ht rfl rfl rfl rfl
        · rw [keyboardCB_other env key s k27 k32 kd kn] at h
          have e : s1 = s := (Except.ok.inj h).symm
          rw [e]
          exact hs

theorem steady_refl (s : State) : Steady s s := ⟨kept_refl s, rfl⟩

theorem steady_trans {a b c : State} (h1 : Steady a b) (h2 : Steady b c) : Steady a c :=
  ⟨kept_trans h1.1 h2.1, h2.2.trans h1.2⟩

theorem vecAt_bounds {α : Type} (xs : List α) (i : Int) (x : α) (h : vecAt xs i = .ok x) :
    0 ≤ i ∧ i.toNat < xs.length := by
  unfold vecAt at h
  by_cases hi : i < 0
  · rw [if_pos hi] at h
    cases h
  · rw [if_neg hi] at h
    refine ⟨by omega, ?_⟩
    by_contra hlt
    rw [List.getElem?_eq_none (by omega)] at h
    cases h

theorem glDeleteSync_steady (f : Option Nat) (s : State) : Steady s (glDeleteSync f s) := by
  unfold glDeleteSync
  split
  · exact steady_refl s
  · split
    · exact ⟨⟨rfl, rfl, rfl, rfl, rfl⟩, rfl⟩
    · exact ⟨⟨rfl, rfl, rfl, rfl, rfl⟩, rfl⟩

theorem set_steady (s : State) (u : Nat) (v : Option Nat) :
    Steady s { s with pboFences := s.pboFences.set u v } := by
  refine ⟨⟨rfl, rfl, rfl, rfl, ?_⟩, rfl⟩
  show (s.pboFences.set u v).length = _
  simp

theorem claimFence_steady (env : TickEnv) (u : Int) (s s1 : State)
    (h : claimFence env u s = .ok s1) : Steady s s1 := by
  unfold claimFence at h
  cases hv : vecAt s.pboFences u with
  | error e =>
    rw [hv] at h
    cases h
  | ok f =>
    rw [hv] at h
    simp only [bind, Except.bind] at h
    split at h
    · rename_i g _
      have e := (Except.ok.inj h).symm
      rw [e]
      have a1 : Steady s
          { s with
            events := s.events ++ [.clientWaitSync g env.waitResult]
            log := s.log ++ waitLog env.waitResult u
            glError := if env.waitResult = .WAIT_FAILED then false else s.glError } :=
        ⟨⟨rfl, rfl, rfl, rfl, rfl⟩, rfl⟩
      exact steady_trans (steady_trans a1 (glDeleteSync_steady _ _)) (set_steady _ _ _)
    · have e := (Except.ok.inj h).symm
      rw [e]
      exact steady_refl s

theorem mapAndFill_steady (env : TickEnv) (u : Int) (id : Nat) (e1 e2 : LogLine) (s : State) :
    Steady s (mapAndFill env u id e1 e2 s).2 := by
  by_cases hm : env.mapOk = true
  · rw [mapAndFill_ok env u id e1 e2 s hm]
    generalize updatePixels true DATA_SIZE s.color = r
    have a1 : Steady s { s with events := s.events ++ [.mapBuffer u.toNat id env.mapOk] } :=
      ⟨⟨rfl, rfl, rfl, rfl, rfl⟩, rfl⟩
    exact steady_trans a1
      ⟨fillMapped_kept env u id e2 r _, (fillMapped_spec env u id e2 r _).2.2.2.2.2.1⟩
  · have hm2 : env.mapOk = false := by simpa using hm
    rw [mapAndFill_fail env u id e1 e2 s hm2]
    exact ⟨⟨rfl, rfl, rfl, rfl, rfl⟩, rfl⟩

theorem storeFence_steady (u : Int) (s s1 : State) (h : storeFence u s = .ok s1) :
    Steady s s1 := by
  unfold storeFence at h
  by_cases hm : s.pboMethod = .UNSYNCH_FENCES ∨ s.pboMethod = .AMD
  · rw [if_pos hm] at h
    cases hv : vecAt s.pboFences u with
    | error e =>
      rw [hv] at h
      cases h
    | ok prev =>
      rw [hv] at h
      have e := (Except.ok.inj h).symm
      rw [e]
      refine ⟨⟨rfl, rfl, rfl, rfl, ?_⟩, rfl⟩
      show (s.pboFences.set u.toNat (some s.nextSync)).length = _
      simp
  · rw [if_neg hm] at h
    have e := (Except.ok.inj h).symm
    rw [e]
    exact steady_refl s

theorem copyPhase_steady (c : Int) (s s1 : State) (h : copyPhase c s = .ok s1) :
    Steady s s1 := by
  unfold copyPhase at h
  cases hv : vecAt s.pboIds c with
  | error e =>
    rw [hv] at h
    cases h
  | ok id =>
    rw [hv] at h
    have e := (Except.ok.inj h).symm
    rw [e]
    exact ⟨⟨rfl, rfl, rfl, rfl, rfl⟩, rfl⟩

theorem printTransferRate_steady (t : ℚ) (s : State) : Steady s (printTransferRate t s) :=
  ⟨printTransferRate_kept t s, (printTransferRate_pool t s).2.2.2.2.1⟩

theorem bound_steady (s : State) (id : Nat) : Steady s { s with boundUnpack := id } :=
  ⟨⟨rfl, rfl, rfl, rfl, rfl⟩, rfl⟩

theorem glBufferData_steady (id size : Nat) (src : Option Nat) (s : State) :
    Steady s (glBufferData id size src s) :=
  ⟨⟨rfl, rfl, rfl, rfl, rfl⟩, rfl⟩

theorem fillPinned_steady (u : Int) (p : Nat) (r : Option (List Nat) × Nat) (s : State) :
    Steady s (fillPinned u p r s) :=
  ⟨fillPinned_kept u p r s, rfl⟩

theorem uploadPhase_steady (env : TickEnv) (u : Int) (s : State) (b : Bool) (s1 : State)
    (h : uploadPhase env u s = .ok (b, s1)) : Steady s s1 := by
  unfold uploadPhase at h
  cases hv : vecAt s.pboIds u with
  | error e =>
    rw [hv] at h
    cases h
  | ok id =>
    rw [hv] at h
    simp only [bind, Except.bind] at h
    have a0 := bound_steady s id
    split at h
    · have e := (Prod.mk.inj (Except.ok.inj h)).2.symm
      rw [e]
      exact a0
    · have e : _ = s1 := congrArg Prod.snd (Except.ok.inj h)
      rw [← e]
      exact steady_trans a0 (steady_trans (glBufferData_steady _ _ _ _)
        (mapAndFill_steady _ _ _ _ _ _))
    · have e : _ = s1 := congrArg Prod.snd (Except.ok.inj h)
      rw [← e]
      exact steady_trans a0 (steady_trans (glBufferData_steady _ _ _ _)
        (mapAndFill_steady _ _ _ _ _ _))
    · cases hc : claimFence env u { s with boundUnpack := id } with
      | error e =>
        rw [hc] at h
        cases h
      | ok t =>
        rw [hc] at h
        have e : _ = s1 := congrArg Prod.snd (Except.ok.inj h)
        rw [← e]
        exact steady_trans a0 (steady_trans (claimFence_steady env u _ t hc)
          (mapAndFill_steady _ _ _ _ _ _))
    · cases hc : claimFence env u { s with boundUnpack := id } with
      | error e =>
        rw [hc] at h
        cases h
      | ok t =>
        rw [hc] at h
        simp only [] at h
        cases hp : vecAt t.alignedBuffers u with
        | error e =>
          rw [hp] at h
          cases h
        | ok p =>
          rw [hp] at h
          simp only [] at h
          by_cases hl : (t.hostMem.any fun m => m.1 = p) = true
          · rw [if_pos hl] at h
            generalize updatePixels true DATA_SIZE t.color = r at h
            have e : _ = s1 := congrArg Prod.snd (Except.ok.inj h)
            rw [← e]
            exact steady_trans a0 (steady_trans (claimFence_steady env u _ t hc)
              (fillPinned_steady u p r t))
          · rw [if_neg hl] at h
            cases h

theorem directPath_steady (s t : State) (h : directPath s = .ok t) : Steady s t := by
  unfold directPath at h
  generalize updatePixels s.imageData.isSome DATA_SIZE s.color = r at h
  obtain ⟨r1, r2⟩ := r
  cases r1 with
  | none =>
    simp only [] at h
    split at h
    · split at h
      · have e := (Except.ok.inj h).symm
        rw [e]
        exact ⟨⟨rfl, rfl, rfl, rfl, rfl⟩, rfl⟩
      · have e := (Except.ok.inj h).symm
        rw [e]
        exact ⟨⟨rfl, rfl, rfl, rfl, rfl⟩, rfl⟩
    · split at h
      · cases h
      · have e := (Except.ok.inj h).symm
        rw [e]
        exact ⟨⟨rfl, rfl, rfl, rfl, rfl⟩, rfl⟩
  | some content =>
    simp only [] at h
    split at h
    · have e := (Except.ok.inj h).symm
      rw [e]
      exact ⟨⟨rfl, rfl, rfl, rfl, rfl⟩, rfl⟩
    · have e := (Except.ok.inj h).symm
      rw [e]
      exact ⟨⟨rfl, rfl, rfl, rfl, rfl⟩, rfl⟩

theorem rotate_nonzero (s : State) (c u : Int) (h : rotate s = .ok (c, u)) :
    s.pboCount ≠ 0 := by
  intro hz
  unfold rotate cRem at h
  rw [if_pos hz] at h
  cases h

theorem displayCB_sized (env : TickEnv) (s s1 : State)
    (h : displayCB env s = .ok s1) (hs : Sized s) : Sized s1 := by
  by_cases hm : s.pboMethod = .NONE
  · unfold displayCB at h
    rw [if_pos hm] at h
    cases hd : directPath s with
    | error e =>
      rw [hd] at h
      cases h
    | ok t =>
      rw [hd] at h
      have e : printTransferRate env.elapsedTime t = s1 := Except.ok.inj h
      have st := steady_trans (directPath_steady s t hd)
        (printTransferRate_steady env.elapsedTime t)
      rw [e] at st
      exact sized_of_eq hs st.1.count_kept st.1.ids_kept st.1.slots_kept st.2
  · cases hr : rotate s with
    | error e =>
      unfold displayCB at h
      rw [if_neg hm, hr] at h
      cases h
    | ok idx =>
      obtain ⟨c, u⟩ := idx
      have hnz := rotate_nonzero s c u hr
      have hc := hs.count_len
      have hfew := hs.few
      have hlo := hs.idx_lo
      have hhi := hs.idx_hi
      have hrot := rotate_spec s (by omega) (by omega) hlo (by omega)
      rw [hr] at hrot
      have ec : c = (s.copyIdx + 1) % s.pboCount := (Prod.mk.inj (Except.ok.inj hrot)).1
      have hpos : (0 : Int) < s.pboCount := by omega
      have hc0 : 0 ≤ c := by rw [ec]; exact Int.emod_nonneg _ (by omega)
      have hc1 : c < s.pboCount := by rw [ec]; exact Int.emod_lt_of_pos _ hpos
      have fin : ∀ t : State, Steady { s with copyIdx := c } t → Sized t := by
        intro t st
        refine ⟨?_, ?_, ?_, ?_, ?_⟩
        · rw [st.1.count_kept, st.1.ids_kept]; exact hc
        · rw [st.1.slots_kept, st.1.ids_kept]; exact hs.slots_len
        · rw [st.1.ids_kept]; exact hfew
        · rw [st.2]; exact hc0
        · rw [st.2]
          show c ≤ 8
          omega
      cases hu : uploadPhase env u { s with copyIdx := c } with
      | error e =>
        unfold displayCB at h
        rw [if_neg hm, hr] at h
        simp only [bind, Except.bind] at h
        rw [hu] at h
        cases h
      | ok r =>
        obtain ⟨b, t⟩ := r
        have st := uploadPhase_steady env u _ b t hu
        rw [displayCB_buffered env s c u b t hm hr hu] at h
        cases b with
        | false =>
          have e : t = s1 := Except.ok.inj h
          rw [← e]
          exact fin t st
        | true =>
          rw [if_pos rfl] at h
          cases h2 : storeFence u t with
          | error e =>
            rw [h2] at h
            cases h
          | ok t2 =>
            rw [h2] at h
            simp only [Except.bind] at h
            cases h3 : copyPhase c t2 with
            | error e =>
              rw [h3] at h
              cases h
            | ok t3 =>
              rw [h3] at h
              have e : printTransferRate env.elapsedTime t3 = s1 := Except.ok.inj h
              rw [← e]
              exact fin _ (steady_trans st (steady_trans (storeFence_steady u t t2 h2)
                (steady_trans (copyPhase_steady c t2 t3 h3)
                  (printTransferRate_steady env.elapsedTime t3))))

theorem step_sized (s s1 : State) (i : Input) (h : step s i = .ok s1) (hs : Sized s) :
    Sized s1 := by
  cases i with
  | key env k => exact keyboardCB_sized env k s s1 h hs
  | tick env => exact displayCB_sized env s s1 h hs

theorem run_sized : ∀ (l : List Input) (s s1 : State), run s l = .ok s1 → Sized s → Sized s1
  | [], s, s1, h, hs => by
    have e : s = s1 := Except.ok.inj h
    rw [← e]
    exact hs
  | i :: rest, s, s1, h, hs => by
    unfold run at h
    cases hst : step s i with
    | error e =>
      rw [hst] at h
      cases h
    | ok t =>
      rw [hst] at h
      exact run_sized rest t s1 h (step_sized s t i hst hs)

theorem sized_indices (s : State) (hs : Sized s) (h1 : 1 ≤ s.pboCount) :
    ∃ (c u : Int) (idu idc : Nat) (fu : Option Nat), rotate s = .ok (c, u) ∧
      c = (s.copyIdx + 1) % s.pboCount ∧ u = (c + 1) % s.pboCount ∧
      0 ≤ c ∧ c < s.pboCount ∧ 0 ≤ u ∧ u < s.pboCount ∧
      vecAt s.pboIds u = .ok idu ∧ vecAt s.pboIds c = .ok idc ∧
      vecAt s.pboFences u = .ok fu := by
  have hc := hs.count_len
  have hfew := hs.few
  have hhi := hs.idx_hi
  obtain ⟨c, u, idu, idc, hrot, hc0, hcl, hu0, hul, hid, _, hidc⟩ :=
    rotate_ready s h1 (by omega) hc hs.idx_lo (by omega)
  have hspec := rotate_spec s h1 (by omega) hs.idx_lo (by omega)
  rw [hrot] at hspec
  obtain ⟨e1, e2⟩ := Prod.mk.inj (Except.ok.inj hspec)
  obtain ⟨fu, hfu, _⟩ := vecAt_total s.pboFences u hu0 (by rw [hs.slots_len]; exact hul)
  refine ⟨c, u, idu, idc, fu, hrot, e1, ?_, hc0, by omega, hu0, by omega, hid, hidc, hfu⟩
  rw [e2, e1]

theorem createPinnedPbo_bufferDataFails (env : GrowEnv) (i : Int) (s : State)
    (hg : s.glError = false) (he : env i.toNat = .bufferDataFails)
    (ha : alignmentCheck s.systemPageSize = true) :
    ∃ s1, createPinnedPbo env i s = .ok (false, s1) ∧ s1.glError = false := by
  simp [createPinnedPbo, assertNoError, alignedMalloc, alignedFree, hg, ha, he, bind,
    Except.bind, pure, Except.pure]

theorem createPinnedLoop_total (env : GrowEnv) : ∀ (k : Nat) (i : Int) (s : State),
    VecOk s → alignmentCheck s.systemPageSize = true →
    ∃ s1, createPinnedLoop env k i s = .ok s1 ∧ s1.glError = false
  | 0, _, s, h, _ => ⟨s, rfl, h.no_error⟩
  | k + 1, i, s, h, ha => by
    cases he : env i.toNat with
    | ok =>
      obtain ⟨s1, c0, c1, _, _, _, _, c6, _⟩ := createPinnedPbo_spec env i s h he ha
      obtain ⟨s2, g0, g1⟩ := createPinnedLoop_total env k (i + 1) s1 c1 (by rw [c6]; exact ha)
      refine ⟨s2, ?_, g1⟩
      unfold createPinnedLoop
      rw [c0]
      exact g0
    | allocFails =>
      obtain ⟨s1, c0, c1, _⟩ := createPinnedPbo_allocFails env i s h.no_error he ha
      refine ⟨s1, ?_, c1⟩
      unfold createPinnedLoop
      rw [c0]
      rfl
    | bufferDataFails =>
      obtain ⟨s1, c0, c1⟩ := createPinnedPbo_bufferDataFails env i s h.no_error he ha
      refine ⟨s1, ?_, c1⟩
      unfold createPinnedLoop
      rw [c0]
      rfl

theorem setPboCount_total (env : GrowEnv) (n : Int) (s : State) (hn : 0 ≤ n)
    (hp : PoolOk s)
    (hshrink : s.pboMethod = .AMD → n < s.pboCount → PinnedOk s)
    (hgrow : s.pboMethod = .AMD → s.pboCount < n →
      alignmentCheck s.systemPageSize = true) :
    ∃ s1, setPboCount env n s = .ok s1 := by
  by_cases hs : s.pboSupported = true
  · by_cases hg : s.pboMethod = .AMD ∧ s.pboCount < n
    · obtain ⟨t, g0, g1⟩ := createPinnedLoop_total env (n - s.pboCount).toNat s.pboCount s
        hp.vec (hgrow hg.1 hg.2)
      have hcl : closeBranch t = .ok { t with pboCount := (t.pboIds.length : Int) } := by
        unfold closeBranch assertNoError
        rw [if_neg (by simp [g1])]
      refine ⟨
        { t with
          pboCount := (t.pboIds.length : Int)
          log := t.log ++ [.pboCountLine (t.pboIds.length : Int)] }, ?_⟩
      unfold setPboCount
      have e : (!s.pboSupported) = false := by simp [hs]
      rw [e]
      simp only [Bool.false_eq_true, if_false, bind, Except.bind]
      rw [if_pos (by omega), if_neg (not_not.mpr hg.1), g0]
      simp only []
      rw [hcl]
      rfl
    · obtain ⟨s1, p0, _⟩ := setPboCount_spec env n.toNat s hs hp
        (fun h hl => hshrink h (by rw [Int.toNat_of_nonneg hn] at hl; exact hl))
        (fun h hl => absurd ⟨h, by rw [Int.toNat_of_nonneg hn] at hl; exact hl⟩ hg)
      rw [Int.toNat_of_nonneg hn] at p0
      exact ⟨s1, p0⟩
  · have hs2 : s.pboSupported = false := by simpa using hs
    exact ⟨s, setPboCount_unsupported env n s hs2⟩

theorem keyboardCB_meter_of_ok (env : GrowEnv) (key : Nat) (s s1 : State)
    (h : keyboardCB env key s = .ok s1) :
    (key = 32 ∨ (48 ≤ key ∧ key ≤ 57) →
      s1.rateDiscarded = 3 ∧ s1.rateCount = 0 ∧ s1.transferRateSum = 0 ∧
      s1.frameRateSum = 0) ∧
    (¬ (key = 32 ∨ (48 ≤ key ∧ key ≤ 57)) → SameMeter s s1) := by
  by_cases k27 : key = 27
  · subst k27
    rw [keyboardCB_escape] at h
    cases hx : setPboCount env 0 { s with imageData := none, texture := [] } with
    | error e =>
      rw [hx] at h
      cases h
    | ok t =>
      rw [hx] at h
      have e : s1 = { t with exited := true } := (Except.ok.inj h).symm
      have hm := (setPboCount_trace env 0 _ t hx).1
      refine ⟨fun hk => by omega, fun _ => ?_⟩
      rw [e]
      exact ⟨hm.1, hm.2, hm.3, hm.4⟩
  · by_cases k32 : key = 32
    · subst k32
      rw [keyboardCB_space] at h
      cases hx : setPboCount env 1
          { s with
            pboMethod :=
              methodOfNat ((methodToNat s.pboMethod + 1) % (if s.amdSupported then 5 else 4))
            log := s.log ++ [.pboMethodLine
              (methodOfNat
                ((methodToNat s.pboMethod + 1) % (if s.amdSupported then 5 else 4)))] } with
      | error e =>
        rw [hx] at h
        cases h
      | ok t =>
        rw [hx] at h
        have e : s1 = resetTransferRate t := (Except.ok.inj h).symm
        refine ⟨fun _ => ?_, fun hk => absurd (Or.inl rfl) hk⟩
        rw [e]
        exact ⟨rfl, rfl, rfl, rfl⟩
    · by_cases kd : key = 100 ∨ key = 68
      · rw [keyboardCB_draw env key s kd] at h
        have e : s1 = { s with drawMode := Int.tmod (wrapInt (s.drawMode + 1)) 3 } :=
          (Except.ok.inj h).symm
        refine ⟨fun hk => by omega, fun _ => ?_⟩
        rw [e]
        exact ⟨rfl, rfl, rfl, rfl⟩
      · by_cases kn : 48 ≤ key ∧ key ≤ 57
        · rw [keyboardCB_digit env key s kn] at h
          cases hx : setPboCount env ((key : Int) - 48) s with
          | error e =>
            rw [hx] at h
            cases h
          | ok t =>
            rw [hx] at h
            have e : s1 = resetTransferRate t := (Except.ok.inj h).symm
            refine ⟨fun _ => ?_, fun hk => absurd (Or.inr kn) hk⟩
            rw [e]
            exact ⟨rfl, rfl, rfl, rfl⟩
        · rw [keyboardCB_other env key s k27 k32 kd kn] at h
          have e : s1 = s := (Except.ok.inj h).symm
          refine ⟨fun hk => ?_, fun _ => ?_⟩
          · rcases hk with hk | hk
            · exact absurd hk k32
            · exact absurd hk kn
          · rw [e]
            exact sameMeter_refl s

theorem keyboardCB_returns (env : GrowEnv) (key : Nat) (s : State) (hp : PoolOk s)
    (hesc : key = 27 → s.pboMethod = .AMD → 0 < s.pboCount → PinnedOk s)
    (hspace : key = 32 →
      methodOfNat ((methodToNat s.pboMethod + 1) % (if s.amdSupported then 5 else 4)) = .AMD →
      (1 < s.pboCount → PinnedOk s) ∧
      (s.pboCount < 1 → alignmentCheck s.systemPageSize = true))
    (hdigit : 48 ≤ key → key ≤ 57 → s.pboMethod = .AMD →
      ((key : Int) - 48 < s.pboCount → PinnedOk s) ∧
      (s.pboCount < (key : Int) - 48 → alignmentCheck s.systemPageSize = true)) :
    ∃ s1, keyboardCB env key s = .ok s1 := by
  by_cases k27 : key = 27
  · subst k27
    obtain ⟨t, t0⟩ := setPboCount_total env 0 { s with imageData := none, texture := [] }
      (le_refl _) ⟨hp.count_eq, vecOk_of_eq hp.vec rfl rfl rfl rfl rfl rfl rfl⟩
      (fun h hl => pinnedOk_of_eq (hesc rfl h hl) rfl rfl rfl rfl)
      (fun _ hl => by
        have h0 : s.pboCount < 0 := hl
        have := hp.count_eq
        omega)
    refine ⟨{ t with exited := true }, ?_⟩
    rw [keyboardCB_escape, t0]
    rfl
  · by_cases k32 : key = 32
    · subst k32
      obtain ⟨t, t0⟩ := setPboCount_total env 1
        { s with
          pboMethod :=
            methodOfNat ((methodToNat s.pboMethod + 1) % (if s.amdSupported then 5 else 4))
          log := s.log ++ [.pboMethodLine
            (methodOfNat ((methodToNat s.pboMethod + 1) % (if s.amdSupported then 5 else 4)))] }
        (by decide) ⟨hp.count_eq, vecOk_of_eq hp.vec rfl rfl rfl rfl rfl rfl rfl⟩
        (fun h hl => pinnedOk_of_eq ((hspace rfl h).1 hl) rfl rfl rfl rfl)
        (fun h hl => (hspace rfl h).2 hl)
      refine ⟨resetTransferRate t, ?_⟩
      rw [keyboardCB_space, t0]
      rfl
    · by_cases kd : key = 100 ∨ key = 68
      · exact ⟨_, keyboardCB_draw env key s kd⟩
      · by_cases kn : 48 ≤ key ∧ key ≤ 57
        · obtain ⟨t, t0⟩ := setPboCount_total env ((key : Int) - 48) s (by omega) hp
            (fun h hl => (hdigit kn.1 kn.2 h).1 hl) (fun h hl => (hdigit kn.1 kn.2 h).2 hl)
          refine ⟨resetTransferRate t, ?_⟩
          rw [keyboardCB_digit env key s kn, t0]
          rfl
        · exact ⟨s, keyboardCB_other env key s k27 k32 kd kn⟩

theorem fencedPool_poolOk : PoolOk fencedPool := by
  refine ⟨rfl, ⟨rfl, by decide, ?_, ?_, rfl, fencedPool_fenceRel⟩⟩
  · intro id hid
    have : id = 1 := by simpa [fencedPool] using hid
    show id < 2
    omega
  · intro id hid
    have : id = 1 := by simpa [fencedPool] using hid
    subst this
    rfl

/-! ## Claims -/

/-- C1, as stated, fails: without buffer-object support `setPboCount(3)` leaves the
pool at 0 buffers, and under `AMD` a failing host allocation leaves a pool of 1
buffer at 1 buffer after `setPboCount(3)`. -/
theorem C1_counterexample :
    (setPboCount allOk 3 (initState false false 4096)).toOption.map
        (fun s => (s.pboCount, s.pboIds.length)) = some (0, 0) ∧
    ((run (initState true true 4096)
        [.key allOk 32, .key allOk 32, .key allOk 32, .key allOk 48, .key allOk 32]).bind
      (setPboCount (fun _ => .allocFails) 3)).toOption.map
        (fun s => (s.pboMethod, s.pboCount, s.pboIds.length)) = some (.AMD, 1, 1) := by
  constructor
  · rfl
  · rfl

/-- C1, amended: with buffer objects supported, on a consistent pool, and under
`AMD` with one live host block per buffer when shrinking and no allocation or
device failure when growing, `setPboCount(n)` returns with exactly `n` buffers
(`pboCount = n`, `pboIds` has `n` entries), each with a data store of `DATA_SIZE`
bytes. -/
theorem C1_setPboCount_exact (env : GrowEnv) (n : Nat) (s : State)
    (hs : s.pboSupported = true) (hp : PoolOk s)
    (hshrink : s.pboMethod = .AMD → (n : Int) < s.pboCount → PinnedOk s)
    (hgrow : s.pboMethod = .AMD → s.pboCount < (n : Int) →
      alignmentCheck s.systemPageSize = true ∧ ∀ j, env j = .ok) :
    ∃ s1, setPboCount env n s = .ok s1 ∧ s1.pboCount = (n : Int) ∧ s1.pboIds.length = n ∧
      ∀ id ∈ s1.pboIds, capacityOf s1 id = some DATA_SIZE := by
  obtain ⟨s1, h0, h1, h2, h3, _⟩ := setPboCount_spec env n s hs hp hshrink hgrow
  exact ⟨s1, h0, h2, h3, h1.vec.capacity⟩

/-- Witness of C1: three buffers requested on the empty pool at start-up. -/
theorem C1_setPboCount_exact_witness :
    (initState true true 4096).pboSupported = true ∧ PoolOk (initState true true 4096) ∧
    ∃ s1, setPboCount allOk ((3 : Nat) : Int) (initState true true 4096) = .ok s1 ∧
      s1.pboCount = ((3 : Nat) : Int) ∧ s1.pboIds.length = 3 ∧
      ∀ id ∈ s1.pboIds, capacityOf s1 id = some DATA_SIZE :=
  ⟨rfl, initState_poolOk true true 4096,
    C1_setPboCount_exact allOk 3 (initState true true 4096) rfl (initState_poolOk true true 4096)
      (fun h => absurd h (by decide)) (fun h => absurd h (by decide))⟩

/-- C2: on the buffered path with a pool of `n >= 1` buffers and a prior `copyIdx`
in `0 .. INT_MAX - 1`, `displayCB` returns with `copyIdx = (old copyIdx + 1) mod n`,
and the `uploadIdx` it uses is `(copyIdx + 1) mod n` when `n > 1` and `copyIdx`
when `n = 1`. -/
theorem C2_rotation (env : TickEnv) (s : State) (n : Nat)
    (hm : s.pboMethod ≠ .NONE) (hn : 1 ≤ n) (hmax : n ≤ 2147483647)
    (hc : s.pboCount = (n : Int)) (hids : s.pboIds.length = n)
    (hfl : s.pboFences.length = n) (hp : s.pboMethod = .AMD → PinnedOk s)
    (h0 : 0 ≤ s.copyIdx) (h1 : s.copyIdx < 2147483647) :
    ∃ c u s1, rotate s = .ok (c, u) ∧ displayCB env s = .ok s1 ∧ s1.copyIdx = c ∧
      c = (s.copyIdx + 1) % (n : Int) ∧
      (1 < n → u = (c + 1) % (n : Int)) ∧ (n = 1 → u = c) := by
  obtain ⟨s1, k0, k1, k2, _⟩ := displayCB_copyIdx env s hm (by omega) (by omega)
    (by rw [hc, hids]) (by rw [hfl, hids]) h0 h1 hp
  rw [hc] at k0 k2
  refine ⟨_, _, s1, k0, k1, k2, rfl, fun _ => rfl, fun h => ?_⟩
  subst h
  omega

/-- Witness of C2: three buffers under `ORPHAN`, `copyIdx = 7` left from a larger pool. -/
theorem C2_rotation_witness :
    leftoverPool.pboMethod ≠ .NONE ∧ leftoverPool.pboCount = ((3 : Nat) : Int) ∧
    0 ≤ leftoverPool.copyIdx ∧
    ∃ c u s1, rotate leftoverPool = .ok (c, u) ∧ displayCB calmTick leftoverPool = .ok s1 ∧
      s1.copyIdx = c ∧ c = (leftoverPool.copyIdx + 1) % ((3 : Nat) : Int) ∧
      (1 < 3 → u = (c + 1) % ((3 : Nat) : Int)) ∧ (3 = 1 → u = c) :=
  ⟨by decide, rfl, by decide,
    C2_rotation calmTick leftoverPool 3 (by decide) (by decide) (by decide) rfl rfl rfl
      (fun h => absurd h (by decide)) (by decide) (by decide)⟩

/-- C3: under `UNSYNCH_FENCES` and `AMD`, for every wait outcome, the events of a
frame start with the wait on and the deletion of the fence held by slot
`uploadIdx`; the producer writes only that slot and only afterwards; a new fence
is stored only into that slot and only when it holds `NULL`; and afterwards the
live fences are again exactly the non-null slots, each held by one slot. -/
theorem C3_fence_discipline (env : TickEnv) (s : State)
    (hm : s.pboMethod = .UNSYNCH_FENCES ∨ s.pboMethod = .AMD)
    (h1 : 1 ≤ s.pboCount) (h2 : s.pboCount ≤ 2147483647)
    (hc : s.pboCount = (s.pboIds.length : Int)) (hfl : s.pboFences.length = s.pboIds.length)
    (h3 : 0 ≤ s.copyIdx) (h4 : s.copyIdx < 2147483647)
    (hp : s.pboMethod = .AMD → PinnedOk s)
    (hr : FenceRel s.glSyncs s.pboFences s.nextSync) :
    ∃ c u s1 rest, rotate s = .ok (c, u) ∧ displayCB env s = .ok s1 ∧
      s1.events = s.events ++ claimEvents env s u ++ rest ∧
      (∀ slot, Event.producerWrite slot ∈ rest → slot = u.toNat) ∧
      (∀ f slot prev, Event.fenceSync f slot prev ∈ rest → slot = u.toNat ∧ prev = none) ∧
      FenceRel s1.glSyncs s1.pboFences s1.nextSync :=
  displayCB_fence_tick env s hm h1 h2 hc hfl h3 h4 hp hr

/-- Witness of C3: one buffer under `UNSYNCH_FENCES` whose slot holds a live fence. -/
theorem C3_fence_discipline_witness :
    (fencedPool.pboMethod = .UNSYNCH_FENCES ∨ fencedPool.pboMethod = .AMD) ∧
    FenceRel fencedPool.glSyncs fencedPool.pboFences fencedPool.nextSync ∧
    ∃ c u s1 rest, rotate fencedPool = .ok (c, u) ∧ displayCB calmTick fencedPool = .ok s1 ∧
      s1.events = fencedPool.events ++ claimEvents calmTick fencedPool u ++ rest ∧
      (∀ slot, Event.producerWrite slot ∈ rest → slot = u.toNat) ∧
      (∀ f slot prev, Event.fenceSync f slot prev ∈ rest → slot = u.toNat ∧ prev = none) ∧
      FenceRel s1.glSyncs s1.pboFences s1.nextSync :=
  ⟨Or.inl rfl, fencedPool_fenceRel,
    C3_fence_discipline calmTick fencedPool (Or.inl rfl) (by decide) (by decide) rfl rfl
      (by decide) (by decide) (fun h => absurd h (by decide))
      (fencedPool_fenceRel)⟩

/-- C4 (code defect): in a frame under `UNSYNCH_FENCES`, and in one under `AMD`, the
call `glFenceSync` that fills slot `uploadIdx` is made before the frame's
`glTexSubImage2D` copy command, not after it. -/
theorem C4_fence_created_before_copy :
    (run (initState true true 4096)
        [.key allOk 32, .key allOk 32, .key allOk 32, .tick calmTick]).toOption.map
      (fun s => s.events) =
      some [.genBuffer 1, .bufferData 1 DATA_SIZE none,
        .mapBuffer 0 1 true, .producerWrite 0, .unmapBuffer 0 1 true,
        .fenceSync 1 0 none, .texSubImageBuffer 0 1] ∧
    (run (initState true true 4096)
        [.key allOk 32, .key allOk 32, .key allOk 32, .key allOk 48, .key allOk 32,
          .tick calmTick]).toOption.map
      (fun s => s.events) =
      some [.genBuffer 1, .bufferData 1 DATA_SIZE none, .deleteBuffer 1,
        .genBuffer 2, .alignedMalloc 1, .bufferData 2 DATA_SIZE (some 1),
        .producerWrite 0, .fenceSync 1 0 none, .texSubImageBuffer 0 2] := by
  constructor
  · rfl
  · rfl

/-- C5 (code defect): with two buffers under `UNSYNCH_FENCES`, the third frame
writes slot 0 after waiting on fence 1, which was created in the first frame,
before the copy command of the second frame that reads slot 0. -/
theorem C5_awaited_fence_older_than_copy :
    (run (initState true true 4096)
        [.key allOk 32, .key allOk 32, .key allOk 32, .key allOk 50,
          .tick calmTick, .tick calmTick, .tick calmTick]).toOption.map
      (fun s => s.events) =
      some [.genBuffer 1, .bufferData 1 DATA_SIZE none,
        .genBuffer 2, .bufferData 2 DATA_SIZE none,
        .mapBuffer 0 1 true, .producerWrite 0, .unmapBuffer 0 1 true,
        .fenceSync 1 0 none, .texSubImageBuffer 1 2,
        .mapBuffer 1 2 true, .producerWrite 1, .unmapBuffer 1 2 true,
        .fenceSync 2 1 none, .texSubImageBuffer 0 1,
        .clientWaitSync 1 .ALREADY_SIGNALED, .deleteSync 1,
        .mapBuffer 0 1 true, .producerWrite 0, .unmapBuffer 0 1 true,
        .fenceSync 3 0 none, .texSubImageBuffer 1 2] := by
  rfl

/-- C6 (code defect): after the space key (method `ORPHAN`) and the key `0`, the pool
and the fence list are empty, and the next `displayCB` takes the buffered path
and divides by `pboCount = 0`. -/
theorem C6_empty_pool_division_by_zero :
    (run (initState true true 4096) [.key allOk 32, .key allOk 48]).toOption.map
      (fun s => (s.pboMethod, s.pboCount, s.pboIds, s.pboFences)) =
      some (.ORPHAN, 0, [], []) ∧
    run (initState true true 4096) [.key allOk 32, .key allOk 48, .tick calmTick] =
      .error .divisionByZero := by
  constructor
  · rfl
  · rfl

/-- C7, as stated, fails: `setPboCount(0)` on the empty pool writes the line
`PBO Count: 0`. -/
theorem C7_counterexample :
    (initState true true 4096).pboCount = 0 ∧ (initState true true 4096).log = [] ∧
    (setPboCount allOk 0 (initState true true 4096)).toOption.map (fun s => s.log) =
      some [.pboCountLine 0] := by
  refine ⟨rfl, rfl, ?_⟩
  rfl

/-- C7, amended: `setPboCount(n)` on a pool that already holds `n` buffers creates
and destroys nothing and leaves the state unchanged, except that with buffer
objects supported it writes the one line `PBO Count: n`. -/
theorem C7_same_count (env : GrowEnv) (s : State) :
    setPboCount env s.pboCount s =
      .ok (if s.pboSupported then { s with log := s.log ++ [.pboCountLine s.pboCount] }
        else s) := by
  by_cases hs : s.pboSupported = true
  · rw [if_pos hs]
    unfold setPboCount
    rw [if_neg (by simp [hs]), if_neg (lt_irrefl _), if_neg (lt_irrefl _)]
    rfl
  · rw [if_neg hs]
    unfold setPboCount
    rw [if_pos (by simpa using hs)]

/-- C8: after `resetTransferRate`, as long as at most 3 windows have rolled over
`rateCount`, `transferRateSum` and `frameRateSum` keep their reset value 0, and
after `k` rollovers (`k` within the range of `int`) `rateCount = max(0, k - 3)`,
so that the 4th rollover is the first to add a sample. -/
theorem C8_warmup (s : State) (ts : List ℚ) (hk : rollovers ts ≤ 2147483650) :
    (rollovers ts ≤ 3 →
      (meterRun (resetTransferRate s) ts).rateCount = 0 ∧
      (meterRun (resetTransferRate s) ts).transferRateSum = 0 ∧
      (meterRun (resetTransferRate s) ts).frameRateSum = 0) ∧
    (meterRun (resetTransferRate s) ts).rateCount = max 0 ((rollovers ts : Int) - 3) := by
  obtain ⟨_, h2, h3⟩ := meterRun_spec ts (resetTransferRate s) 3 rfl (by omega)
  refine ⟨fun h => ?_, ?_⟩
  · simpa [resetTransferRate] using h3 h
  · have := h2 (by simp [resetTransferRate]) (by simp [resetTransferRate]; omega)
    rw [this]
    simp [resetTransferRate]
    omega

/-- Witness of C8: two rollovers leave the sums at 0, five rollovers give 2 samples. -/
theorem C8_warmup_witness :
    rollovers [0, 1, 2, 0] ≤ 2147483650 ∧ rollovers [0, 1, 2, 0] ≤ 3 ∧
    ((meterRun (resetTransferRate (initState true true 4096)) [0, 1, 2, 0]).rateCount = 0 ∧
      (meterRun (resetTransferRate (initState true true 4096)) [0, 1, 2, 0]).transferRateSum = 0 ∧
      (meterRun (resetTransferRate (initState true true 4096)) [0, 1, 2, 0]).frameRateSum = 0) ∧
    (meterRun (resetTransferRate (initState true true 4096)) [1, 1, 0, 1, 1, 1]).rateCount =
      max 0 ((rollovers [1, 1, 0, 1, 1, 1] : Int) - 3) :=
  ⟨by simp [rollovers], by simp [rollovers],
    (C8_warmup (initState true true 4096) [0, 1, 2, 0] (by simp [rollovers])).1
      (by simp [rollovers]),
    (C8_warmup (initState true true 4096) [1, 1, 0, 1, 1, 1] (by simp [rollovers])).2⟩

/-- C9: under `NONE`, starting with the pattern counter at 0 and a non-null
`imageData`, the `k`-th frame (from 0) hands to `glTexSubImage2D` the host array
in which every pixel of row `i` holds `(k*(257*IMAGE_HEIGHT + 1) + 257*i) mod 2^32`,
and leaves the counter at `(k+1)*(257*IMAGE_HEIGHT + 1) mod 2^32`. -/
theorem C9_direct_frame (s : State) (envs : Nat → TickEnv) (k : Nat)
    (hm : s.pboMethod = .NONE) (hc : s.color = 0) (hi : s.imageData.isSome = true) :
    ∃ s1 img, run s (ticks envs (k + 1)) = .ok s1 ∧
      s1.events.getLast? = some (.texSubImageHost (some img)) ∧
      s1.imageData = some img ∧
      img.length = IMAGE_WIDTH * IMAGE_HEIGHT ∧
      (∀ i j, i < IMAGE_HEIGHT → j < IMAGE_WIDTH →
        img[i * IMAGE_WIDTH + j]? =
          some ((k * (257 * IMAGE_HEIGHT + 1) + 257 * i) % 4294967296)) ∧
      s1.color = ((k + 1) * (257 * IMAGE_HEIGHT + 1)) % 4294967296 := by
  have key : ∀ n, ∃ s0 old, run s (ticks envs n) = .ok s0 ∧ s0.pboMethod = .NONE ∧
      s0.color = frameColor n ∧ s0.imageData = some old := by
    intro n
    induction n with
    | zero =>
      obtain ⟨old, ho⟩ := Option.isSome_iff_exists.mp hi
      exact ⟨s, old, rfl, hm, by simp [hc, frameColor, wrapColor], ho⟩
    | succ n ih =>
      obtain ⟨s0, old, h0, h1, h2, h3⟩ := ih
      obtain ⟨s1, img, g0, g1, g2, g3, _⟩ := displayCB_direct (envs n) s0 n old h1 h2 h3
      refine ⟨s1, img, ?_, g1, g2, g3⟩
      rw [ticks_succ, run_append, h0]
      simp [Except.bind, run, step, g0]
  obtain ⟨s0, old, h0, h1, h2, h3⟩ := key k
  obtain ⟨s1, img, g0, _, g2, g3, g4, g5, g6⟩ := displayCB_direct (envs k) s0 k old h1 h2 h3
  refine ⟨s1, img, ?_, g4, g3, g5, g6, g2⟩
  rw [ticks_succ, run_append, h0]
  simp [Except.bind, run, step, g0]

/-- Witness of C9: the third frame after start-up. -/
theorem C9_direct_frame_witness :
    (initState true true 4096).pboMethod = .NONE ∧ (initState true true 4096).color = 0 ∧
    ∃ s1 img, run (initState true true 4096) (ticks (fun _ => calmTick) (2 + 1)) = .ok s1 ∧
      s1.events.getLast? = some (.texSubImageHost (some img)) ∧
      s1.imageData = some img ∧
      img.length = IMAGE_WIDTH * IMAGE_HEIGHT ∧
      (∀ i j, i < IMAGE_HEIGHT → j < IMAGE_WIDTH →
        img[i * IMAGE_WIDTH + j]? =
          some ((2 * (257 * IMAGE_HEIGHT + 1) + 257 * i) % 4294967296)) ∧
      s1.color = ((2 + 1) * (257 * IMAGE_HEIGHT + 1)) % 4294967296 :=
  ⟨rfl, rfl, C9_direct_frame (initState true true 4096) (fun _ => calmTick) 2 rfl rfl rfl⟩

/-- C10 (code defect): the scenario of the claim (keys `1 3`, space, `1 3`, space,
space, `1 3`, space) ends in `back()` on the empty vector `alignedBuffers` when
the switch to `AMD` shrinks the pool; and a run that builds three pinned buffers,
leaves `AMD` and exits has 3 host blocks allocated, 0 freed and all 3 still
live, while 6 device buffers were created and 6 deleted. -/
theorem C10_pinned_blocks_leak :
    run (initState true true 4096)
      [.key allOk 49, .key allOk 51, .key allOk 32, .key allOk 49, .key allOk 51,
        .key allOk 32, .key allOk 32, .key allOk 49, .key allOk 51, .key allOk 32] =
      .error .emptyVector ∧
    (run (initState true true 4096)
      [.key allOk 32, .key allOk 32, .key allOk 32, .key allOk 48, .key allOk 32,
        .key allOk 49, .key allOk 51, .key allOk 32, .key allOk 49, .key allOk 51,
        .key allOk 27]).toOption.map
      (fun s => (s.pboCount, s.glBuffers.length, s.alignedBuffers, s.hostMem.map Prod.fst,
        (s.events.filter fun e => match e with | .alignedMalloc _ => true | _ => false).length,
        (s.events.filter fun e => match e with | .alignedFree _ => true | _ => false).length,
        (s.events.filter fun e => match e with | .genBuffer _ => true | _ => false).length,
        (s.events.filter fun e => match e with | .deleteBuffer _ => true | _ => false).length)) =
      some (0, 0, [1, 2, 3], [1, 2, 3], 3, 0, 6, 6) := by
  constructor
  · rfl
  · rfl

/-- Counterexample to C11 as stated: a pool of two buffers under `UNSYNCH_FENCES`
run for five frames keeps two buffers but calls `glFenceSync` five times; the
fences 1, 2 and 3 were deleted on the way and the live ones are 4 and 5. -/
theorem C11_counterexample :
    (run (initState true true 4096)
        [.key allOk 32, .key allOk 32, .key allOk 32, .key allOk 50,
          .tick calmTick, .tick calmTick, .tick calmTick, .tick calmTick,
          .tick calmTick]).toOption.map
      (fun s => (s.pboMethod, s.pboCount, s.pboIds, fencesCreated s.events, s.glSyncs)) =
      some (.UNSYNCH_FENCES, 2, [1, 2], 5, [4, 5]) := by
  rfl

/-- C11 (amended): with a pool of `n >= 1` buffers under `UNSYNCH_FENCES`, any
number `k` of frames runs without fault and keeps the pool at `n` buffers with
the same names and `n` fence slots, and at most `n` fences are alive afterwards;
but every frame whose map call succeeds calls `glFenceSync` once and receives a
sync object never used before, so the number of fences created is the number of
such frames, not `n`. -/
theorem C11_fence_per_frame (envs : Nat → TickEnv) (k n : Nat) (s : State)
    (hm : s.pboMethod = .UNSYNCH_FENCES) (hn : 1 ≤ n) (hmax : n ≤ 2147483647)
    (hc : s.pboCount = (n : Int)) (hids : s.pboIds.length = n)
    (hfl : s.pboFences.length = n)
    (h0 : 0 ≤ s.copyIdx) (h1 : s.copyIdx < 2147483647)
    (hr : FenceRel s.glSyncs s.pboFences s.nextSync) :
    ∃ s1, run s (ticks envs k) = .ok s1 ∧ s1.pboCount = (n : Int) ∧
      s1.pboIds = s.pboIds ∧ s1.pboFences.length = n ∧ s1.glSyncs.length ≤ n ∧
      fencesCreated s1.events = fencesCreated s.events + mappedFrames envs k ∧
      s1.nextSync = s.nextSync + mappedFrames envs k := by
  obtain ⟨s1, r0, rk, rr, _, _, rf, rn⟩ := fence_run envs k s hm (by omega) (by omega)
    (by rw [hc, hids]) (by rw [hfl, hids]) h0 h1 hr
  refine ⟨s1, r0, by rw [rk.count_kept, hc], rk.ids_kept, by rw [rk.slots_kept, hfl], ?_, rf, rn⟩
  have := fenceRel_length_le rr
  rw [rk.slots_kept, hfl] at this
  exact this

/-- Witness of C11: two buffers under `UNSYNCH_FENCES`, five frames that all map. -/
theorem C11_fence_per_frame_witness :
    pairPool.pboMethod = .UNSYNCH_FENCES ∧ pairPool.pboCount = ((2 : Nat) : Int) ∧
    FenceRel pairPool.glSyncs pairPool.pboFences pairPool.nextSync ∧
    mappedFrames (fun _ => calmTick) 5 = 5 ∧
    ∃ s1, run pairPool (ticks (fun _ => calmTick) 5) = .ok s1 ∧ s1.pboCount = ((2 : Nat) : Int) ∧
      s1.pboIds = pairPool.pboIds ∧ s1.pboFences.length = 2 ∧ s1.glSyncs.length ≤ 2 ∧
      fencesCreated s1.events =
        fencesCreated pairPool.events + mappedFrames (fun _ => calmTick) 5 ∧
      s1.nextSync = pairPool.nextSync + mappedFrames (fun _ => calmTick) 5 :=
  ⟨rfl, rfl, pairPool_fenceRel, by decide,
    C11_fence_per_frame (fun _ => calmTick) 5 2 pairPool rfl (by decide) (by decide) rfl rfl rfl
      (by decide) (by decide) pairPool_fenceRel⟩

/-- C12: when buffer objects are unsupported, `setPboCount(n)` returns normally for
every `n` and leaves the whole state as it was: `pboCount`, `pboIds`, `pboFences`,
`alignedBuffers`, the output and the device error flag included. -/
theorem C12_unsupported_noop (env : GrowEnv) (n : Int) (s : State)
    (h : s.pboSupported = false) : setPboCount env n s = .ok s := by
  unfold setPboCount
  rw [if_pos (by simp [h])]

/-- Witness of C12: the start state of a device without buffer objects, asked for
five buffers. -/
theorem C12_unsupported_noop_witness :
    (initState false false 4096).pboSupported = false ∧
    setPboCount allOk 5 (initState false false 4096) = .ok (initState false false 4096) :=
  ⟨rfl, C12_unsupported_noop allOk 5 (initState false false 4096) rfl⟩

/-- C13: for every key, state and answer of the environment, whenever `keyboardCB`
returns, the meter holds `rateDiscarded = 3`, `rateCount = 0`,
`transferRateSum = 0` and `frameRateSum = 0` after the space key and after a
digit key `0` .. `9`, and the four values are what they were after any other
key. And `keyboardCB` does return on every consistent pool, whatever the
environment answers, unless the `setPboCount` call it makes shrinks a pool under
`AMD` that lacks its host blocks or grows one under `AMD` with a page size that
fails the check of `alignedMalloc`. -/
theorem C13_keys_reset_meter (env : GrowEnv) (key : Nat) (s : State) :
    (∀ s1, keyboardCB env key s = .ok s1 →
      (key = 32 ∨ (48 ≤ key ∧ key ≤ 57) →
        s1.rateDiscarded = 3 ∧ s1.rateCount = 0 ∧ s1.transferRateSum = 0 ∧
        s1.frameRateSum = 0) ∧
      (¬ (key = 32 ∨ (48 ≤ key ∧ key ≤ 57)) →
        s1.rateDiscarded = s.rateDiscarded ∧ s1.rateCount = s.rateCount ∧
        s1.transferRateSum = s.transferRateSum ∧ s1.frameRateSum = s.frameRateSum)) ∧
    (PoolOk s →
      (key = 27 → s.pboMethod = .AMD → 0 < s.pboCount → PinnedOk s) →
      (key = 32 →
        methodOfNat ((methodToNat s.pboMethod + 1) % (if s.amdSupported then 5 else 4)) =
          .AMD →
        (1 < s.pboCount → PinnedOk s) ∧
        (s.pboCount < 1 → alignmentCheck s.systemPageSize = true)) →
      (48 ≤ key → key ≤ 57 → s.pboMethod = .AMD →
        ((key : Int) - 48 < s.pboCount → PinnedOk s) ∧
        (s.pboCount < (key : Int) - 48 → alignmentCheck s.systemPageSize = true)) →
      ∃ s1, keyboardCB env key s = .ok s1) := by
  refine ⟨fun s1 h => ?_, fun hp hesc hspace hdigit =>
    keyboardCB_returns env key s hp hesc hspace hdigit⟩
  obtain ⟨k1, k2⟩ := keyboardCB_meter_of_ok env key s s1 h
  exact ⟨k1, fun hk => ⟨(k2 hk).1, (k2 hk).2, (k2 hk).3, (k2 hk).4⟩⟩

/-- Witness of C13: the space key that switches a pool of one ordinary buffer from
`UNSYNCH_FENCES` to `AMD`, where no host block exists. -/
theorem C13_keys_reset_meter_witness :
    PoolOk fencedPool ∧ fencedPool.alignedBuffers = [] ∧
    (∃ s1, keyboardCB allOk 32 fencedPool = .ok s1) ∧
    ∃ s1, keyboardCB allOk 32 fencedPool = .ok s1 ∧ s1.pboMethod = .AMD ∧
      s1.rateDiscarded = 3 ∧ s1.rateCount = 0 ∧ s1.transferRateSum = 0 ∧
      s1.frameRateSum = 0 :=
  ⟨fencedPool_poolOk, rfl,
    (C13_keys_reset_meter allOk 32 fencedPool).2 fencedPool_poolOk
      (fun h => absurd h (by decide))
      (fun _ _ => ⟨fun h => absurd h (by decide), fun h => absurd h (by decide)⟩)
      (fun h => absurd h (by decide)),
    ⟨_, rfl, rfl, ((C13_keys_reset_meter allOk 32 fencedPool).1 _ rfl).1 (Or.inl rfl)⟩⟩

/-- C14: `setPboCount(m)` on a consistent pool returns with `m` buffers and `m`
fence slots. When `m` is below the old size it keeps the first `m` buffer names
and fence slots as they were and calls `glDeleteBuffers` on exactly the other
buffers, last one first; when `m` is not below the old size it keeps every old
entry in place, appends the new names and slots after them and deletes nothing. -/
theorem C14_resize_keeps_head (env : GrowEnv) (m : Nat) (s : State)
    (hs : s.pboSupported = true) (hp : PoolOk s)
    (hshrink : s.pboMethod = .AMD → (m : Int) < s.pboCount → PinnedOk s)
    (hgrow : s.pboMethod = .AMD → s.pboCount < (m : Int) →
      alignmentCheck s.systemPageSize = true ∧ ∀ j, env j = .ok) :
    ∃ s1, setPboCount env m s = .ok s1 ∧ s1.pboIds.length = m ∧ s1.pboFences.length = m ∧
      (m < s.pboIds.length →
        s1.pboIds = s.pboIds.take m ∧ s1.pboFences = s.pboFences.take m ∧
        deletedIds s1.events = deletedIds s.events ++ (s.pboIds.drop m).reverse) ∧
      (s.pboIds.length ≤ m →
        ∃ fresh slots, s1.pboIds = s.pboIds ++ fresh ∧ s1.pboFences = s.pboFences ++ slots ∧
          fresh.length = m - s.pboIds.length ∧ slots.length = m - s.pboIds.length ∧
          deletedIds s1.events = deletedIds s.events) :=
  resize_shape env m s hs hp hshrink hgrow

/-- Witness of C14: three buffers under `ORPHAN`, shrunk to one. -/
theorem C14_resize_keeps_head_witness :
    leftoverPool.pboSupported = true ∧ PoolOk leftoverPool ∧
    ∃ s1, setPboCount allOk ((1 : Nat) : Int) leftoverPool = .ok s1 ∧ s1.pboIds.length = 1 ∧
      s1.pboFences.length = 1 ∧
      (1 < leftoverPool.pboIds.length →
        s1.pboIds = leftoverPool.pboIds.take 1 ∧ s1.pboFences = leftoverPool.pboFences.take 1 ∧
        deletedIds s1.events =
          deletedIds leftoverPool.events ++ (leftoverPool.pboIds.drop 1).reverse) ∧
      (leftoverPool.pboIds.length ≤ 1 →
        ∃ fresh slots, s1.pboIds = leftoverPool.pboIds ++ fresh ∧
          s1.pboFences = leftoverPool.pboFences ++ slots ∧
          fresh.length = 1 - leftoverPool.pboIds.length ∧
          slots.length = 1 - leftoverPool.pboIds.length ∧
          deletedIds s1.events = deletedIds leftoverPool.events) :=
  ⟨rfl, leftoverPool_poolOk,
    C14_resize_keeps_head allOk 1 leftoverPool rfl leftoverPool_poolOk
      (fun h => absurd h (by decide)) (fun h => absurd h (by decide))⟩

/-- Counterexample to C15 as stated: under `ORPHAN` the frame whose map call fails
has already given the upload buffer a new, empty data store, so the content
written by the previous frame is gone. -/
theorem C15_counterexample :
    (run (initState true true 4096) [.key allOk 32, .tick calmTick]).toOption.map
      (fun s => (s.pboMethod, s.glBuffers.map fun b => (b.id, b.data.isEmpty))) =
      some (.ORPHAN, [(1, false)]) ∧
    (run (initState true true 4096)
        [.key allOk 32, .tick calmTick, .tick failedMapTick]).toOption.map
      (fun s => (s.pboMethod, s.glBuffers.map fun b => (b.id, b.data.isEmpty))) =
      some (.ORPHAN, [(1, true)]) := by
  constructor
  · rfl
  · rfl

/-- C15 (amended): when the map call of a frame under `ORPHAN`, `UNSYNCH_ORPHAN` or
`UNSYNCH_FENCES` returns `NULL`, `displayCB` returns normally, its last output
line is the error line of the map call, the producer is not called (no producer
write is recorded and the pattern counter is unchanged), and the texture is not
touched. The buffer table is unchanged under `UNSYNCH_FENCES` only: under `ORPHAN`
and `UNSYNCH_ORPHAN` the call `glBufferData(..., NULL, ...)` made before the map has
already replaced the data store of the upload buffer, so its previous content is
gone. -/
theorem C15_map_failure (env : TickEnv) (s : State)
    (hm : s.pboMethod = .ORPHAN ∨ s.pboMethod = .UNSYNCH_ORPHAN ∨
      s.pboMethod = .UNSYNCH_FENCES)
    (hmap : env.mapOk = false)
    (h1 : 1 ≤ s.pboCount) (h2 : s.pboCount ≤ 2147483647)
    (hc : s.pboCount = (s.pboIds.length : Int)) (hfl : s.pboFences.length = s.pboIds.length)
    (h3 : 0 ≤ s.copyIdx) (h4 : s.copyIdx < 2147483647)
    (hr : FenceRel s.glSyncs s.pboFences s.nextSync) :
    ∃ c u id s1, rotate s = .ok (c, u) ∧ s.pboIds[u.toNat]? = some id ∧
      displayCB env s = .ok s1 ∧
      s1.log.getLast? = some (mapErrLine s.pboMethod) ∧
      s1.color = s.color ∧
      (∀ slot, Event.producerWrite slot ∈ s1.events → Event.producerWrite slot ∈ s.events) ∧
      s1.texture = s.texture ∧
      s1.glBuffers =
        (if s.pboMethod = .UNSYNCH_FENCES then s.glBuffers
          else s.glBuffers.map (setStore id DATA_SIZE none)) := by
  obtain ⟨c, u, id, s1, q0, q1, q2, q3, q4, _, _, q7, q8, q9, _⟩ :=
    displayCB_mapFail env s hm hmap h1 h2 hc hfl h3 h4 hr
  refine ⟨c, u, id, s1, q0, q1, q2, ?_, q3, ?_, q4, q9⟩
  · rw [q7]
    simp
  · intro slot hs
    rw [q8] at hs
    simp only [List.mem_append, List.mem_singleton] at hs
    rcases hs with (hs | hs) | hs
    · exact hs
    · split at hs
      · exact absurd hs (producerWrite_not_claim env s u slot)
      · simp at hs
    · cases hs

/-- Witness of C15: three buffers under `ORPHAN` in a frame whose map call fails. -/
theorem C15_map_failure_witness :
    (leftoverPool.pboMethod = .ORPHAN ∨ leftoverPool.pboMethod = .UNSYNCH_ORPHAN ∨
      leftoverPool.pboMethod = .UNSYNCH_FENCES) ∧
    failedMapTick.mapOk = false ∧
    FenceRel leftoverPool.glSyncs leftoverPool.pboFences leftoverPool.nextSync ∧
    ∃ c u id s1, rotate leftoverPool = .ok (c, u) ∧ leftoverPool.pboIds[u.toNat]? = some id ∧
      displayCB failedMapTick leftoverPool = .ok s1 ∧
      s1.log.getLast? = some (mapErrLine leftoverPool.pboMethod) ∧
      s1.color = leftoverPool.color ∧
      (∀ slot, Event.producerWrite slot ∈ s1.events →
        Event.producerWrite slot ∈ leftoverPool.events) ∧
      s1.texture = leftoverPool.texture ∧
      s1.glBuffers =
        (if leftoverPool.pboMethod = .UNSYNCH_FENCES then leftoverPool.glBuffers
          else leftoverPool.glBuffers.map (setStore id DATA_SIZE none)) :=
  ⟨Or.inl rfl, rfl, leftoverPool_fenceRel,
    C15_map_failure failedMapTick leftoverPool (Or.inl rfl) rfl (by decide) (by decide) rfl rfl
      (by decide) (by decide) leftoverPool_fenceRel⟩

/-- Counterexample to C16 as stated: a frame under `UNSYNCH_FENCES` whose wait on
the fence of the slot returns `GL_CONDITION_SATISFIED` writes no line at all. -/
theorem C16_counterexample :
    (run (initState true true 4096)
        [.key allOk 32, .key allOk 32, .key allOk 32, .tick calmTick]).toOption.map
      (fun s => (s.pboFences, s.log.length)) = some ([some 1], 7) ∧
    (run (initState true true 4096)
        [.key allOk 32, .key allOk 32, .key allOk 32, .tick calmTick,
          .tick hadToWaitTick]).toOption.map
      (fun s => (s.pboFences, s.log.length,
        s.events.filter fun e => match e with | .clientWaitSync _ _ => true | _ => false)) =
      some ([some 2], 7, [.clientWaitSync 1 .CONDITION_SATISFIED]) := by
  constructor
  · rfl
  · rfl

/-- C16 (amended): in a frame under `UNSYNCH_FENCES` or `AMD` whose upload slot
holds a fence, the lines written by the wait depend on its outcome alone: none
for `GL_ALREADY_SIGNALED` and none for `GL_CONDITION_SATISFIED`, the warning
`warnTimeoutExpired` for `GL_TIMEOUT_EXPIRED`, the error `errWaitFailed` for
`GL_WAIT_FAILED`; the rest of the frame writes no such line. For every outcome
the frame goes on: under `AMD`, and under `UNSYNCH_FENCES` when the map call
succeeds, the producer fills the upload slot. -/
theorem C16_wait_outcomes (env : TickEnv) (s : State)
    (hm : s.pboMethod = .UNSYNCH_FENCES ∨ s.pboMethod = .AMD)
    (h1 : 1 ≤ s.pboCount) (h2 : s.pboCount ≤ 2147483647)
    (hc : s.pboCount = (s.pboIds.length : Int)) (hfl : s.pboFences.length = s.pboIds.length)
    (h3 : 0 ≤ s.copyIdx) (h4 : s.copyIdx < 2147483647)
    (hp : s.pboMethod = .AMD → PinnedOk s)
    (hr : FenceRel s.glSyncs s.pboFences s.nextSync) :
    ∃ c u s1 more tail, rotate s = .ok (c, u) ∧ displayCB env s = .ok s1 ∧
      s1.log = s.log ++ claimLog env s u ++ more ∧ (∀ l ∈ more, ¬ IsWaitLine l) ∧
      (∀ f : Nat, s.pboFences[u.toNat]? = some (some f) →
        claimLog env s u =
          match env.waitResult with
          | .ALREADY_SIGNALED => []
          | .CONDITION_SATISFIED => []
          | .TIMEOUT_EXPIRED => [.warnTimeoutExpired u]
          | .WAIT_FAILED => [.errWaitFailed]) ∧
      s1.events = s.events ++ claimEvents env s u ++ tail ∧
      (s.pboMethod = .AMD ∨ env.mapOk = true → Event.producerWrite u.toNat ∈ tail) := by
  obtain ⟨c, u, s1, more, tail, d0, d1, d2, d3, d4, d5, _, _, _⟩ :=
    displayCB_fence_frame env s hm h1 h2 hc hfl h3 h4 hp hr
  refine ⟨c, u, s1, more, tail, d0, d1, d2, d3, ?_, d4, fun h => (d5 h).1⟩
  intro f hf
  unfold claimLog
  rw [hf]
  cases env.waitResult <;> rfl

/-- Witness of C16: one buffer under `UNSYNCH_FENCES` whose slot holds a live fence,
in a frame whose wait returns `GL_CONDITION_SATISFIED`. -/
theorem C16_wait_outcomes_witness :
    (fencedPool.pboMethod = .UNSYNCH_FENCES ∨ fencedPool.pboMethod = .AMD) ∧
    FenceRel fencedPool.glSyncs fencedPool.pboFences fencedPool.nextSync ∧
    ∃ c u s1 more tail, rotate fencedPool = .ok (c, u) ∧
      displayCB hadToWaitTick fencedPool = .ok s1 ∧
      s1.log = fencedPool.log ++ claimLog hadToWaitTick fencedPool u ++ more ∧
      (∀ l ∈ more, ¬ IsWaitLine l) ∧
      (∀ f : Nat, fencedPool.pboFences[u.toNat]? = some (some f) →
        claimLog hadToWaitTick fencedPool u =
          match hadToWaitTick.waitResult with
          | .ALREADY_SIGNALED => []
          | .CONDITION_SATISFIED => []
          | .TIMEOUT_EXPIRED => [.warnTimeoutExpired u]
          | .WAIT_FAILED => [.errWaitFailed]) ∧
      s1.events = fencedPool.events ++ claimEvents hadToWaitTick fencedPool u ++ tail ∧
      (fencedPool.pboMethod = .AMD ∨ hadToWaitTick.mapOk = true →
        Event.producerWrite u.toNat ∈ tail) :=
  ⟨Or.inl rfl, fencedPool_fenceRel,
    C16_wait_outcomes hadToWaitTick fencedPool (Or.inl rfl) (by decide) (by decide) rfl rfl
      (by decide) (by decide) (fun h => absurd h (by decide)) fencedPool_fenceRel⟩

/-- C17: when, growing the pool under `AMD` to `n` buffers, the host allocation
succeeds for the first `j` new buffers and fails for the next one, `setPboCount`
returns normally: `pboCount` is the old size plus `j`, below `n`; `pboIds`,
`pboFences` and `alignedBuffers` each gained exactly `j` entries; and the output
ends with the two error lines of the failed allocation and the line `PBO Count`. -/
theorem C17_allocation_failure (env : GrowEnv) (n j : Nat) (s : State)
    (hs : s.pboSupported = true) (hp : PoolOk s) (hm : s.pboMethod = .AMD)
    (ha : alignmentCheck s.systemPageSize = true)
    (hok : ∀ t, t < j → env (s.pboIds.length + t) = .ok)
    (hf : env (s.pboIds.length + j) = .allocFails)
    (hj : s.pboIds.length + j < n) :
    ∃ s1 mid, setPboCount env n s = .ok s1 ∧
      s1.pboCount = ((s.pboIds.length + j : Nat) : Int) ∧ s1.pboCount < (n : Int) ∧
      (∃ fresh, s1.pboIds = s.pboIds ++ fresh ∧ fresh.length = j) ∧
      s1.pboFences = s.pboFences ++ List.replicate j none ∧
      (∃ ptrs, s1.alignedBuffers = s.alignedBuffers ++ ptrs ∧ ptrs.length = j) ∧
      s1.log = s.log ++ mid ++ [.errPosixMemalign DATA_SIZE s.systemPageSize,
        .errAlignedMalloc DATA_SIZE s.systemPageSize,
        .pboCountLine ((s.pboIds.length + j : Nat) : Int)] := by
  obtain ⟨s1, mid, g0, g1, g2, g3, g4, g5⟩ :=
    setPboCount_allocFails env n j s hs hp hm ha hok hf hj
  exact ⟨s1, mid, g0, g1, by rw [g1]; omega, g2, g3, g4, g5⟩

/-- Witness of C17: five buffers requested on the empty pool under `AMD`, the third
host allocation fails. -/
theorem C17_allocation_failure_witness :
    pinnedStart.pboSupported = true ∧ PoolOk pinnedStart ∧ pinnedStart.pboMethod = .AMD ∧
    alignmentCheck pinnedStart.systemPageSize = true ∧
    failThird (pinnedStart.pboIds.length + 2) = .allocFails ∧
    ∃ s1 mid, setPboCount failThird ((5 : Nat) : Int) pinnedStart = .ok s1 ∧
      s1.pboCount = ((pinnedStart.pboIds.length + 2 : Nat) : Int) ∧
      s1.pboCount < ((5 : Nat) : Int) ∧
      (∃ fresh, s1.pboIds = pinnedStart.pboIds ++ fresh ∧ fresh.length = 2) ∧
      s1.pboFences = pinnedStart.pboFences ++ List.replicate 2 none ∧
      (∃ ptrs, s1.alignedBuffers = pinnedStart.alignedBuffers ++ ptrs ∧ ptrs.length = 2) ∧
      s1.log = pinnedStart.log ++ mid ++
        [.errPosixMemalign DATA_SIZE pinnedStart.systemPageSize,
          .errAlignedMalloc DATA_SIZE pinnedStart.systemPageSize,
          .pboCountLine ((pinnedStart.pboIds.length + 2 : Nat) : Int)] :=
  ⟨rfl, pinnedStart_poolOk, rfl, by decide, rfl,
    C17_allocation_failure failThird 5 2 pinnedStart rfl pinnedStart_poolOk rfl (by decide)
      failThird_ok rfl (by decide)⟩

/-- Counterexample to C18 as stated: the check `(alignment & (alignment - 1)) == 0`
passes for `alignment = 0`, which is not a power of two. -/
theorem C18_counterexample :
    alignmentCheck 0 = true ∧ ¬ ∃ k : Nat, 0 = 2 ^ k := by
  refine ⟨by decide, ?_⟩
  rintro ⟨k, hk⟩
  exact absurd hk.symm (by positivity)

/-- C18 (amended): for every `size_t` value `alignment`, the check of
`alignedMalloc` passes exactly when `alignment` is zero or a power of two; hence
for every non-zero value, the only kind the program passes, exactly when it is a
power of two. -/
theorem C18_alignment_check (a : Nat) (h : a < 18446744073709551616) :
    (alignmentCheck a = true ↔ a = 0 ∨ ∃ k : Nat, a = 2 ^ k) ∧
    (0 < a → (alignmentCheck a = true ↔ ∃ k : Nat, a = 2 ^ k)) := by
  have hiff := alignmentCheck_iff a h
  refine ⟨hiff, fun hpos => ?_⟩
  rw [hiff]
  constructor
  · rintro (h0 | hk)
    · omega
    · exact hk
  · intro hk
    exact Or.inr hk

/-- Witness of C18: the default page size 4096. -/
theorem C18_alignment_check_witness :
    (4096 : Nat) < 18446744073709551616 ∧
    (alignmentCheck 4096 = true ↔ 4096 = 0 ∨ ∃ k : Nat, 4096 = 2 ^ k) ∧
    (0 < 4096 → (alignmentCheck 4096 = true ↔ ∃ k : Nat, 4096 = 2 ^ k)) :=
  ⟨by decide, C18_alignment_check 4096 (by decide)⟩

/-- C19: `updatePixels` with a null destination writes nothing and returns the
pattern counter it was given, for every value of the size argument. -/
theorem C19_null_destination (size color : Nat) :
    updatePixels false size color = (none, color) := rfl

/-- C20 (code defect): four presses of the space key from the start state lead to
`AMD` with a pool of one buffer and no host block at all, and the next frame reads
`alignedBuffers[0]` out of range. -/
theorem C20_pinned_slot_missing :
    (run (initState true true 4096)
        [.key allOk 32, .key allOk 32, .key allOk 32, .key allOk 32]).toOption.map
      (fun s => (s.pboMethod, s.pboCount, s.pboIds, s.alignedBuffers)) =
      some (.AMD, 1, [1], []) ∧
    run (initState true true 4096)
      [.key allOk 32, .key allOk 32, .key allOk 32, .key allOk 32, .tick calmTick] =
      .error .indexOutOfRange := by
  constructor
  · rfl
  · rfl

/-- C21: in every state reached from the start state by key presses and frames,
`pboIds` and `pboFences` both have `pboCount` entries; and when `pboCount >= 1`
the rotation of a buffered frame succeeds with
`copyIdx = (old copyIdx + 1) mod pboCount` and `uploadIdx = (copyIdx + 1) mod
pboCount`, both in `0 .. pboCount - 1` whatever value `copyIdx` was left with, so
that the reads `pboIds[uploadIdx]`, `pboIds[copyIdx]` and `pboFences[uploadIdx]`
are in range. -/
theorem C21_indices_in_bounds (a b : Bool) (p : Nat) (inputs : List Input) (s : State)
    (h : run (initState a b p) inputs = .ok s) :
    (s.pboIds.length : Int) = s.pboCount ∧ (s.pboFences.length : Int) = s.pboCount ∧
    (1 ≤ s.pboCount →
      ∃ (c u : Int) (idu idc : Nat) (fu : Option Nat), rotate s = .ok (c, u) ∧
        c = (s.copyIdx + 1) % s.pboCount ∧ u = (c + 1) % s.pboCount ∧
        0 ≤ c ∧ c < s.pboCount ∧ 0 ≤ u ∧ u < s.pboCount ∧
        vecAt s.pboIds u = .ok idu ∧ vecAt s.pboIds c = .ok idc ∧
        vecAt s.pboFences u = .ok fu) := by
  have hs := run_sized inputs (initState a b p) s h (initState_sized a b p)
  refine ⟨hs.count_len.symm, ?_, sized_indices s hs⟩
  rw [hs.slots_len]
  exact hs.count_len.symm

/-- Witness of C21: a pool of three buffers under `ORPHAN` run for two frames and
then shrunk to one buffer, which leaves `copyIdx = 2` with `pboCount = 1`. -/
theorem C21_indices_in_bounds_witness :
    ∃ s, run (initState true true 4096)
        [.key allOk 32, .key allOk 51, .tick calmTick, .tick calmTick, .key allOk 49] = .ok s ∧
      s.copyIdx = 2 ∧ s.pboCount = 1 ∧
      (s.pboIds.length : Int) = s.pboCount ∧ (s.pboFences.length : Int) = s.pboCount ∧
      (1 ≤ s.pboCount →
        ∃ (c u : Int) (idu idc : Nat) (fu : Option Nat), rotate s = .ok (c, u) ∧
          c = (s.copyIdx + 1) % s.pboCount ∧ u = (c + 1) % s.pboCount ∧
          0 ≤ c ∧ c < s.pboCount ∧ 0 ≤ u ∧ u < s.pboCount ∧
          vecAt s.pboIds u = .ok idu ∧ vecAt s.pboIds c = .ok idc ∧
          vecAt s.pboFences u = .ok fu) :=
  ⟨_, rfl, rfl, rfl,
    C21_indices_in_bounds true true 4096
      [.key allOk 32, .key allOk 51, .tick calmTick, .tick calmTick, .key allOk 49] _ rfl⟩

/-- C22: in any sequence of calls of `printTransferRate`, take a call that rolls
the window over (reading `t0 >= 1`), then calls `ts` that all read less than one
second, then the next rollover call (reading `t >= 1`). The frame count is 0
after the first rollover, `|ts|` before the second one, and 0 again after it;
when the second rollover computes a rate, the count it divides by `t` is `|ts|`,
that is the `|ts| + 1` calls made since the previous rollover minus one: the
rollover call itself is counted in neither window. The number of calls in a
window is taken within the range of `int`. -/
theorem C22_rollover_call_not_counted (s : State) (pre ts : List ℚ) (t0 t : ℚ)
    (h0 : ¬ t0 < 1) (hts : ∀ x ∈ ts, x < 1) (ht : ¬ t < 1)
    (hlen : ts.length ≤ 2147483647) :
    (meterRun s (pre ++ [t0])).count = 0 ∧
    (meterRun s (pre ++ [t0] ++ ts)).count = (ts.length : Int) ∧
    (meterRun s (pre ++ [t0] ++ ts ++ [t])).count = 0 ∧
    (¬ 0 < (meterRun s (pre ++ [t0] ++ ts)).rateDiscarded →
      (meterRun s (pre ++ [t0] ++ ts ++ [t])).frameRateSum =
        (meterRun s (pre ++ [t0] ++ ts)).frameRateSum + (ts.length : ℚ) / t ∧
      (meterRun s (pre ++ [t0] ++ ts ++ [t])).transferRateSum =
        (meterRun s (pre ++ [t0] ++ ts)).transferRateSum +
          ((ts.length : ℚ) / t) * (DATA_SIZE : ℚ) * (1 / (1024 * 1024)) ∧
      ∃ ra fa, (meterRun s (pre ++ [t0] ++ ts ++ [t])).log =
        (meterRun s (pre ++ [t0] ++ ts)).log ++
          [.transferRate (((ts.length : ℚ) / t) * (DATA_SIZE : ℚ) * (1 / (1024 * 1024)))
            ((ts.length : ℚ) / t) ra fa]) :=
  meterRun_window s pre ts t0 t h0 hts ht hlen

/-- Witness of C22: a rollover, two calls inside the next window, a rollover. -/
theorem C22_rollover_call_not_counted_witness :
    (¬ (1 : ℚ) < 1) ∧ (∀ x ∈ [(0 : ℚ), 0], x < 1) ∧ (¬ (2 : ℚ) < 1) ∧
    (meterRun (initState true true 4096) ([0] ++ [1])).count = 0 ∧
    (meterRun (initState true true 4096) ([0] ++ [1] ++ [0, 0])).count =
      (([(0 : ℚ), 0].length : Nat) : Int) ∧
    (meterRun (initState true true 4096) ([0] ++ [1] ++ [0, 0] ++ [2])).count = 0 ∧
    (¬ 0 < (meterRun (initState true true 4096) ([0] ++ [1] ++ [0, 0])).rateDiscarded →
      (meterRun (initState true true 4096) ([0] ++ [1] ++ [0, 0] ++ [2])).frameRateSum =
        (meterRun (initState true true 4096) ([0] ++ [1] ++ [0, 0])).frameRateSum +
          (([(0 : ℚ), 0].length : Nat) : ℚ) / 2 ∧
      (meterRun (initState true true 4096) ([0] ++ [1] ++ [0, 0] ++ [2])).transferRateSum =
        (meterRun (initState true true 4096) ([0] ++ [1] ++ [0, 0])).transferRateSum +
          ((([(0 : ℚ), 0].length : Nat) : ℚ) / 2) * (DATA_SIZE : ℚ) * (1 / (1024 * 1024)) ∧
      ∃ ra fa, (meterRun (initState true true 4096) ([0] ++ [1] ++ [0, 0] ++ [2])).log =
        (meterRun (initState true true 4096) ([0] ++ [1] ++ [0, 0])).log ++
          [.transferRate
            (((([(0 : ℚ), 0].length : Nat) : ℚ) / 2) * (DATA_SIZE : ℚ) * (1 / (1024 * 1024)))
            ((([(0 : ℚ), 0].length : Nat) : ℚ) / 2) ra fa]) :=
  ⟨by simp, by simp, by simp,
    C22_rollover_call_not_counted (initState true true 4096) [0] [0, 0] 1 2 (by simp) (by simp)
      (by simp) (by simp)⟩

end PboUnpack
